import Mathlib

/-!
# NavSystem: navigation-graph construction and path search for a 2D platformer

A shallow embedding of `NavSystem.cpp` / `NavSystem.h`.

Conventions of the embedding.

* `float` values (`G`, `H`, `jump_cost`) live in an arbitrary type `F`; the
  operations the source applies to them are the fields of `FloatOps F`.  Every
  general theorem holds for every choice of these operations.
* Indices are mathematical integers.  The source mixes `int`, `unsigned int`
  and `size_t`; a negative value used as an index is an out-of-range access
  there (it wraps to a value of at least `2^31`), and it is an out-of-range
  access here.
* An out-of-range read of the collision buffer or of `navMap` is not
  defined by the source; here it returns whatever the oracle `Oob` holds, and
  every general theorem is proved for every oracle.
* Values stored into `unsigned int` containers are reduced with `toU32`.
-/

namespace NavSystem

/-! ## Data model (NavSystem.h) -/

/-- The `float` operations the source uses. -/
structure FloatOps (F : Type) where
  /-- conversion of an integer to `float` -/
  ofInt : Int → F
  /-- The source operation `operator+` -/
  add : F → F → F
  /-- The source operation `operator<` -/
  lt : F → F → Bool
  /-- The source operation `FPlatformMath::Sqrt` -/
  sqrt : F → F
  /-- The source operation `FPlatformMath::Pow(x, 2.0f)` -/
  pow2 : F → F

/-- Conversion of an `int` to `unsigned int`. -/
def toU32 (i : Int) : Nat := (i % 4294967296).toNat

/-- The `struct JumpInfo`. -/
structure JumpInfo (F : Type) where
  index : Nat
  bez0 : Int
  bez1 : Int
  jump_cost : F
  jump_path : List Nat
deriving DecidableEq, Repr

/-- The `struct NavPoint`. -/
structure NavPoint (F : Type) where
  x_coord : Nat
  z_coord : Nat
  nav_type : Nat
  collision : Nat
  link_run : List Nat
  link_fall : List Nat
  link_jump : List (JumpInfo F)
  jump_paths : List (List Nat)
deriving DecidableEq, Repr

/-- A zero-filled `NavPoint`, as `TArray::AddZeroed` creates it. -/
def NavPoint.zeroed {F : Type} : NavPoint F :=
  { x_coord := 0, z_coord := 0, nav_type := 0, collision := 0,
    link_run := [], link_fall := [], link_jump := [], jump_paths := [] }

/-- What an out-of-range read returns: the collision buffer and `navMap`. -/
structure Oob (F : Type) where
  mapAt : Int → Nat
  navAt : Int → NavPoint F

/-- Read `MapIn[i]`. -/
def rdMap {F : Type} (oob : Oob F) (MapIn : List Nat) (i : Int) : Nat :=
  if 0 ≤ i ∧ i < MapIn.length then MapIn.getD i.toNat 0 else oob.mapAt i

/-- Read `navMap[i]`. -/
def rdNav {F : Type} (oob : Oob F) (navMap : List (NavPoint F)) (i : Int) : NavPoint F :=
  if 0 ≤ i ∧ i < navMap.length then navMap.getD i.toNat NavPoint.zeroed else oob.navAt i

/-- The cell `navMap[i]` for a natural index. -/
def cellAt {F : Type} (navMap : List (NavPoint F)) (i : Nat) : NavPoint F :=
  navMap.getD i NavPoint.zeroed

/-- In-place update of `navMap[i]`. -/
def updAt {F : Type} (navMap : List (NavPoint F)) (i : Nat) (f : NavPoint F → NavPoint F) :
    List (NavPoint F) :=
  navMap.set i (f (cellAt navMap i))

/-! ## DetectPlatforms -/

/-- Loop state of `DetectPlatforms`. -/
structure DetectState (F : Type) where
  navMap : List (NavPoint F)
  bPlatformStarted : Bool
  platformIndex : Nat
  returned : Bool

/-- Body of the inner loop of `DetectPlatforms` at row `z`, column `x`. -/
def detectCell {F : Type} (oob : Oob F) (mapWidth mapHeight : Nat) (MapIn : List Nat)
    (z x : Nat) (st : DetectState F) : DetectState F :=
  if st.returned then st else
  let index : Nat := z * mapWidth + x
  if index ≥ st.navMap.length then { st with returned := true } else
  let c0 : NavPoint F :=
    { cellAt st.navMap index with
      x_coord := x, z_coord := z, collision := rdMap oob MapIn index }
  let open1 : Bool :=
    !st.bPlatformStarted && (rdMap oob MapIn index == 1
      && rdMap oob MapIn ((index : Int) - mapWidth) == 0)
  let c1 : NavPoint F := if open1 then { c0 with nav_type := 1 } else c0
  let started1 : Bool := st.bPlatformStarted || open1
  let platformIndex1 : Nat := if open1 then st.platformIndex + 1 else st.platformIndex
  if started1 then
    let lowerRight := rdMap oob MapIn ((index : Int) - mapHeight + 1)
    let right := rdMap oob MapIn ((index : Int) + 1)
    let c2 : NavPoint F :=
      if lowerRight == 0 && right == 1 && c1.nav_type != 1 then { c1 with nav_type := 2 } else c1
    if lowerRight == 1 || right == 0 then
      let c3 : NavPoint F :=
        if c2.nav_type == 1 then { c2 with nav_type := 4 } else { c2 with nav_type := 3 }
      { navMap := st.navMap.set index c3, bPlatformStarted := false,
        platformIndex := platformIndex1, returned := false }
    else
      { navMap := st.navMap.set index c2, bPlatformStarted := true,
        platformIndex := platformIndex1, returned := false }
  else
    { navMap := st.navMap.set index c1, bPlatformStarted := false,
      platformIndex := platformIndex1, returned := false }

/-- One row of `DetectPlatforms`: reset the flag, then the inner loop. -/
def detectRow {F : Type} (oob : Oob F) (mapWidth mapHeight : Nat) (MapIn : List Nat)
    (st : DetectState F) (z : Nat) : DetectState F :=
  (List.range mapWidth).foldl (fun s x => detectCell oob mapWidth mapHeight MapIn z x s)
    (if st.returned then st else { st with bPlatformStarted := false })

/-- Model of `NavSystem::DetectPlatforms`: the new `navMap`. -/
def DetectPlatforms {F : Type} (oob : Oob F) (mapWidth mapHeight : Nat) (MapIn : List Nat) :
    List (NavPoint F) :=
  ((List.range mapHeight).foldl (detectRow oob mapWidth mapHeight MapIn)
    { navMap := List.replicate (mapWidth * mapHeight) NavPoint.zeroed,
      bPlatformStarted := false, platformIndex := 0, returned := false }).navMap

/-! ## CreateRunLinks -/

/-- Body of the loop of `CreateRunLinks`. -/
def runStep {F : Type} (oob : Oob F) (mapWidth : Nat) (navMap : List (NavPoint F)) (i : Nat) :
    List (NavPoint F) :=
  if (rdNav oob navMap i).nav_type ≠ 0 ∧ (i + 1) % mapWidth ≠ 0 then
    if (rdNav oob navMap ((i : Int) + 1)).nav_type ≠ 0 then
      let n1 := updAt navMap i (fun c => { c with link_run := c.link_run ++ [i + 1] })
      updAt n1 (i + 1) (fun c => { c with link_run := c.link_run ++ [i] })
    else navMap
  else navMap

/-- Model of `NavSystem::CreateRunLinks`. -/
def CreateRunLinks {F : Type} (oob : Oob F) (mapWidth mapHeight : Nat)
    (navMap : List (NavPoint F)) : List (NavPoint F) :=
  (List.range (mapWidth * mapHeight)).foldl (runStep oob mapWidth) navMap

/-! ## CreateFallLinks -/

/-- The `while (targetRow > 0)` scan of `CreateFallLinks` in column `col`:
the first `checkNavPoint` with a classification, if any. -/
def fallScan {F : Type} (oob : Oob F) (navMap : List (NavPoint F)) (mapWidth col : Nat) :
    Nat → Option Nat
  | 0 => none
  | r + 1 =>
    if (rdNav oob navMap (((r + 1) * mapWidth + col : Nat) : Int)).nav_type ≠ 0 then
      some ((r + 1) * mapWidth + col)
    else fallScan oob navMap mapWidth col r

/-- Body of the `for j` loop of `CreateFallLinks` for cell `i`:
`j = 0` probes the left tile, any other `j` the right tile. -/
def fallSide {F : Type} (oob : Oob F) (mapWidth : Nat) (i : Nat) (navMap : List (NavPoint F))
    (j : Nat) : List (NavPoint F) :=
  let sideTile : Int := if j = 0 then (i : Int) - 1 else (i : Int) + 1
  let side := rdNav oob navMap sideTile
  if side.collision = 1 then
    match fallScan oob navMap mapWidth side.x_coord (((side.z_coord : Int) - 1).toNat) with
    | some checkNavPoint =>
      updAt navMap i (fun c => { c with link_fall := c.link_fall ++ [checkNavPoint] })
    | none => navMap
  else navMap

/-- Body of the outer loop of `CreateFallLinks`. -/
def fallStep {F : Type} (oob : Oob F) (mapWidth : Nat) (navMap : List (NavPoint F)) (i : Nat) :
    List (NavPoint F) :=
  let t := (rdNav oob navMap i).nav_type
  if t = 1 ∨ t = 3 ∨ t = 4 then
    let a : Nat := if t = 3 then 1 else 0
    let b : Nat := if t = 1 then 0 else 1
    (List.range' a (b + 1 - a)).foldl (fallSide oob mapWidth i) navMap
  else navMap

/-- Model of `NavSystem::CreateFallLinks`. -/
def CreateFallLinks {F : Type} (oob : Oob F) (mapWidth mapHeight : Nat)
    (navMap : List (NavPoint F)) : List (NavPoint F) :=
  (List.range (mapWidth * mapHeight)).foldl (fallStep oob mapWidth) navMap

/-! ## CreateJumpLinks, CalculateJumpAtPoint, AddJumpLink -/

/-- The headroom loop `for (i = 0; i <= verticalSize; i++)` of `CalculateJumpAtPoint`:
true when a cell `index + i * mapWidth` inside `navMap` has `collision == 0`.
The bound test is an unsigned comparison, which a negative sum fails. -/
def headBlocked {F : Type} (oob : Oob F) (navMap : List (NavPoint F)) (mapWidth verticalSize : Nat)
    (index : Int) : Bool :=
  (List.range (verticalSize + 1)).any (fun i =>
    decide (0 ≤ index + (i : Int) * mapWidth ∧ index + (i : Int) * mapWidth < navMap.length)
      && (rdNav oob navMap (index + (i : Int) * mapWidth)).collision == 0)

/-- The arguments of one `AddJumpLink` call made by an arc. -/
structure JumpCall where
  target : Int
  height : Nat
  horizontal : Nat
  path : List Nat
deriving DecidableEq, Repr

/-- State of an arc between its phases. -/
structure ArcState where
  bSkip : Bool
  horizontal : Nat
  path : List Nat
  call : Option JumpCall
deriving DecidableEq, Repr

/-- The loop `for (f = 1; f <= offset; f++)`: straight up from the base; the list holds the
remaining values of `f`. Returns `bSkip` and the path. -/
def goUp {F : Type} (oob : Oob F) (navMap : List (NavPoint F)) (mapWidth verticalSize : Nat)
    (x z : Nat) : List Nat → List Nat → Bool × List Nat
  | [], path => (false, path)
  | f :: fs, path =>
    let index : Int := ((z : Int) + f) * mapWidth + x
    if headBlocked oob navMap mapWidth verticalSize index then (true, path)
    else goUp oob navMap mapWidth verticalSize x z fs (path ++ [toU32 index])

/-- The loop `for (j = 1 + offset; j <= height; j++)`: diagonal ascent; the list holds the
remaining values of `j`, `dir` is `bLeft ? 1 : -1`. A blocked headroom sets `bSkip` and the
loop goes on. -/
def goDiag {F : Type} (oob : Oob F) (navMap : List (NavPoint F)) (mapWidth verticalSize : Nat)
    (x z : Nat) (dir : Int) (height : Nat) : List Nat → ArcState → ArcState
  | [], st => st
  | j :: js, st =>
    let index : Int := ((z : Int) + j) * mapWidth + x + (st.horizontal : Int) * dir
    if (rdNav oob navMap index).collision = 0 then { st with bSkip := true }
    else
      let bSkip1 := st.bSkip || headBlocked oob navMap mapWidth verticalSize index
      let path1 := st.path ++ [toU32 index]
      if (rdNav oob navMap index).nav_type ≠ 0 then
        { bSkip := true, horizontal := st.horizontal, path := path1,
          call := some { target := index, height := height, horizontal := st.horizontal,
                         path := path1 } }
      else
        goDiag oob navMap mapWidth verticalSize x z dir height js
          { bSkip := bSkip1, horizontal := st.horizontal + 1, path := path1, call := none }

/-- The loop `for (j = 1; j <= height; j++)`: descent back to the start row. -/
def goDown {F : Type} (oob : Oob F) (navMap : List (NavPoint F)) (mapWidth : Nat)
    (x z : Nat) (dir : Int) (height offset : Nat) : List Nat → ArcState → ArcState
  | [], st => st
  | j :: js, st =>
    let index : Int := ((z : Int) + height - j) * mapWidth + x + (st.horizontal : Int) * dir
    if (rdNav oob navMap index).collision = 0 then { st with bSkip := true }
    else
      let path1 := st.path ++ [toU32 index]
      if (rdNav oob navMap index).nav_type ≠ 0 then
        { bSkip := true, horizontal := st.horizontal, path := path1,
          call := some { target := index, height := height, horizontal := st.horizontal,
                         path := path1 } }
      else
        goDown oob navMap mapWidth x z dir height offset js
          { bSkip := false,
            horizontal := if (j : Int) < (height : Int) - offset then st.horizontal + 1
                          else st.horizontal,
            path := path1, call := none }

/-- The loop `for (j = 1; j <= maxDropsAfterJump; j++)`: drop below the start row. -/
def goDrop {F : Type} (oob : Oob F) (navMap : List (NavPoint F)) (mapWidth : Nat)
    (x z : Nat) (dir : Int) (height horizontal : Nat) : List Nat → List Nat → Option JumpCall
  | [], _ => none
  | j :: js, path =>
    let check : Int := ((z : Int) - j) * mapWidth + x + (horizontal : Int) * dir
    if check ≤ 1 ∨ (rdNav oob navMap check).collision = 0 then none
    else
      let path1 := path ++ [toU32 check]
      if (rdNav oob navMap check).nav_type ≠ 0 then
        some { target := check, height := height + j, horizontal := horizontal, path := path1 }
      else goDrop oob navMap mapWidth x z dir height horizontal js path1

/-- The field `maxDropsAfterJump`. -/
def maxDropsAfterJump : Nat := 10

/-- One iteration of the `offset` loop of `CalculateJumpAtPoint`, up to its `AddJumpLink` call:
the call it makes, if any. -/
def jumpArc {F : Type} (oob : Oob F) (navMap : List (NavPoint F)) (mapWidth verticalSize : Nat)
    (base : Nat) (x z : Nat) (dir : Int) (height offset : Nat) : Option JumpCall :=
  let up := goUp oob navMap mapWidth verticalSize x z (List.range' 1 offset) [base]
  let index : Int := ((z : Int) + 1 + offset) * mapWidth + x
  let bSkip0 : Bool := up.1 || headBlocked oob navMap mapWidth verticalSize index
  if bSkip0 then none else
  let d := goDiag oob navMap mapWidth verticalSize x z dir height
    (List.range' (1 + offset) (height - offset))
    { bSkip := false, horizontal := 1, path := up.2, call := none }
  if d.bSkip then d.call else
  let e := goDown oob navMap mapWidth x z dir height offset (List.range' 1 height)
    { d with bSkip := false }
  if e.bSkip then e.call else
  goDrop oob navMap mapWidth x z dir height e.horizontal (List.range' 1 maxDropsAfterJump) e.path

/-- The members `navMap` and `platformsReached`, which jump-link building updates. -/
structure JumpState (F : Type) where
  navMap : List (NavPoint F)
  platformsReached : List Nat

/-- The scan of `AddJumpLink` for the highest row of the path: `(highest, z_index)`. -/
def highestRow (mapWidth : Nat) (path : List Nat) : Nat × Int :=
  (List.range path.length).foldl
    (fun (acc : Nat × Int) i =>
      if path.getD i 0 / mapWidth > acc.1 then (path.getD i 0 / mapWidth, (i : Int)) else acc)
    (0, -1)

/-- Model of `NavSystem::AddJumpLink`. -/
def AddJumpLink {F : Type} (ops : FloatOps F) (mapWidth : Nat) (st : JumpState F)
    (target : Int) (base : Nat) (height : Nat) (horizontal : Nat) (path : List Nat) :
    JumpState F :=
  if st.platformsReached.contains (toU32 target) then st
  else
    let hz := highestRow mapWidth path
    let newZ : Int := (hz.1 * mapWidth : Nat)
    let newJump : JumpInfo F :=
      { index := toU32 target,
        bez0 := if hz.2 ≥ 0 then newZ + ((base % mapWidth : Nat) : Int) else -1,
        bez1 := if hz.2 ≥ 0 then newZ + ((toU32 target % mapWidth : Nat) : Int) else -1,
        jump_cost := ops.sqrt (ops.add (ops.pow2 (ops.ofInt horizontal))
                                       (ops.pow2 (ops.ofInt height))),
        jump_path := path }
    { navMap := updAt st.navMap base (fun c =>
        { c with jump_paths := if path.length > 0 then c.jump_paths ++ [path] else c.jump_paths,
                 link_jump := c.link_jump ++ [newJump] }),
      platformsReached := st.platformsReached ++ [toU32 target] }

/-- Body of the `offset` loop of `CalculateJumpAtPoint`: the arc, then its `AddJumpLink`. -/
def jumpOffsetStep {F : Type} (ops : FloatOps F) (oob : Oob F) (mapWidth verticalSize : Nat)
    (base : Nat) (x z : Nat) (dir : Int) (height : Nat) (st : JumpState F) (offset : Nat) :
    JumpState F :=
  match jumpArc oob st.navMap mapWidth verticalSize base x z dir height offset with
  | some c => AddJumpLink ops mapWidth st c.target base c.height c.horizontal c.path
  | none => st

/-- The values `height - 1, ..., 0` of `offset`. -/
def offsets (height : Nat) : List Nat := (List.range height).reverse

/-- Model of `NavSystem::CalculateJumpAtPoint`: both directions (`bLeft` first, which adds
`+horizontal`), every offset from `height - 1` down to `0`. -/
def CalculateJumpAtPoint {F : Type} (ops : FloatOps F) (oob : Oob F) (mapWidth verticalSize : Nat)
    (height base : Nat) (st : JumpState F) : JumpState F :=
  if base ≥ st.navMap.length then st else
  let x := (cellAt st.navMap base).x_coord
  let z := (cellAt st.navMap base).z_coord
  let st1 := (offsets height).foldl
    (jumpOffsetStep ops oob mapWidth verticalSize base x z 1 height) st
  (offsets height).foldl (jumpOffsetStep ops oob mapWidth verticalSize base x z (-1) height) st1

/-- Body of the outer loop of `CreateJumpLinks`. -/
def jumpStep {F : Type} (ops : FloatOps F) (oob : Oob F) (mapWidth verticalSize jumpHeight : Nat)
    (st : JumpState F) (i : Nat) : JumpState F :=
  if (rdNav oob st.navMap i).nav_type ≠ 0 then
    (List.range' 1 jumpHeight).foldl
      (fun s j => CalculateJumpAtPoint ops oob mapWidth verticalSize j i s)
      { st with platformsReached := [] }
  else st

/-- Model of `NavSystem::CreateJumpLinks`. -/
def CreateJumpLinks {F : Type} (ops : FloatOps F) (oob : Oob F)
    (mapWidth mapHeight verticalSize jumpHeight : Nat) (st : JumpState F) : JumpState F :=
  (List.range (mapWidth * mapHeight)).foldl (jumpStep ops oob mapWidth verticalSize jumpHeight) st

/-! ## BuildNavigation -/

/-- Model of `NavSystem::BuildNavigation` on the members it touches: the previous `navMap` is
discarded by `DetectPlatforms`, `platformsReached` is carried over from the previous state. -/
def BuildNavigation {F : Type} (ops : FloatOps F) (oob : Oob F) (platformsReached : List Nat)
    (jump_height pawn_height world_width world_height : Nat) (collision_map : List Nat) :
    JumpState F :=
  let n0 : List (NavPoint F) := DetectPlatforms oob world_width world_height collision_map
  let n1 := CreateRunLinks oob world_width world_height n0
  let n2 := CreateFallLinks oob world_width world_height n1
  CreateJumpLinks ops oob world_width world_height pawn_height jump_height
    { navMap := n2, platformsReached := platformsReached }

/-! ## Path search (SetStartAndGoal, CheckPath, GetNextNode, AddNodeToOpenList) -/

/-- The `struct PathNode`. Nodes are shared pointers in the source; a node is updated in place only
while it sits in `openList`, and a parent is always a node that has left `openList`, so a
parent is stored by value. -/
structure PathNode (F : Type) where
  x_coord : Int
  z_coord : Int
  index : Int
  type : Int
  bez0 : Int
  bez1 : Int
  parent : Option (PathNode F)
  G : F
  H : F
  directions : List Nat

/-- The fields `SetCoords` gives the goal node; no other field of it is read. -/
structure GoalNode where
  x_coord : Int
  z_coord : Int
  index : Int
deriving DecidableEq, Repr

/-- The fields of the start node that `SetStartAndGoal` leaves unset. -/
structure Unset where
  type : Int
  bez0 : Int
  bez1 : Int

/-- The search members of `NavSystem`. -/
structure SearchState (F : Type) where
  startNode : Option (PathNode F)
  goalNode : Option GoalNode
  openList : List (PathNode F)
  visitedList : List (PathNode F)
  pathNodesToGoal : List (PathNode F)

/-- Model of `PathNode::GetF`. -/
def PathNode.GetF {F : Type} (ops : FloatOps F) (n : PathNode F) : F := ops.add n.G n.H

/-- Model of `PathNode::GetH` for a node at `(x, z)`. -/
def GetH {F : Type} (ops : FloatOps F) (x z : Int) (goal : GoalNode) : F :=
  ops.sqrt (ops.add (ops.pow2 (ops.ofInt (x - goal.x_coord)))
                     (ops.pow2 (ops.ofInt (z - goal.z_coord))))

/-- Model of `NavSystem::DeletePath`. -/
def DeletePath {F : Type} : SearchState F :=
  { startNode := none, goalNode := none, openList := [], visitedList := [],
    pathNodesToGoal := [] }

/-- Model of `NavSystem::SetStartAndGoal`. -/
def SetStartAndGoal {F : Type} (ops : FloatOps F) (u : Unset) (mapWidth mapHeight : Nat)
    (s : SearchState F) (start_x start_z goal_x goal_z : Int) : SearchState F :=
  let mapSize : Int := (mapWidth * mapHeight : Nat)
  let startIndex : Int := start_z * mapWidth + start_x
  let goalIndex : Int := goal_z * mapWidth + goal_x
  if start_x ≥ 0 ∧ start_z ≥ 0 ∧ goal_x ≥ 0 ∧ goal_z ≥ 0
      ∧ startIndex < mapSize ∧ goalIndex < mapSize then
    let goalNode : GoalNode := { x_coord := goal_x, z_coord := goal_z, index := goalIndex }
    let startNode : PathNode F :=
      { x_coord := start_x, z_coord := start_z, index := startIndex,
        type := u.type, bez0 := u.bez0, bez1 := u.bez1, parent := none,
        G := ops.ofInt 0, H := GetH ops start_x start_z goalNode, directions := [] }
    { s with startNode := some startNode, goalNode := some goalNode,
             openList := s.openList ++ [startNode] }
  else s

/-- The scan of `GetNextNode`: `(bestF, index)` after the loop. -/
def bestScan {F : Type} (ops : FloatOps F) (openList : List (PathNode F)) : F × Nat :=
  (List.range openList.length).foldl
    (fun (acc : F × Nat) i =>
      match openList.get? i with
      | some n => if ops.lt (n.GetF ops) acc.1 || i == 0 then (n.GetF ops, i) else acc
      | none => acc)
    (ops.ofInt 0, 0)

/-- Model of `NavSystem::GetNextNode`: the node it returns and the new state. An empty `openList`
gives no node. -/
def GetNextNode {F : Type} (ops : FloatOps F) (s : SearchState F) :
    Option (PathNode F) × SearchState F :=
  let index := (bestScan ops s.openList).2
  match s.openList.get? index with
  | some nextNode =>
    (some nextNode, { s with visitedList := s.visitedList ++ [nextNode],
                             openList := s.openList.eraseIdx index })
  | none => (none, s)

/-- The loop over `openList` in `AddNodeToOpenList`: the list after the in-place
replacements, and whether the loop left through `return`. -/
def replaceLoop {F : Type} (ops : FloatOps F) (newChild : PathNode F) :
    List (PathNode F) → List (PathNode F) × Bool
  | [] => ([], false)
  | n :: rest =>
    if newChild.index = n.index then
      if ops.lt (ops.add newChild.G n.H) (n.GetF ops) then
        let n1 : PathNode F :=
          { n with G := newChild.G, parent := newChild.parent, directions := newChild.directions,
                   type := newChild.type, bez0 := newChild.bez0, bez1 := newChild.bez1,
                   x_coord := newChild.x_coord, z_coord := newChild.z_coord,
                   index := newChild.index }
        ((n1 :: (replaceLoop ops newChild rest).1), (replaceLoop ops newChild rest).2)
      else (n :: rest, true)
    else ((n :: (replaceLoop ops newChild rest).1), (replaceLoop ops newChild rest).2)

/-- Model of `NavSystem::AddNodeToOpenList`. -/
def AddNodeToOpenList {F : Type} (ops : FloatOps F) (mapWidth : Nat) (goal : GoalNode)
    (s : SearchState F) (x z : Int) (newCost : F) (parent : PathNode F) (path : List Nat)
    (type : Int) (bez0 bez1 : Int) : SearchState F :=
  let index : Int := z * mapWidth + x
  if s.visitedList.any (fun v => decide (index = v.index)) then s
  else
    let newChild : PathNode F :=
      { x_coord := x, z_coord := z, index := index, type := type, bez0 := bez0, bez1 := bez1,
        parent := some parent, G := newCost,
        H := GetH ops parent.x_coord parent.z_coord goal, directions := path }
    let r := replaceLoop ops newChild s.openList
    if r.2 then { s with openList := r.1 }
    else { s with openList := r.1 ++ [newChild] }

/-- The walk `for (getPath = currentNode; getPath.IsValid(); getPath = getPath->parent)`. -/
def parentChain {F : Type} : PathNode F → List (PathNode F)
  | ⟨x, z, i, t, b0, b1, some p, g, h, d⟩ => ⟨x, z, i, t, b0, b1, some p, g, h, d⟩ :: parentChain p
  | ⟨x, z, i, t, b0, b1, none, g, h, d⟩ => [⟨x, z, i, t, b0, b1, none, g, h, d⟩]
termination_by structural n => n

/-- The loop that removes from `openList` the nodes with the index of the expanded node;
after `RemoveAt(i, 1)` the loop counter still advances, so the node that follows a
removed one is not tested. -/
def removeSame {F : Type} (index : Int) : List (PathNode F) → List (PathNode F)
  | [] => []
  | [n] => if index = n.index then [] else [n]
  | n :: m :: rest =>
    if index = n.index then m :: removeSame index rest
    else n :: removeSame index (m :: rest)

/-- Cost of the fall edge from cell `cur` to cell `tgt` in `CheckPath`. -/
def fallCost {F : Type} (ops : FloatOps F) (cur tgt : NavPoint F) : F :=
  if cur.z_coord > tgt.z_coord then
    ops.sqrt (ops.add (ops.ofInt 1) (ops.pow2 (ops.ofInt ((cur.z_coord - tgt.z_coord : Nat) : Int))))
  else ops.ofInt 1

/-- Body of the run-link loop of `CheckPath`. -/
def expandRun {F : Type} (ops : FloatOps F) (oob : Oob F) (navMap : List (NavPoint F))
    (mapWidth : Nat) (goal : GoalNode) (currentNode : PathNode F) (s : SearchState F)
    (index : Nat) : SearchState F :=
  let cur := rdNav oob navMap currentNode.index
  let tgt := rdNav oob navMap index
  let path : List Nat :=
    [toU32 currentNode.index] ++
      (if tgt.x_coord > cur.x_coord then [toU32 (currentNode.index + 1)]
       else if tgt.x_coord < cur.x_coord then [toU32 (currentNode.index - 1)] else [])
  AddNodeToOpenList ops mapWidth goal s tgt.x_coord tgt.z_coord
    (ops.add currentNode.G (ops.ofInt 1)) currentNode path 1 (-1) (-1)

/-- Body of the fall-link loop of `CheckPath`. -/
def expandFall {F : Type} (ops : FloatOps F) (oob : Oob F) (navMap : List (NavPoint F))
    (mapWidth : Nat) (goal : GoalNode) (currentNode : PathNode F) (s : SearchState F)
    (index : Nat) : SearchState F :=
  let cur := rdNav oob navMap currentNode.index
  let tgt := rdNav oob navMap index
  let offset : Int :=
    if tgt.x_coord > cur.x_coord then 1 else if tgt.x_coord < cur.x_coord then -1 else 0
  let path : List Nat :=
    [toU32 currentNode.index, toU32 (currentNode.index + offset),
     toU32 ((tgt.z_coord : Int) * mapWidth + cur.x_coord + offset)]
  AddNodeToOpenList ops mapWidth goal s tgt.x_coord tgt.z_coord
    (ops.add currentNode.G (fallCost ops cur tgt)) currentNode path 2 (-1) (-1)

/-- Body of the jump-link loop of `CheckPath`. -/
def expandJump {F : Type} (ops : FloatOps F) (oob : Oob F) (navMap : List (NavPoint F))
    (mapWidth : Nat) (goal : GoalNode) (currentNode : PathNode F) (s : SearchState F)
    (jump : JumpInfo F) : SearchState F :=
  let tgt := rdNav oob navMap jump.index
  AddNodeToOpenList ops mapWidth goal s tgt.x_coord tgt.z_coord
    (ops.add currentNode.G jump.jump_cost) currentNode [jump.index] 3 jump.bez0 jump.bez1

/-- The three link loops of `CheckPath` for the node being expanded. -/
def expand {F : Type} (ops : FloatOps F) (oob : Oob F) (navMap : List (NavPoint F))
    (mapWidth : Nat) (goal : GoalNode) (currentNode : PathNode F) (s : SearchState F) :
    SearchState F :=
  let cur := rdNav oob navMap currentNode.index
  let s1 := cur.link_run.foldl (expandRun ops oob navMap mapWidth goal currentNode) s
  let s2 := cur.link_fall.foldl (expandFall ops oob navMap mapWidth goal currentNode) s1
  cur.link_jump.foldl (expandJump ops oob navMap mapWidth goal currentNode) s2

/-- Model of `NavSystem::CheckPath`, with the recursion depth bounded by `fuel`: `none` when the fuel
runs out (or when the goal node is null while `openList` is not empty, which the source
dereferences). -/
def CheckPath {F : Type} (ops : FloatOps F) (oob : Oob F) (navMap : List (NavPoint F))
    (mapWidth : Nat) : Nat → SearchState F → Option (SearchState F)
  | 0, _ => none
  | fuel + 1, s =>
    if s.openList.length = 0 then some s
    else
      match s.goalNode, GetNextNode ops s with
      | some goal, (some currentNode, s1) =>
        if currentNode.index = goal.index then
          some { s1 with pathNodesToGoal := s1.pathNodesToGoal ++ parentChain currentNode }
        else
          let s2 := expand ops oob navMap mapWidth goal currentNode s1
          CheckPath ops oob navMap mapWidth fuel
            { s2 with openList := removeSame currentNode.index s2.openList }
      | _, _ => none

/-- Model of `NavSystem::GetPath`. -/
def GetPath {F : Type} (s : SearchState F) : List (PathNode F) := s.pathNodesToGoal

/-- The search as `FindPath` runs it: `DeletePath`, `SetStartAndGoal`, `CheckPath`. -/
def search {F : Type} (ops : FloatOps F) (oob : Oob F) (u : Unset) (navMap : List (NavPoint F))
    (mapWidth mapHeight : Nat) (start_x start_z goal_x goal_z : Int) (fuel : Nat) :
    Option (SearchState F) :=
  CheckPath ops oob navMap mapWidth fuel
    (SetStartAndGoal ops u mapWidth mapHeight DeletePath start_x start_z goal_x goal_z)

/-! ## Specification vocabulary and loop invariants -/

/-- Facts `DetectPlatforms` establishes for the cell of index `i`. -/
def DetCell {F : Type} (oob : Oob F) (w : Nat) (MapIn : List Nat) (i : Nat) (c : NavPoint F) :
    Prop :=
  c.x_coord = i % w ∧ c.z_coord = i / w ∧ c.collision = rdMap oob MapIn (i : Int) ∧
  c.link_run = [] ∧ c.link_fall = [] ∧ c.link_jump = [] ∧ c.jump_paths = [] ∧
  (c.nav_type = 1 ∨ c.nav_type = 4 →
    rdMap oob MapIn (i : Int) = 1 ∧ rdMap oob MapIn ((i : Int) - w) = 0)

/-- Loop invariant of `DetectPlatforms` after the first `k` cells. -/
def DetInv {F : Type} (oob : Oob F) (w h : Nat) (MapIn : List Nat) (st : DetectState F)
    (k : Nat) : Prop :=
  st.navMap.length = w * h ∧ st.returned = false ∧
  ∀ i, i < w * h → (i < k → DetCell oob w MapIn i (cellAt st.navMap i)) ∧
    (k ≤ i → cellAt st.navMap i = NavPoint.zeroed)

/-- Loop invariant of `DetectPlatforms` on a square grid of side `w` with values 0 and 1,
before the cell of column `x` in row `z`: every classified cell handled so far in a row
`z ≥ 1` is free over a colliding tile, and a platform carried over from the previous cell
means the current cell is free over a colliding tile. -/
def SquareInv {F : Type} (oob : Oob F) (w : Nat) (MapIn : List Nat) (st : DetectState F)
    (z x : Nat) : Prop :=
  (∀ i, i < z * w + x → w ≤ i → (cellAt st.navMap i).nav_type ≠ 0 →
    rdMap oob MapIn (i : Int) = 1 ∧ rdMap oob MapIn ((i : Int) - w) = 0) ∧
  (st.bPlatformStarted = true → x < w → w ≤ z * w + x →
    rdMap oob MapIn ((z * w + x : Nat) : Int) = 1 ∧
    rdMap oob MapIn (((z * w + x : Nat) : Int) - w) = 0)

/-- The fields of a cell that link building never changes. -/
def NavPoint.core {F : Type} (c : NavPoint F) : Nat × Nat × Nat × Nat :=
  (c.x_coord, c.z_coord, c.nav_type, c.collision)

/-- The condition under which `CreateRunLinks` links cell `j` with cell `j + 1`. -/
def RunCond {F : Type} (navMap : List (NavPoint F)) (w : Nat) (j : Nat) : Prop :=
  (cellAt navMap j).nav_type ≠ 0 ∧ (j + 1) % w ≠ 0 ∧ (cellAt navMap (j + 1)).nav_type ≠ 0

instance {F : Type} (navMap : List (NavPoint F)) (w j : Nat) : Decidable (RunCond navMap w j) := by
  unfold RunCond; infer_instance

/-- The run links of cell `a` once `CreateRunLinks` has handled the cells below `k`. -/
def runLinksUpTo {F : Type} (navMap : List (NavPoint F)) (w k a : Nat) : List Nat :=
  (if 1 ≤ a ∧ a - 1 < k ∧ RunCond navMap w (a - 1) then [a - 1] else []) ++
  (if a < k ∧ RunCond navMap w a then [a + 1] else [])

/-- The fall links one probe of `CreateFallLinks` adds: the probe of the tile `sideTile`. -/
def sideLinks {F : Type} (oob : Oob F) (navMap : List (NavPoint F)) (w : Nat) (sideTile : Int) :
    List Nat :=
  if (rdNav oob navMap sideTile).collision = 1 then
    match fallScan oob navMap w (rdNav oob navMap sideTile).x_coord
        ((((rdNav oob navMap sideTile).z_coord : Int) - 1).toNat) with
    | some checkNavPoint => [checkNavPoint]
    | none => []
  else []

/-- The fall links `CreateFallLinks` adds for cell `i`. -/
def fallLinksOf {F : Type} (oob : Oob F) (navMap : List (NavPoint F)) (w : Nat) (i : Nat) :
    List Nat :=
  if (cellAt navMap i).nav_type = 1 then sideLinks oob navMap w ((i : Int) - 1)
  else if (cellAt navMap i).nav_type = 3 then sideLinks oob navMap w ((i : Int) + 1)
  else if (cellAt navMap i).nav_type = 4 then
    sideLinks oob navMap w ((i : Int) - 1) ++ sideLinks oob navMap w ((i : Int) + 1)
  else []

/-- The target indices of the jump links of cell `a`. -/
def jumpTargets {F : Type} (navMap : List (NavPoint F)) (a : Nat) : List Nat :=
  (cellAt navMap a).link_jump.map (fun j => j.index)

/-- Invariant of jump-link building while cell `i` is the base: no cell lists a target twice,
every target of `i` is recorded in `platformsReached`, the cells after `i` have no jump link. -/
def JumpInv {F : Type} (st : JumpState F) (i : Nat) : Prop :=
  (∀ a, (jumpTargets st.navMap a).Nodup) ∧
  (∀ t, t ∈ jumpTargets st.navMap i → t ∈ st.platformsReached) ∧
  (∀ a, i < a → (cellAt st.navMap a).link_jump = [])

/-- Invariant of the outer loop of `CreateJumpLinks` before cell `k`. -/
def JumpOuter {F : Type} (st : JumpState F) (k : Nat) : Prop :=
  (∀ a, (jumpTargets st.navMap a).Nodup) ∧
  (∀ a, k ≤ a → (cellAt st.navMap a).link_jump = [])

/-- Cell `b` is the first classified cell met in column `col` scanning the rows below row
`zTop` downward, row 0 excluded. -/
def FirstNavBelow {F : Type} (navMap : List (NavPoint F)) (w col zTop b : Nat) : Prop :=
  ∃ r, 1 ≤ r ∧ r < zTop ∧ b = r * w + col ∧ (cellAt navMap b).nav_type ≠ 0 ∧
    ∀ r', r < r' → r' < zTop → (cellAt navMap (r' * w + col)).nav_type = 0

/-- The fall links `links` that the probe of the side tile `s` gives cell `a`: none when the
side tile is not open (`collision` is not 1); otherwise the one link to the first classified
cell below in the side tile's column, or none when that column holds no classified cell in
rows `1 .. z_a - 1`. -/
def FallProbe {F : Type} (navMap : List (NavPoint F)) (w a s : Nat) (links : List Nat) : Prop :=
  ((cellAt navMap s).collision ≠ 1 → links = []) ∧
  ((cellAt navMap s).collision = 1 →
    (∃ b, links = [b] ∧
      FirstNavBelow navMap w (cellAt navMap s).x_coord (cellAt navMap a).z_coord b) ∨
    (links = [] ∧ ∀ r, 1 ≤ r → r < (cellAt navMap a).z_coord →
      (cellAt navMap (r * w + (cellAt navMap s).x_coord)).nav_type = 0))

/-- A navigation graph over a `w × h` grid: one cell per grid position, each carrying the
coordinates of its index. -/
def GridShaped {F : Type} (navMap : List (NavPoint F)) (w h : Nat) : Prop :=
  navMap.length = w * h ∧
  ∀ i, i < w * h → (cellAt navMap i).x_coord = i % w ∧ (cellAt navMap i).z_coord = i / w

/-- The fall links of a cell `a` that is not in the first or last column, by classification:
none for an unclassified (0) or Middle (2) cell, the probe of the left tile `a - 1` for a
LeftEdge (1), the probe of the right tile `a + 1` for a RightEdge (3), both probes (left
first) for a Lone cell (4); the probed tiles are the neighbours of `a` in its row. -/
def FallLinksSpec {F : Type} (navMap : List (NavPoint F)) (w a : Nat) : Prop :=
  ∃ L R : List Nat,
    FallProbe navMap w a (a - 1) L ∧ FallProbe navMap w a (a + 1) R ∧
    (cellAt navMap (a - 1)).z_coord = (cellAt navMap a).z_coord ∧
    (cellAt navMap (a - 1)).x_coord + 1 = (cellAt navMap a).x_coord ∧
    (cellAt navMap (a + 1)).z_coord = (cellAt navMap a).z_coord ∧
    (cellAt navMap (a + 1)).x_coord = (cellAt navMap a).x_coord + 1 ∧
    ((cellAt navMap a).nav_type = 0 ∨ (cellAt navMap a).nav_type = 2 →
      (cellAt navMap a).link_fall = []) ∧
    ((cellAt navMap a).nav_type = 1 → (cellAt navMap a).link_fall = L) ∧
    ((cellAt navMap a).nav_type = 3 → (cellAt navMap a).link_fall = R) ∧
    ((cellAt navMap a).nav_type = 4 → (cellAt navMap a).link_fall = L ++ R)

/-! ## Specification vocabulary for the path search -/

/-- A navigation graph over a `w × h` grid whose link targets are in range. -/
def WellFormed {F : Type} (navMap : List (NavPoint F)) (w h : Nat) : Prop :=
  GridShaped navMap w h ∧
  ∀ i, i < w * h →
    (∀ b, b ∈ (cellAt navMap i).link_run → b < w * h) ∧
    (∀ b, b ∈ (cellAt navMap i).link_fall → b < w * h) ∧
    (∀ j, j ∈ (cellAt navMap i).link_jump → j.index < w * h)

/-- Cell `b` is the target of a run, fall or jump link of cell `a`. -/
def Edge {F : Type} (navMap : List (NavPoint F)) (a b : Nat) : Prop :=
  b ∈ (cellAt navMap a).link_run ∨ b ∈ (cellAt navMap a).link_fall ∨
  ∃ j, j ∈ (cellAt navMap a).link_jump ∧ j.index = b

/-- Cell `b` can be reached from cell `a` by following run, fall and jump links. -/
def Reach {F : Type} (navMap : List (NavPoint F)) (a b : Nat) : Prop :=
  Relation.ReflTransGen (Edge navMap) a b

/-- Node `c` was reached from node `p` over a link of its recorded type, and its `G` is the
`G` of `p` plus the cost of that edge: 1.0 for a run link (type 1), the fall cost for a fall
link (type 2), the stored jump cost for a jump link (type 3). -/
def EdgeOK {F : Type} (ops : FloatOps F) (navMap : List (NavPoint F)) (p c : PathNode F) :
    Prop :=
  ∃ a b : Nat, p.index = (a : Int) ∧ c.index = (b : Int) ∧
    ((c.type = 1 ∧ b ∈ (cellAt navMap a).link_run ∧ c.G = ops.add p.G (ops.ofInt 1)) ∨
     (c.type = 2 ∧ b ∈ (cellAt navMap a).link_fall ∧
        c.G = ops.add p.G (fallCost ops (cellAt navMap a) (cellAt navMap b))) ∨
     (c.type = 3 ∧ ∃ j, j ∈ (cellAt navMap a).link_jump ∧ j.index = b ∧
        c.G = ops.add p.G j.jump_cost))

/-- A list of nodes that runs back to the start: the last node is the start node (no parent,
`G = 0`, the start index), the parent of every other node is the next node of the list, and
every other node was reached from its parent over a link (`EdgeOK`). -/
def PathOK {F : Type} (ops : FloatOps F) (navMap : List (NavPoint F)) (startIndex : Nat) :
    List (PathNode F) → Prop
  | [] => False
  | [s] => s.parent = none ∧ s.G = ops.ofInt 0 ∧ s.index = (startIndex : Int)
  | c :: p :: rest =>
    c.parent = some p ∧ EdgeOK ops navMap p c ∧ PathOK ops navMap startIndex (p :: rest)

/-- A goal-to-start path: the first node is at the goal and the list is `PathOK`. -/
def GoalToStart {F : Type} (ops : FloatOps F) (navMap : List (NavPoint F))
    (startIndex goalIndex : Nat) (path : List (PathNode F)) : Prop :=
  (∃ first, path.head? = some first ∧ first.index = (goalIndex : Int)) ∧
  PathOK ops navMap startIndex path

/-- The cost `G` does not decrease from a node's parent to the node, along a goal-to-start list. -/
def GNonDecreasing {F : Type} (ops : FloatOps F) : List (PathNode F) → Prop
  | [] => True
  | [_] => True
  | c :: p :: rest => ops.lt c.G p.G = false ∧ GNonDecreasing ops (p :: rest)

/-- A cost that is not below zero. -/
def NonNeg {F : Type} (ops : FloatOps F) (c : F) : Prop := ops.lt c (ops.ofInt 0) = false

/-- The order facts about the float operations that the cost claims rest on: adding a
non-negative value does not give a smaller value, and 1.0 and square roots are
non-negative. -/
def OrderedOps {F : Type} (ops : FloatOps F) : Prop :=
  (∀ g c, NonNeg ops c → ops.lt (ops.add g c) g = false) ∧
  NonNeg ops (ops.ofInt 1) ∧ ∀ x, NonNeg ops (ops.sqrt x)

/-- Every stored jump cost of the graph is non-negative. -/
def NonNegJumps {F : Type} (ops : FloatOps F) (navMap : List (NavPoint F)) : Prop :=
  ∀ i j, j ∈ (cellAt navMap i).link_jump → NonNeg ops j.jump_cost

/-- The indices of the visited nodes. -/
def visitedIdx {F : Type} (s : SearchState F) : List Int := s.visitedList.map (fun n => n.index)

/-- The indices of the open nodes. -/
def openIdx {F : Type} (s : SearchState F) : List Int := s.openList.map (fun n => n.index)

/-- Number of grid cells that no visited node stands on. -/
def unvisitedCount {F : Type} (n : Nat) (s : SearchState F) : Nat :=
  ((List.range n).filter (fun i : Nat => decide (Int.ofNat i ∉ visitedIdx s))).length

/-- Number of open nodes that stand on a cell some visited node stands on. -/
def staleCount {F : Type} (s : SearchState F) : Nat :=
  ((openIdx s).filter (fun i => decide (i ∈ visitedIdx s))).length

/-- Invariant of `CheckPath` at the head of each call, for the search from cell `sIdx` to
cell `gIdx` of a `w × h` graph. -/
def SearchInv {F : Type} (ops : FloatOps F) (navMap : List (NavPoint F)) (w h sIdx gIdx : Nat)
    (s : SearchState F) : Prop :=
  (∃ goal : GoalNode, s.goalNode = some goal ∧ goal.index = (gIdx : Int)) ∧
  s.pathNodesToGoal = [] ∧
  (∀ n, n ∈ s.openList ∨ n ∈ s.visitedList →
    PathOK ops navMap sIdx (parentChain n) ∧ ∃ a : Nat, a < w * h ∧ n.index = (a : Int)) ∧
  ((sIdx : Int) ∈ visitedIdx s ∨ (sIdx : Int) ∈ openIdx s) ∧
  (gIdx : Int) ∉ visitedIdx s ∧
  (∀ a b : Nat, (a : Int) ∈ visitedIdx s → Edge navMap a b →
    (b : Int) ∈ visitedIdx s ∨ (b : Int) ∈ openIdx s)

/-- What the link loops of `CheckPath` may do to the state while node `cur` is expanded: the
visited list, the goal and the path stay; a node of the new open list is an old one or a
child of `cur` over a link; no index leaves the open list; the count of stale open nodes
stays. -/
def ExpRel {F : Type} (ops : FloatOps F) (navMap : List (NavPoint F)) (n : Nat)
    (cur : PathNode F) (s s' : SearchState F) : Prop :=
  s'.visitedList = s.visitedList ∧ s'.goalNode = s.goalNode ∧
  s'.pathNodesToGoal = s.pathNodesToGoal ∧
  (∀ n', n' ∈ s'.openList → n' ∈ s.openList ∨
    (n'.parent = some cur ∧ EdgeOK ops navMap cur n' ∧ ∃ b : Nat, b < n ∧ n'.index = (b : Int))) ∧
  (∀ i, i ∈ openIdx s → i ∈ openIdx s') ∧
  staleCount s' = staleCount s

/-- A small graph on a 3 × 1 grid: cell 0 runs to cell 1, cell 1 jumps to cell 2 at cost 2. -/
def navLine : List (NavPoint Nat) :=
  [ { x_coord := 0, z_coord := 0, nav_type := 1, collision := 1,
      link_run := [1], link_fall := [], link_jump := [], jump_paths := [] },
    { x_coord := 1, z_coord := 0, nav_type := 2, collision := 1,
      link_run := [0], link_fall := [],
      link_jump := [{ index := 2, bez0 := -1, bez1 := -1, jump_cost := 2, jump_path := [2] }],
      jump_paths := [[2]] },
    { x_coord := 2, z_coord := 0, nav_type := 3, collision := 1,
      link_run := [], link_fall := [], link_jump := [], jump_paths := [] } ]

/-- Unset fields of the start node, as zeros. -/
def zeroUnset : Unset := { type := 0, bez0 := 0, bez1 := 0 }

/-! ## Concrete instances used to evaluate the definitions -/

/-- A computable instance of the float operations over the naturals (integer square root). -/
def natOps : FloatOps Nat :=
  { ofInt := Int.natAbs, add := fun a b => a + b, lt := fun a b => decide (a < b),
    sqrt := Nat.sqrt, pow2 := fun x => x * x }

/-- An oracle for out-of-range reads that returns zeros. -/
def zeroOob : Oob Nat := { mapAt := fun _ => 0, navAt := fun _ => NavPoint.zeroed }

/-- A 4 × 3 grid (rows bottom-up; 1 is a free tile, 0 a colliding one). -/
def gridNonSquare : List Nat :=
  [0, 0, 0, 0,
   0, 1, 0, 0,
   1, 1, 0, 0]

/-- A 2 × 2 grid with one free tile over a colliding one. -/
def gridLone : List Nat :=
  [0, 0,
   1, 0]

/-- A 5 × 5 grid: a one-tile ledge at (2, 3) with free shafts on both sides. -/
def gridLedge : List Nat :=
  [0, 0, 0, 0, 0,
   0, 1, 0, 1, 0,
   0, 1, 0, 1, 0,
   0, 1, 1, 1, 0,
   0, 0, 0, 0, 0]

/-- A 6 × 6 grid: a free shaft in the last column and a standable tile at (0, 3). -/
def gridWrap : List Nat :=
  [0, 0, 0, 0, 0, 0,
   0, 0, 0, 0, 0, 1,
   0, 0, 0, 0, 0, 1,
   1, 0, 0, 0, 0, 1,
   1, 0, 0, 0, 0, 0,
   0, 0, 0, 0, 0, 0]

/-- A 7 × 7 grid: a flat floor five tiles wide (columns 1 to 5 of row 1) under free space. -/
def gridFlat : List Nat :=
  [0, 0, 0, 0, 0, 0, 0,
   0, 1, 1, 1, 1, 1, 0,
   0, 1, 1, 1, 1, 1, 0,
   0, 1, 1, 1, 1, 1, 0,
   0, 1, 1, 1, 1, 1, 0,
   0, 1, 1, 1, 1, 1, 0,
   0, 0, 0, 0, 0, 0, 0]

/-! ## FindPath -/

/-- The `FVector` that `FindPath` returns. Its components are computed in unsigned integer
arithmetic before the conversion to `float`, so they are whole numbers here. -/
structure FVector where
  X : Int
  Y : Int
  Z : Int
deriving DecidableEq, Repr

/-- The sentinel `FVector::ZeroVector`. -/
def ZeroVector : FVector := { X := 0, Y := 0, Z := 0 }

/-- The start correction of `FindPath` ("find nearest available nav point above (max 1 off)"):
the pair `(start_z, start_index)` after it. -/
def startAbove {F : Type} (oob : Oob F) (navMap : List (NavPoint F)) (mapWidth : Nat)
    (start_z start_index : Int) : Int × Int :=
  if (rdNav oob navMap start_index).nav_type = 0 then
    if start_index + (mapWidth : Int) < navMap.length then
      if (rdNav oob navMap (start_index + (mapWidth : Int))).nav_type ≠ 0 then
        (start_z + 1, start_index + (mapWidth : Int))
      else (start_z, start_index)
    else (start_z, start_index)
  else (start_z, start_index)

/-- The loop `for (int i = goal_z - 1; i > 0; i--)` of `FindPath`: the first row `i`, top
down, whose cell in column `goal_x` is inside `navMap` and classified. -/
def goalScan {F : Type} (oob : Oob F) (navMap : List (NavPoint F)) (mapWidth : Nat)
    (goal_x : Int) : Nat → Option Nat
  | 0 => none
  | i + 1 =>
    if ((i + 1 : Nat) : Int) * mapWidth + goal_x < navMap.length
        ∧ ((i + 1 : Nat) : Int) * mapWidth + goal_x ≥ 0
        ∧ (rdNav oob navMap (((i + 1 : Nat) : Int) * mapWidth + goal_x)).nav_type ≠ 0 then
      some (i + 1)
    else goalScan oob navMap mapWidth goal_x i

/-- The goal correction of `FindPath` (the cell above, else the scan below): the pair
`(goal_z, goal_index)` after it. -/
def goalResolve {F : Type} (oob : Oob F) (navMap : List (NavPoint F)) (mapWidth : Nat)
    (goal_x goal_z goal_index : Int) : Int × Int :=
  if (rdNav oob navMap goal_index).nav_type = 0 then
    if goal_index + (mapWidth : Int) < navMap.length
        ∧ (rdNav oob navMap (goal_index + (mapWidth : Int))).nav_type ≠ 0 then
      (goal_z + 1, goal_index + (mapWidth : Int))
    else
      match goalScan oob navMap mapWidth goal_x (goal_z - 1).toNat with
      | some i => ((i : Int), (i : Int) * mapWidth + goal_x)
      | none => (goal_z, goal_index)
  else (goal_z, goal_index)

/-- Model of `NavSystem::FindPath` from the resolved cell coordinates on: `start_x`, `goal_x`
and `goal_z` stand for `FloorToInt(X / cellSize)` resp. `FloorToInt(Z / cellSize)` of the two
positions and `start_z` for `FloorToInt(start.Z / cellSize) - 1`. The result is the returned
vector and the search members; `none` when the fuel of `CheckPath` runs out. -/
def FindPath {F : Type} (ops : FloatOps F) (oob : Oob F) (u : Unset) (navMap : List (NavPoint F))
    (mapWidth mapHeight cellSize : Nat) (start_x start_z goal_x goal_z : Int) (fuel : Nat) :
    Option (FVector × SearchState F) :=
  let start_index : Int := start_z * mapWidth + start_x
  let goal_index : Int := goal_z * mapWidth + goal_x
  if start_z < 0 ∨ goal_z < 0 ∨ start_index ≥ navMap.length ∨ goal_index ≥ navMap.length then
    some (ZeroVector, DeletePath)
  else
    let st := startAbove oob navMap mapWidth start_z start_index
    let gl := goalResolve oob navMap mapWidth goal_x goal_z goal_index
    if (rdNav oob navMap (st.1 * mapWidth + start_x)).collision = 0
        ∨ (rdNav oob navMap (gl.1 * mapWidth + goal_x)).collision = 0 then
      some (ZeroVector, DeletePath)
    else
      match CheckPath ops oob navMap mapWidth fuel
          (SetStartAndGoal ops u mapWidth mapHeight DeletePath start_x st.1 goal_x gl.1) with
      | some s =>
        some ({ X := toU32 (goal_x * cellSize + (cellSize / 2 : Nat)), Y := 32,
                Z := toU32 ((gl.1 + 1) * cellSize) }, s)
      | none => none

/-- The state with which `CheckPath` calls itself: `none` when it returns without a recursive
call (empty open list, goal reached, or a null goal node). -/
def checkPathNext {F : Type} (ops : FloatOps F) (oob : Oob F) (navMap : List (NavPoint F))
    (mapWidth : Nat) (s : SearchState F) : Option (SearchState F) :=
  if s.openList.length = 0 then none
  else
    match s.goalNode, GetNextNode ops s with
    | some goal, (some currentNode, s1) =>
      if currentNode.index = goal.index then none
      else
        let s2 := expand ops oob navMap mapWidth goal currentNode s1
        some { s2 with openList := removeSame currentNode.index s2.openList }
    | _, _ => none

/-! ## Specification vocabulary for the later claims -/

/-- The successor `CheckPath` proposes for the jump link `jump` of the node `cur`: a node at
the link's target cell with `G` the `G` of `cur` plus the stored jump cost, edge type 3, the
link's curve-control pair, the parent `cur`, and the one-element waypoint list holding the
target index. -/
def JumpChild {F : Type} (ops : FloatOps F) (navMap : List (NavPoint F)) (cur : PathNode F)
    (jump : JumpInfo F) (n : PathNode F) : Prop :=
  n.index = (jump.index : Int) ∧
  n.x_coord = ((cellAt navMap jump.index).x_coord : Int) ∧
  n.z_coord = ((cellAt navMap jump.index).z_coord : Int) ∧
  n.G = ops.add cur.G jump.jump_cost ∧ n.type = 3 ∧
  n.bez0 = jump.bez0 ∧ n.bez1 = jump.bez1 ∧
  n.directions = [jump.index] ∧ n.parent = some cur

/-- No solid tile in the body-height span at `index`: none of the cells `index + k * w` with
`k ≤ v` that lie inside `navMap` has collision 0. -/
def ClearHeadroom {F : Type} (oob : Oob F) (navMap : List (NavPoint F)) (w v : Nat)
    (index : Int) : Prop :=
  ∀ k : Nat, k ≤ v → 0 ≤ index + (k : Int) * w → index + (k : Int) * w < navMap.length →
    (rdNav oob navMap (index + (k : Int) * w)).collision ≠ 0

/-- The cells `path` continues with after `path0`, all of them open tiles (collision not 0). -/
def OpenExt {F : Type} (oob : Oob F) (navMap : List (NavPoint F)) (path0 path : List Nat) :
    Prop :=
  ∃ cells : List Int, path = path0 ++ cells.map toU32 ∧
    ∀ i, i ∈ cells → (rdNav oob navMap i).collision ≠ 0

/-- The cells of the straight ascent of an arc from the base at column `x`, row `z`: the
`offset` cells directly above the base, bottom up. -/
def upCells (w x z offset : Nat) : List Int :=
  (List.range' 1 offset).map (fun f : Nat => ((z : Int) + (f : Int)) * w + x)

/-- The cells of the diagonal ascent of an arc: `n` cells, the first in row `z + j` at
`horizontal` columns from the base in direction `dir`, each next one a row higher and a
column further. -/
def diagCells (w x z : Nat) (dir : Int) : Nat → Nat → Nat → List Int
  | _, _, 0 => []
  | j, horizontal, n + 1 =>
    (((z : Int) + j) * w + x + (horizontal : Int) * dir)
      :: diagCells w x z dir (j + 1) (horizontal + 1) n

/-- The first cell of the descent of an arc of height `height` and straight ascent `offset`:
one row below the top of the arc, one column beyond the last cell of the diagonal ascent. -/
def firstDown (w x z : Nat) (dir : Int) (height offset : Nat) : Int :=
  ((z : Int) + height - 1) * w + x + ((1 + (height - offset) : Nat) : Int) * dir

/-- The traversed path of a jump link from the cell `base` at column `x`, row `z` is the
path of an arc of some height `height`, straight ascent `offset < height` and direction
`dir`: the base, then the `offset` cells straight above it, each with clear headroom, then
either
* the first `m ≥ 1` cells of the diagonal ascent, each an open tile (the landing cell is met
  in the diagonal ascent; nothing is said about their headroom), or
* all `height - offset` cells of the diagonal ascent, each an open tile with clear headroom,
  and then the cells of the descent and the drop, from `firstDown` on, each an open tile
  (the landing cell is met in the descent or the drop). -/
def JumpPathAt {F : Type} (oob : Oob F) (navMap : List (NavPoint F)) (w v base x z : Nat)
    (path : List Nat) : Prop :=
  ∃ (height offset : Nat) (dir : Int), offset < height ∧ (dir = 1 ∨ dir = -1) ∧
    (∀ i, i ∈ upCells w x z offset → ClearHeadroom oob navMap w v i) ∧
    ((∃ m, 1 ≤ m ∧ m ≤ height - offset ∧
        path = base :: (upCells w x z offset
                        ++ diagCells w x z dir (1 + offset) 1 m).map toU32 ∧
        ∀ i, i ∈ diagCells w x z dir (1 + offset) 1 m →
          (rdNav oob navMap i).collision ≠ 0) ∨
     (∃ more : List Int,
        path = base :: (upCells w x z offset
                        ++ diagCells w x z dir (1 + offset) 1 (height - offset)
                        ++ firstDown w x z dir height offset :: more).map toU32 ∧
        (∀ i, i ∈ diagCells w x z dir (1 + offset) 1 (height - offset) →
          (rdNav oob navMap i).collision ≠ 0 ∧ ClearHeadroom oob navMap w v i) ∧
        (∀ i, i ∈ firstDown w x z dir height offset :: more →
          (rdNav oob navMap i).collision ≠ 0)))

/-- The specification `JumpPathAt` at the stored coordinates of `base`. -/
def JumpPathOK {F : Type} (oob : Oob F) (navMap : List (NavPoint F)) (w v base : Nat)
    (path : List Nat) : Prop :=
  JumpPathAt oob navMap w v base (cellAt navMap base).x_coord (cellAt navMap base).z_coord path

/-- Every stored jump path of the graph `navMap` meets `JumpPathOK` over the graph `nav0`. -/
def JumpPathsInv {F : Type} (oob : Oob F) (nav0 : List (NavPoint F)) (w v : Nat)
    (navMap : List (NavPoint F)) : Prop :=
  navMap.map NavPoint.core = nav0.map NavPoint.core ∧
  ∀ a j, j ∈ (cellAt navMap a).link_jump → JumpPathOK oob nav0 w v a j.jump_path

/-- Cell `i` of the grid `MapIn` of width `w` is standable: its tile is free (1) and the tile
directly below it is colliding (0). -/
def Standable (MapIn : List Nat) (w i : Nat) : Prop :=
  MapIn.getD i 0 = 1 ∧ MapIn.getD (i - w) 0 = 0

instance (MapIn : List Nat) (w i : Nat) : Decidable (Standable MapIn w i) :=
  inferInstanceAs (Decidable (MapIn.getD i 0 = 1 ∧ MapIn.getD (i - w) 0 = 0))

/-- The class of cell `i` by its place in its run of horizontally consecutive standable
cells: 0 when it is not standable, Lone (4) for a run of one, else LeftEdge (1) for the
first, RightEdge (3) for the last and Middle (2) for the others. The left neighbour counts
only when `i` is not in column 0. -/
def runClass (MapIn : List Nat) (w i : Nat) : Nat :=
  if Standable MapIn w i then
    if i % w ≠ 0 ∧ Standable MapIn w (i - 1) then
      if Standable MapIn w (i + 1) then 2 else 3
    else
      if Standable MapIn w (i + 1) then 1 else 4
  else 0

/-- The class `detectCell` leaves in a cell that was unclassified, from the flag
`bPlatformStarted` on entry and the four values read: the tile, the one below, the one the
lower-right test reads, and the one to the right. -/
def cellClass (started : Bool) (cur below lowerRight right : Nat) : Nat :=
  if started then
    if lowerRight = 1 ∨ right = 0 then 3 else if lowerRight = 0 ∧ right = 1 then 2 else 0
  else if cur = 1 ∧ below = 0 then
    if lowerRight = 1 ∨ right = 0 then 4 else 1
  else 0

/-- Loop invariant of `DetectPlatforms` on a square grid of side `w`, before the cell of
column `x` in row `z`: the cells handled so far in rows `z ≥ 1`, the last cell of the grid
apart, are classified exactly when standable, by `runClass` when not in the last column; and
a platform is carried over exactly when the previous cell and the current one are standable. -/
def ClassInv {F : Type} (w : Nat) (MapIn : List Nat) (st : DetectState F) (z x : Nat) : Prop :=
  (∀ i, i < z * w + x → w ≤ i → i + 1 < w * w →
    ((cellAt st.navMap i).nav_type ≠ 0 ↔ Standable MapIn w i) ∧
    (i % w + 1 < w → (cellAt st.navMap i).nav_type = runClass MapIn w i)) ∧
  (1 ≤ z → x < w →
    (st.bPlatformStarted = true ↔
      0 < x ∧ Standable MapIn w (z * w + x - 1) ∧ Standable MapIn w (z * w + x)))

/-! ## Further concrete instances -/

/-- An oracle for out-of-range reads of the collision buffer that returns `v`. -/
def constOob (v : Nat) : Oob Nat := { mapAt := fun _ => v, navAt := fun _ => NavPoint.zeroed }

/-- Newton iteration for the integer square root of `n` from the guess `x`, at most `fuel`
steps. -/
def sqrtIter (n : Nat) : Nat → Nat → Nat
  | 0, x => x
  | fuel + 1, x => if (x + n / x) / 2 < x then sqrtIter n fuel ((x + n / x) / 2) else x

/-- Integer square root (rounded down), by Newton iteration from `n / 2`. -/
def isqrt (n : Nat) : Nat := if n ≤ 1 then n else sqrtIter n 64 (n / 2)

/-- A computable instance of the float operations in thousandths (fixed point, rounded
down): the natural `n` stands for `n / 1000`. -/
def milliOps : FloatOps Nat :=
  { ofInt := fun i => i.natAbs * 1000, add := fun a b => a + b, lt := fun a b => decide (a < b),
    sqrt := fun x => isqrt (x * 1000), pow2 := fun x => x * x / 1000 }

/-- The grid `gridFlat` with a colliding tile at (3, 2), directly above the floor cell (3, 1). -/
def gridCeiling : List Nat :=
  [0, 0, 0, 0, 0, 0, 0,
   0, 1, 1, 1, 1, 1, 0,
   0, 1, 1, 0, 1, 1, 0,
   0, 1, 1, 1, 1, 1, 0,
   0, 1, 1, 1, 1, 1, 0,
   0, 1, 1, 1, 1, 1, 0,
   0, 0, 0, 0, 0, 0, 0]

/-- A 2 × 2 grid with a free tile in the bottom row. -/
def gridBottomFree : List Nat :=
  [1, 0,
   0, 0]

/-- A 3 × 3 grid with two free tiles at the end of the top row. -/
def gridTopRight : List Nat :=
  [0, 0, 0,
   0, 0, 0,
   0, 1, 1]

/-- A 5 × 5 grid: a one-tile platform at (1, 1), a one-tile platform at (2, 2) one step up
and to the right, and a colliding tile at (2, 3) directly above the second one. -/
def gridLowCeiling : List Nat :=
  [0, 0, 0, 0, 0,
   0, 1, 0, 0, 0,
   0, 1, 1, 0, 0,
   0, 1, 0, 0, 0,
   0, 0, 0, 0, 0]

/-- The graph `BuildNavigation` makes of `gridFlat` with jump height `J` and body height 1. -/
def navFlat {F : Type} (ops : FloatOps F) (oob : Oob F) (J : Nat) : List (NavPoint F) :=
  (BuildNavigation ops oob [] J 1 7 7 gridFlat).navMap

/-- The graph `BuildNavigation` makes of `gridWrap` with jump height 1 and body height 1. -/
def navWrap {F : Type} (ops : FloatOps F) (oob : Oob F) : List (NavPoint F) :=
  (BuildNavigation ops oob [] 1 1 6 6 gridWrap).navMap

/-- The graph `BuildNavigation` makes of `gridCeiling` with jump height 1 and body height 1. -/
def navCeiling {F : Type} (ops : FloatOps F) (oob : Oob F) : List (NavPoint F) :=
  (BuildNavigation ops oob [] 1 1 7 7 gridCeiling).navMap

/-! ## Vocabulary for node selection and path cost -/

/-- The comparison `ops.lt` is a strict weak order on the values `vals`, as `<` is on floats
that are not NaN: no value is below itself, the comparison is transitive, and a value below
another one is below any third value or that third value is below the other one. -/
def WeakOrderOn {F : Type} (ops : FloatOps F) (vals : List F) : Prop :=
  (∀ a, a ∈ vals → ops.lt a a = false) ∧
  (∀ a b c, a ∈ vals → b ∈ vals → c ∈ vals →
    ops.lt a b = true → ops.lt b c = true → ops.lt a c = true) ∧
  (∀ a b c, a ∈ vals → b ∈ vals → c ∈ vals →
    ops.lt a b = true → ops.lt a c = true ∨ ops.lt c b = true)

/-- The step of the scan of `GetNextNode` at position `i`. -/
def scanStep {F : Type} (ops : FloatOps F) (openList : List (PathNode F)) (acc : F × Nat)
    (i : Nat) : F × Nat :=
  match openList.get? i with
  | some n => if ops.lt (n.GetF ops) acc.1 || i == 0 then (n.GetF ops, i) else acc
  | none => acc

/-- Invariant of the scan of `GetNextNode` after the first `k` positions: the best position
so far holds a node whose `F` no node before position `k` is below, and which is below every
node before it. -/
def ScanInv {F : Type} (ops : FloatOps F) (openList : List (PathNode F)) (k : Nat)
    (acc : F × Nat) : Prop :=
  ∃ nb, openList.get? acc.2 = some nb ∧ acc.1 = nb.GetF ops ∧ acc.2 < k ∧
    (∀ j n, j < k → openList.get? j = some n → ops.lt (n.GetF ops) acc.1 = false) ∧
    (∀ j n, j < acc.2 → openList.get? j = some n → ops.lt acc.1 (n.GetF ops) = true)

/-- A search node at cell `index` with the costs `G` and `H`, all other fields blank. -/
def nodeGH (index : Int) (G H : Nat) : PathNode Nat :=
  { x_coord := index, z_coord := 0, index := index, type := 1, bez0 := -1, bez1 := -1,
    parent := none, G := G, H := H, directions := [] }

/-- A search state whose open list holds nodes with `F` = 5, 3, 3, 4 at the cells 7, 8, 9,
10. -/
def openFour : SearchState Nat :=
  { startNode := none, goalNode := none,
    openList := [nodeGH 7 2 3, nodeGH 8 1 2, nodeGH 9 3 0, nodeGH 10 2 2],
    visitedList := [nodeGH 6 0 4], pathNodesToGoal := [] }

/-- An 8 × 8 grid: a floor in row 1 (columns 1 to 3 and 5 to 6) with a one-tile block at
(4, 1), free space above, colliding border. -/
def gridDetour : List Nat :=
  [0, 0, 0, 0, 0, 0, 0, 0,
   0, 1, 1, 1, 0, 1, 1, 0,
   0, 1, 1, 1, 1, 1, 1, 0,
   0, 1, 1, 1, 1, 1, 1, 0,
   0, 1, 1, 1, 1, 1, 1, 0,
   0, 1, 1, 1, 1, 1, 1, 0,
   0, 1, 1, 1, 1, 1, 1, 0,
   0, 0, 0, 0, 0, 0, 0, 0]

/-- The graph `BuildNavigation` makes of `gridDetour` with jump height 2 and body height 1. -/
def navDetour {F : Type} (ops : FloatOps F) (oob : Oob F) : List (NavPoint F) :=
  (BuildNavigation ops oob [] 2 1 8 8 gridDetour).navMap

/-! ## Basic facts about reads and updates -/

theorem length_updAt {F : Type} (nav : List (NavPoint F)) (i : Nat) (f : NavPoint F → NavPoint F) :
    (updAt nav i f).length = nav.length := by
  simp [updAt]

theorem cellAt_set {F : Type} (nav : List (NavPoint F)) (i j : Nat) (c : NavPoint F) :
    cellAt (nav.set i c) j = if i = j ∧ i < nav.length then c else cellAt nav j := by
  unfold cellAt
  simp only [List.getD_eq_getElem?_getD, List.getElem?_set]
  by_cases h : i = j
  · subst h
    by_cases h2 : i < nav.length
    · simp [h2]
    · simp [h2, List.getElem?_eq_none (Nat.le_of_not_lt h2)]
  · simp [h]

theorem cellAt_updAt {F : Type} (nav : List (NavPoint F)) (i j : Nat) (f : NavPoint F → NavPoint F) :
    cellAt (updAt nav i f) j = if i = j ∧ i < nav.length then f (cellAt nav i) else cellAt nav j := by
  unfold updAt
  rw [cellAt_set]

theorem rdNav_nat {F : Type} (oob : Oob F) (nav : List (NavPoint F)) (i : Nat)
    (h : i < nav.length) : rdNav oob nav (i : Int) = cellAt nav i := by
  unfold rdNav cellAt
  have : (0:Int) ≤ i ∧ (i:Int) < nav.length := ⟨by omega, by exact_mod_cast h⟩
  simp [this]

theorem rdMap_nat {F : Type} (oob : Oob F) (m : List Nat) (i : Nat)
    (h : i < m.length) : rdMap oob m (i : Int) = m.getD i 0 := by
  unfold rdMap
  have : (0:Int) ≤ i ∧ (i:Int) < m.length := ⟨by omega, by exact_mod_cast h⟩
  simp [this]

/-! ## DetectPlatforms -/

/-- What `detectCell` does to the state when it neither has returned nor returns. -/
theorem detectCell_spec {F : Type} (oob : Oob F) (w h : Nat) (MapIn : List Nat) (z x : Nat)
    (st : DetectState F) (hr : st.returned = false) (hlt : z * w + x < st.navMap.length) :
    ∃ c : NavPoint F,
      (detectCell oob w h MapIn z x st).navMap = st.navMap.set (z * w + x) c ∧
      (detectCell oob w h MapIn z x st).returned = false ∧
      c.x_coord = x ∧ c.z_coord = z ∧ c.collision = rdMap oob MapIn ((z * w + x : Nat) : Int) ∧
      c.link_run = (cellAt st.navMap (z * w + x)).link_run ∧
      c.link_fall = (cellAt st.navMap (z * w + x)).link_fall ∧
      c.link_jump = (cellAt st.navMap (z * w + x)).link_jump ∧
      c.jump_paths = (cellAt st.navMap (z * w + x)).jump_paths ∧
      (c.nav_type = 1 ∨ c.nav_type = 4 →
        (cellAt st.navMap (z * w + x)).nav_type = 1 ∨ (cellAt st.navMap (z * w + x)).nav_type = 4 ∨
        (rdMap oob MapIn ((z * w + x : Nat) : Int) = 1 ∧
          rdMap oob MapIn (((z * w + x : Nat) : Int) - w) = 0)) := by
  have hlt2 : ¬ (z * w + x ≥ st.navMap.length) := by omega
  unfold detectCell
  simp only [hr, hlt2, if_false, Bool.false_eq_true]
  split_ifs <;> refine ⟨_, rfl, rfl, ?_⟩ <;> simp_all
  all_goals tauto

theorem cell_index_lt {w h z x : Nat} (hx : x < w) (hz : z < h) : z * w + x < w * h := by
  have h1 : (z + 1) * w ≤ h * w := Nat.mul_le_mul_right w hz
  have h2 : (z + 1) * w = z * w + w := by ring
  have h3 : h * w = w * h := Nat.mul_comm h w
  omega

theorem detInv_cell {F : Type} (oob : Oob F) (w h : Nat) (MapIn : List Nat) (z x : Nat)
    (st : DetectState F) (hx : x < w) (hz : z < h)
    (hi : DetInv oob w h MapIn st (z * w + x)) :
    DetInv oob w h MapIn (detectCell oob w h MapIn z x st) (z * w + x + 1) := by
  obtain ⟨hlen, hret, hcells⟩ := hi
  have hlt : z * w + x < w * h := cell_index_lt hx hz
  obtain ⟨c, hnav, hret2, hcx, hcz, hcc, hlr, hlf, hlj, hjp, hty⟩ :=
    detectCell_spec oob w h MapIn z x st hret (by omega)
  have hz0 : cellAt st.navMap (z * w + x) = NavPoint.zeroed := (hcells _ hlt).2 (le_refl _)
  have hw : 0 < w := by omega
  refine ⟨by rw [hnav]; simp [hlen], hret2, ?_⟩
  intro i hi
  rw [hnav, cellAt_set]
  by_cases hEq : z * w + x = i
  · subst hEq
    have hcond : z * w + x = z * w + x ∧ z * w + x < st.navMap.length := ⟨rfl, by omega⟩
    rw [if_pos hcond]
    constructor
    · intro _
      rw [hz0] at hlr hlf hlj hjp hty
      refine ⟨?_, ?_, hcc, hlr, hlf, hlj, hjp, ?_⟩
      · rw [hcx, Nat.mul_comm, Nat.mul_add_mod, Nat.mod_eq_of_lt hx]
      · rw [hcz, Nat.mul_comm, Nat.mul_add_div hw, Nat.div_eq_of_lt hx]; simp
      · intro ht
        rcases hty ht with h1 | h1 | h1
        · simp [NavPoint.zeroed] at h1
        · simp [NavPoint.zeroed] at h1
        · exact h1
    · intro hle; omega
  · have hcond : ¬ (z * w + x = i ∧ z * w + x < st.navMap.length) := fun hh => hEq hh.1
    rw [if_neg hcond]
    constructor
    · intro hlt2
      exact (hcells i hi).1 (by omega)
    · intro hle
      exact (hcells i hi).2 (by omega)

theorem detInv_row {F : Type} (oob : Oob F) (w h : Nat) (MapIn : List Nat) (z : Nat)
    (st : DetectState F) (hz : z < h) (hi : DetInv oob w h MapIn st (z * w)) :
    DetInv oob w h MapIn (detectRow oob w h MapIn st z) ((z + 1) * w) := by
  have key : ∀ x, x ≤ w → DetInv oob w h MapIn
      ((List.range x).foldl (fun s x => detectCell oob w h MapIn z x s)
        (if st.returned then st else { st with bPlatformStarted := false })) (z * w + x) := by
    intro x
    induction x with
    | zero =>
      intro _
      obtain ⟨hlen, hret, hcells⟩ := hi
      simp only [List.range_zero, List.foldl_nil, hret, Bool.false_eq_true, if_false, Nat.add_zero]
      exact ⟨hlen, rfl, hcells⟩
    | succ x ih =>
      intro hx
      rw [List.range_succ, List.foldl_append]
      simp only [List.foldl_cons, List.foldl_nil]
      exact detInv_cell oob w h MapIn z x _ (by omega) hz (ih (by omega))
  have := key w (le_refl _)
  have e : (z + 1) * w = z * w + w := by ring
  rw [e]
  exact this

theorem detInv_final {F : Type} (oob : Oob F) (w h : Nat) (MapIn : List Nat) :
    ∀ z, z ≤ h → DetInv oob w h MapIn
      ((List.range z).foldl (detectRow oob w h MapIn)
        { navMap := List.replicate (w * h) NavPoint.zeroed,
          bPlatformStarted := false, platformIndex := 0, returned := false }) (z * w) := by
  intro z
  induction z with
  | zero =>
    intro _
    refine ⟨by simp, rfl, ?_⟩
    intro i hi
    refine ⟨fun h0 => by omega, fun _ => ?_⟩
    simp [cellAt, hi]
  | succ z ih =>
    intro hz
    rw [List.range_succ, List.foldl_append]
    simp only [List.foldl_cons, List.foldl_nil]
    exact detInv_row oob w h MapIn z _ (by omega) (ih (by omega))

/-- After `DetectPlatforms` every cell carries its coordinates and collision value, has no
link, and is a platform start only over the detector's pattern. -/
theorem detectPlatforms_cells {F : Type} (oob : Oob F) (w h : Nat) (MapIn : List Nat) :
    (DetectPlatforms oob w h MapIn).length = w * h ∧
    ∀ i, i < w * h → DetCell oob w MapIn i (cellAt (DetectPlatforms oob w h MapIn) i) := by
  have := detInv_final oob w h MapIn h (le_refl _)
  obtain ⟨hlen, _, hcells⟩ := this
  refine ⟨hlen, fun i hi => (hcells i hi).1 ?_⟩
  rw [Nat.mul_comm]; exact hi

/-! ## DetectPlatforms on square grids -/

/-- How `detectCell` sets the flag and the classification from what it reads. -/
theorem detectCell_reads {F : Type} (oob : Oob F) (w h : Nat) (MapIn : List Nat) (z x : Nat)
    (st : DetectState F) (hr : st.returned = false) (hlt : z * w + x < st.navMap.length)
    (hz0 : (cellAt st.navMap (z * w + x)).nav_type = 0) :
    ((detectCell oob w h MapIn z x st).bPlatformStarted = true →
      rdMap oob MapIn (((z * w + x : Nat) : Int) - h + 1) ≠ 1 ∧
      rdMap oob MapIn (((z * w + x : Nat) : Int) + 1) ≠ 0) ∧
    ((cellAt (detectCell oob w h MapIn z x st).navMap (z * w + x)).nav_type ≠ 0 →
      st.bPlatformStarted = true ∨
      (rdMap oob MapIn ((z * w + x : Nat) : Int) = 1 ∧
        rdMap oob MapIn (((z * w + x : Nat) : Int) - w) = 0)) := by
  have hlt2 : ¬ (z * w + x ≥ st.navMap.length) := by omega
  unfold detectCell
  simp only [hr, hlt2, if_false, Bool.false_eq_true]
  split_ifs <;> simp_all [cellAt_set] <;> tauto

theorem squareInv_cell {F : Type} (oob : Oob F) (w : Nat) (MapIn : List Nat)
    (hbin : ∀ i : Nat, i < w * w → rdMap oob MapIn (i : Int) = 0 ∨ rdMap oob MapIn (i : Int) = 1)
    (z x : Nat) (st : DetectState F) (hx : x < w) (hz : z < w)
    (hd : DetInv oob w w MapIn st (z * w + x)) (hs : SquareInv oob w MapIn st z x) :
    SquareInv oob w MapIn (detectCell oob w w MapIn z x st) z (x + 1) := by
  obtain ⟨hlen, hret, hcells⟩ := hd
  obtain ⟨hA, hB⟩ := hs
  have hlt : z * w + x < w * w := cell_index_lt hx hz
  have hz0 : cellAt st.navMap (z * w + x) = NavPoint.zeroed := (hcells _ hlt).2 (le_refl _)
  obtain ⟨hflag, hty⟩ := detectCell_reads oob w w MapIn z x st hret (by omega)
    (by rw [hz0]; rfl)
  obtain ⟨c, hnav, _⟩ := detectCell_spec oob w w MapIn z x st hret (by omega)
  constructor
  · intro i hi hwi hnz
    by_cases hEq : i = z * w + x
    · subst hEq
      rcases hty hnz with h1 | h1
      · exact hB h1 hx hwi
      · exact h1
    · rw [hnav, cellAt_set, if_neg (fun hh => hEq hh.1.symm)] at hnz
      exact hA i (by omega) hwi hnz
  · intro hst hx1 hwk
    obtain ⟨h1, h2⟩ := hflag hst
    have hk1 : z * w + x + 1 < w * w := by
      have := cell_index_lt hx1 hz
      omega
    have e1 : ((z * w + x : Nat) : Int) + 1 = ((z * w + (x + 1) : Nat) : Int) := by
      push_cast; ring
    have e2 : ((z * w + x : Nat) : Int) - (w : Int) + 1
        = ((z * w + (x + 1) - w : Nat) : Int) := by omega
    have e3 : ((z * w + (x + 1) : Nat) : Int) - (w : Int)
        = ((z * w + (x + 1) - w : Nat) : Int) := by omega
    rw [e1] at h2
    rw [e2] at h1
    rw [e3]
    constructor
    · rcases hbin (z * w + (x + 1)) (by omega) with h | h
      · exact absurd h h2
      · exact h
    · rcases hbin (z * w + (x + 1) - w) (by omega) with h | h
      · exact h
      · exact absurd h h1

theorem squareInv_row {F : Type} (oob : Oob F) (w : Nat) (MapIn : List Nat)
    (hbin : ∀ i : Nat, i < w * w → rdMap oob MapIn (i : Int) = 0 ∨ rdMap oob MapIn (i : Int) = 1)
    (z : Nat) (st : DetectState F) (hz : z < w)
    (hd : DetInv oob w w MapIn st (z * w)) (hs : SquareInv oob w MapIn st z 0) :
    ∀ x, x ≤ w →
      DetInv oob w w MapIn
        ((List.range x).foldl (fun s x => detectCell oob w w MapIn z x s) st) (z * w + x) ∧
      SquareInv oob w MapIn
        ((List.range x).foldl (fun s x => detectCell oob w w MapIn z x s) st) z x := by
  intro x
  induction x with
  | zero => intro _; exact ⟨hd, hs⟩
  | succ x ih =>
    intro hx
    obtain ⟨h1, h2⟩ := ih (by omega)
    rw [List.range_succ, List.foldl_append]
    simp only [List.foldl_cons, List.foldl_nil]
    exact ⟨detInv_cell oob w w MapIn z x _ (by omega) hz h1,
      squareInv_cell oob w MapIn hbin z x _ (by omega) hz h1 h2⟩

theorem squareInv_final {F : Type} (oob : Oob F) (w : Nat) (MapIn : List Nat)
    (hbin : ∀ i : Nat, i < w * w → rdMap oob MapIn (i : Int) = 0 ∨ rdMap oob MapIn (i : Int) = 1) :
    ∀ z, z ≤ w →
      DetInv oob w w MapIn
        ((List.range z).foldl (detectRow oob w w MapIn)
          { navMap := List.replicate (w * w) NavPoint.zeroed,
            bPlatformStarted := false, platformIndex := 0, returned := false }) (z * w) ∧
      ∀ i, i < z * w → w ≤ i →
        (cellAt ((List.range z).foldl (detectRow oob w w MapIn)
          { navMap := List.replicate (w * w) NavPoint.zeroed,
            bPlatformStarted := false, platformIndex := 0, returned := false }).navMap
          i).nav_type ≠ 0 →
        rdMap oob MapIn (i : Int) = 1 ∧ rdMap oob MapIn ((i : Int) - w) = 0 := by
  intro z
  induction z with
  | zero =>
    intro _
    exact ⟨detInv_final oob w w MapIn 0 (Nat.zero_le _), fun i hi => by omega⟩
  | succ z ih =>
    intro hz
    obtain ⟨hd, hA⟩ := ih (by omega)
    rw [List.range_succ, List.foldl_append]
    simp only [List.foldl_cons, List.foldl_nil]
    generalize (List.range z).foldl (detectRow oob w w MapIn)
      { navMap := List.replicate (w * w) NavPoint.zeroed,
        bPlatformStarted := false, platformIndex := 0, returned := false } = st at hd hA
    have hret : st.returned = false := hd.2.1
    have hd0 : DetInv oob w w MapIn
        (if st.returned then st else { st with bPlatformStarted := false }) (z * w) := by
      simp only [hret, Bool.false_eq_true, if_false]
      exact ⟨hd.1, rfl, hd.2.2⟩
    have hs0 : SquareInv oob w MapIn
        (if st.returned then st else { st with bPlatformStarted := false }) z 0 := by
      simp only [hret, Bool.false_eq_true, if_false]
      exact ⟨fun i hi => hA i (by omega), fun hst => by simp at hst⟩
    obtain ⟨h1, h2⟩ := squareInv_row oob w MapIn hbin z _ (by omega) hd0 hs0 w (le_refl _)
    have e : (z + 1) * w = z * w + w := by ring
    unfold detectRow
    rw [e]
    exact ⟨h1, h2.1⟩

/-- On a square grid with values 0 and 1, every cell that `DetectPlatforms` classifies in a
row `z ≥ 1` is a free tile (1) directly over a colliding tile (0). -/
theorem detectPlatforms_square_standable {F : Type} (oob : Oob F) (w : Nat) (MapIn : List Nat)
    (hlen : MapIn.length = w * w) (hbin : ∀ v, v ∈ MapIn → v = 0 ∨ v = 1)
    (i : Nat) (hi : i < w * w) (hrow : w ≤ i)
    (hnav : (cellAt (DetectPlatforms oob w w MapIn) i).nav_type ≠ 0) :
    MapIn.getD i 0 = 1 ∧ MapIn.getD (i - w) 0 = 0 := by
  have hb : ∀ j : Nat, j < w * w →
      rdMap oob MapIn (j : Int) = 0 ∨ rdMap oob MapIn (j : Int) = 1 := by
    intro j hj
    rw [rdMap_nat oob MapIn j (by omega)]
    apply hbin
    rw [List.getD_eq_getElem _ _ (by omega)]
    exact List.getElem_mem _
  have := (squareInv_final oob w MapIn hb w (le_refl _)).2 i hi hrow hnav
  have e : ((i : Int) - (w : Int)) = ((i - w : Nat) : Int) := by omega
  rw [e, rdMap_nat oob MapIn i (by omega), rdMap_nat oob MapIn (i - w) (by omega)] at this
  exact this

/-! ## Frame facts: what the link passes leave unchanged -/

theorem foldl_keeps {α β : Type} (P : α → Prop) (step : α → β → α)
    (hstep : ∀ s b, P s → P (step s b)) (l : List β) (s : α) (hs : P s) :
    P (l.foldl step s) := by
  induction l generalizing s with
  | nil => exact hs
  | cons b l ih => exact ih _ (hstep s b hs)

theorem map_updAt {F β : Type} (g : NavPoint F → β) (nav : List (NavPoint F)) (i : Nat)
    (f : NavPoint F → NavPoint F) (hf : ∀ c, g (f c) = g c) :
    (updAt nav i f).map g = nav.map g := by
  apply List.ext_getElem?
  intro j
  unfold updAt cellAt
  simp only [List.getElem?_map, List.getElem?_set]
  by_cases h : i = j
  · subst h
    by_cases h2 : i < nav.length
    · simp [h2, hf, List.getD_eq_getElem?_getD, List.getElem?_eq_getElem h2]
    · simp [h2, List.getElem?_eq_none (Nat.le_of_not_lt h2)]
  · simp [h]

theorem length_of_map_eq {F β : Type} (g : NavPoint F → β) {nav1 nav2 : List (NavPoint F)}
    (h : nav1.map g = nav2.map g) : nav1.length = nav2.length := by
  have := congrArg List.length h
  simpa using this

theorem cellAt_of_map_eq {F β : Type} (g : NavPoint F → β) {nav1 nav2 : List (NavPoint F)}
    (h : nav1.map g = nav2.map g) (i : Nat) : g (cellAt nav1 i) = g (cellAt nav2 i) := by
  have hl := length_of_map_eq g h
  unfold cellAt
  by_cases hi : i < nav1.length
  · have hi2 : i < nav2.length := by omega
    have h1 : (nav1.map g)[i]? = (nav2.map g)[i]? := by rw [h]
    simp only [List.getElem?_map, List.getElem?_eq_getElem hi, List.getElem?_eq_getElem hi2,
      Option.map_some'] at h1
    simp only [List.getD_eq_getElem?_getD, List.getElem?_eq_getElem hi,
      List.getElem?_eq_getElem hi2, Option.getD_some]
    exact Option.some.inj h1
  · have hi2 : ¬ i < nav2.length := by omega
    simp [List.getD_eq_getElem?_getD, List.getElem?_eq_none (Nat.le_of_not_lt hi),
      List.getElem?_eq_none (Nat.le_of_not_lt hi2)]

theorem rdNav_core_congr {F : Type} (oob : Oob F) {nav1 nav2 : List (NavPoint F)}
    (h : nav1.map NavPoint.core = nav2.map NavPoint.core) (k : Int) :
    (rdNav oob nav1 k).core = (rdNav oob nav2 k).core := by
  have hl := length_of_map_eq _ h
  unfold rdNav
  rw [hl]
  split_ifs with hk
  · exact cellAt_of_map_eq NavPoint.core h k.toNat
  · rfl

theorem core_nav_type {F : Type} {c d : NavPoint F} (h : c.core = d.core) :
    c.nav_type = d.nav_type := by
  simp only [NavPoint.core, Prod.mk.injEq] at h; exact h.2.2.1

theorem core_collision {F : Type} {c d : NavPoint F} (h : c.core = d.core) :
    c.collision = d.collision := by
  simp only [NavPoint.core, Prod.mk.injEq] at h; exact h.2.2.2

theorem core_x {F : Type} {c d : NavPoint F} (h : c.core = d.core) :
    c.x_coord = d.x_coord := by
  simp only [NavPoint.core, Prod.mk.injEq] at h; exact h.1

theorem core_z {F : Type} {c d : NavPoint F} (h : c.core = d.core) :
    c.z_coord = d.z_coord := by
  simp only [NavPoint.core, Prod.mk.injEq] at h; exact h.2.1

/-! ## CreateRunLinks -/

theorem runStep_map {F β : Type} (g : NavPoint F → β)
    (hg : ∀ (c : NavPoint F) (l : List Nat), g { c with link_run := l } = g c)
    (oob : Oob F) (w : Nat) (nav : List (NavPoint F)) (i : Nat) :
    (runStep oob w nav i).map g = nav.map g := by
  unfold runStep
  split_ifs
  · simp only
    rw [map_updAt g _ _ _ (fun c => hg c _), map_updAt g _ _ _ (fun c => hg c _)]
  · rfl
  · rfl

theorem createRunLinks_map {F β : Type} (g : NavPoint F → β)
    (hg : ∀ (c : NavPoint F) (l : List Nat), g { c with link_run := l } = g c)
    (oob : Oob F) (w h : Nat) (nav : List (NavPoint F)) :
    (CreateRunLinks oob w h nav).map g = nav.map g := by
  unfold CreateRunLinks
  exact foldl_keeps (fun (s : List (NavPoint F)) => s.map g = nav.map g) (runStep oob w)
    (fun s b hs => by show (runStep oob w s b).map g = _; rw [runStep_map g hg]; exact hs) _ _ rfl

theorem succ_lt_of_mod_ne {w h k : Nat} (hk : k < w * h) (hm : (k + 1) % w ≠ 0) :
    k + 1 < w * h := by
  rcases Nat.lt_or_ge (k + 1) (w * h) with h1 | h1
  · exact h1
  · have : k + 1 = w * h := by omega
    rw [this, Nat.mul_mod_right] at hm
    exact absurd rfl hm

theorem runLinksUpTo_succ {F : Type} (nav0 : List (NavPoint F)) (w k a : Nat) :
    runLinksUpTo nav0 w (k + 1) a = runLinksUpTo nav0 w k a
      ++ (if a = k ∧ RunCond nav0 w k then [k + 1] else [])
      ++ (if a = k + 1 ∧ RunCond nav0 w k then [k] else []) := by
  unfold runLinksUpTo
  by_cases h1 : a = k
  · subst h1
    have e1 : (a - 1 < a + 1) = True := by simp; omega
    by_cases h0 : 1 ≤ a
    · have e2 : (a - 1 < a) = True := by simp; omega
      simp [e1, e2]
    · simp [h0]
  · by_cases h2 : a = k + 1
    · subst h2
      simp
    · have e1 : (a - 1 < k + 1) = (a - 1 < k) ∨ ¬ (1 ≤ a) := by
        by_cases h0 : 1 ≤ a
        · left; apply propext; constructor <;> intro _ <;> omega
        · right; exact h0
      have e2 : (a < k + 1) = (a < k) := by
        apply propext; constructor <;> intro _ <;> omega
      rcases e1 with e1 | e1
      · simp [h1, h2, e1, e2]
      · simp [h1, h2, e1, e2]

theorem runCond_congr {F : Type} {nav1 nav2 : List (NavPoint F)}
    (h : nav1.map NavPoint.core = nav2.map NavPoint.core) (w j : Nat) :
    RunCond nav1 w j ↔ RunCond nav2 w j := by
  unfold RunCond
  rw [core_nav_type (cellAt_of_map_eq NavPoint.core h j),
    core_nav_type (cellAt_of_map_eq NavPoint.core h (j + 1))]

theorem runStep_link_run {F : Type} (oob : Oob F) (w h : Nat) (nav : List (NavPoint F))
    (hlen : nav.length = w * h) (k : Nat) (hk : k < w * h) (a : Nat) :
    (cellAt (runStep oob w nav k) a).link_run = (cellAt nav a).link_run
      ++ (if a = k ∧ RunCond nav w k then [k + 1] else [])
      ++ (if a = k + 1 ∧ RunCond nav w k then [k] else []) := by
  unfold runStep
  rw [rdNav_nat oob nav k (by omega)]
  by_cases hc1 : (cellAt nav k).nav_type ≠ 0 ∧ (k + 1) % w ≠ 0
  · have hk2 : k + 1 < w * h := succ_lt_of_mod_ne hk hc1.2
    have e : ((k : Int) + 1) = ((k + 1 : Nat) : Int) := by push_cast; ring
    rw [if_pos hc1, e, rdNav_nat oob nav (k + 1) (by omega)]
    by_cases hc2 : (cellAt nav (k + 1)).nav_type ≠ 0
    · have hrc : RunCond nav w k := ⟨hc1.1, hc1.2, hc2⟩
      rw [if_pos hc2]
      simp only [cellAt_updAt, length_updAt]
      by_cases ha1 : a = k
      · subst ha1
        have hne : ¬ (a + 1 = a ∧ a + 1 < nav.length) := by omega
        have hp : (a = a ∧ a < nav.length) := ⟨rfl, by omega⟩
        simp [hne, hp, hrc]
      · by_cases ha2 : a = k + 1
        · subst ha2
          have hp : (k + 1 = k + 1 ∧ k + 1 < nav.length) := ⟨rfl, by omega⟩
          have hne : ¬ (k = k + 1 ∧ k < nav.length) := by omega
          simp [hne, hp, hrc]
        · have hne1 : ¬ (k + 1 = a ∧ k + 1 < nav.length) := fun hh => ha2 hh.1.symm
          have hne2 : ¬ (k = a ∧ k < nav.length) := fun hh => ha1 hh.1.symm
          simp [hne1, hne2, ha1, ha2]
    · have hrc : ¬ RunCond nav w k := fun hh => hc2 hh.2.2
      rw [if_neg hc2]
      simp [hrc]
  · have hrc : ¬ RunCond nav w k := fun hh => hc1 ⟨hh.1, hh.2.1⟩
    rw [if_neg hc1]
    simp [hrc]

theorem runInv {F : Type} (oob : Oob F) (w h : Nat) (nav0 : List (NavPoint F))
    (hlen : nav0.length = w * h) (hempty : ∀ a, a < w * h → (cellAt nav0 a).link_run = []) :
    ∀ k, k ≤ w * h →
      ((List.range k).foldl (runStep oob w) nav0).map NavPoint.core = nav0.map NavPoint.core ∧
      ∀ a, a < w * h →
        (cellAt ((List.range k).foldl (runStep oob w) nav0) a).link_run
          = runLinksUpTo nav0 w k a := by
  intro k
  induction k with
  | zero =>
    intro _
    refine ⟨rfl, fun a ha => ?_⟩
    simp [runLinksUpTo, hempty a ha]
  | succ k ih =>
    intro hk
    obtain ⟨hcore, hlinks⟩ := ih (by omega)
    rw [List.range_succ, List.foldl_append]
    simp only [List.foldl_cons, List.foldl_nil]
    generalize (List.range k).foldl (runStep oob w) nav0 = navk at hcore hlinks
    have hlenk : navk.length = w * h := by rw [length_of_map_eq _ hcore, hlen]
    refine ⟨by rw [runStep_map NavPoint.core (fun _ _ => rfl)]; exact hcore, ?_⟩
    intro a ha
    rw [runStep_link_run oob w h navk hlenk k (by omega) a, hlinks a ha, runLinksUpTo_succ]
    simp only [runCond_congr hcore]

/-- The run links `CreateRunLinks` gives a graph that has none yet. -/
theorem createRunLinks_links {F : Type} (oob : Oob F) (w h : Nat) (nav0 : List (NavPoint F))
    (hlen : nav0.length = w * h) (hempty : ∀ a, a < w * h → (cellAt nav0 a).link_run = [])
    (a : Nat) (ha : a < w * h) :
    (cellAt (CreateRunLinks oob w h nav0) a).link_run = runLinksUpTo nav0 w (w * h) a :=
  (runInv oob w h nav0 hlen hempty (w * h) (le_refl _)).2 a ha

/-! ## CreateFallLinks -/

theorem fallSide_map {F β : Type} (g : NavPoint F → β)
    (hg : ∀ (c : NavPoint F) (l : List Nat), g { c with link_fall := l } = g c)
    (oob : Oob F) (w i : Nat) (nav : List (NavPoint F)) (j : Nat) :
    (fallSide oob w i nav j).map g = nav.map g := by
  unfold fallSide
  simp only
  generalize (if j = 0 then (i : Int) - 1 else (i : Int) + 1) = s
  by_cases h : (rdNav oob nav s).collision = 1
  · rw [if_pos h]
    split
    · rw [map_updAt g _ _ _ (fun c => hg c _)]
    · rfl
  · rw [if_neg h]

theorem fallStep_map {F β : Type} (g : NavPoint F → β)
    (hg : ∀ (c : NavPoint F) (l : List Nat), g { c with link_fall := l } = g c)
    (oob : Oob F) (w : Nat) (nav : List (NavPoint F)) (i : Nat) :
    (fallStep oob w nav i).map g = nav.map g := by
  unfold fallStep
  simp only
  by_cases h : (rdNav oob nav ↑i).nav_type = 1 ∨ (rdNav oob nav ↑i).nav_type = 3
      ∨ (rdNav oob nav ↑i).nav_type = 4
  · rw [if_pos h]
    exact foldl_keeps (fun (s : List (NavPoint F)) => s.map g = nav.map g) (fallSide oob w i)
      (fun s b hs => by show (fallSide oob w i s b).map g = _; rw [fallSide_map g hg]; exact hs)
      _ _ rfl
  · rw [if_neg h]

theorem createFallLinks_map {F β : Type} (g : NavPoint F → β)
    (hg : ∀ (c : NavPoint F) (l : List Nat), g { c with link_fall := l } = g c)
    (oob : Oob F) (w h : Nat) (nav : List (NavPoint F)) :
    (CreateFallLinks oob w h nav).map g = nav.map g := by
  unfold CreateFallLinks
  exact foldl_keeps (fun (s : List (NavPoint F)) => s.map g = nav.map g) (fallStep oob w)
    (fun s b hs => by show (fallStep oob w s b).map g = _; rw [fallStep_map g hg]; exact hs)
    _ _ rfl

theorem fallScan_congr {F : Type} (oob : Oob F) {nav1 nav2 : List (NavPoint F)}
    (h : nav1.map NavPoint.core = nav2.map NavPoint.core) (w col r : Nat) :
    fallScan oob nav1 w col r = fallScan oob nav2 w col r := by
  induction r with
  | zero => rfl
  | succ r ih =>
    unfold fallScan
    rw [core_nav_type (rdNav_core_congr oob h _), ih]

theorem sideLinks_congr {F : Type} (oob : Oob F) {nav1 nav2 : List (NavPoint F)}
    (h : nav1.map NavPoint.core = nav2.map NavPoint.core) (w : Nat) (s : Int) :
    sideLinks oob nav1 w s = sideLinks oob nav2 w s := by
  unfold sideLinks
  rw [core_collision (rdNav_core_congr oob h s), core_x (rdNav_core_congr oob h s),
    core_z (rdNav_core_congr oob h s), fallScan_congr oob h]

theorem fallLinksOf_congr {F : Type} (oob : Oob F) {nav1 nav2 : List (NavPoint F)}
    (h : nav1.map NavPoint.core = nav2.map NavPoint.core) (w i : Nat) :
    fallLinksOf oob nav1 w i = fallLinksOf oob nav2 w i := by
  unfold fallLinksOf
  rw [core_nav_type (cellAt_of_map_eq NavPoint.core h i), sideLinks_congr oob h,
    sideLinks_congr oob h]

theorem fallSide_link_fall {F : Type} (oob : Oob F) (w i : Nat) (nav : List (NavPoint F))
    (hi : i < nav.length) (j a : Nat) :
    (cellAt (fallSide oob w i nav j) a).link_fall = (cellAt nav a).link_fall
      ++ (if a = i then
            sideLinks oob nav w (if j = 0 then (i : Int) - 1 else (i : Int) + 1) else []) := by
  unfold fallSide sideLinks
  simp only
  generalize (if j = 0 then (i : Int) - 1 else (i : Int) + 1) = s
  by_cases h1 : (rdNav oob nav s).collision = 1
  · rw [if_pos h1, if_pos h1]
    generalize fallScan oob nav w (rdNav oob nav s).x_coord
      (((rdNav oob nav s).z_coord : Int) - 1).toNat = r
    by_cases h2 : a = i
    · subst h2
      cases r <;> simp [cellAt_updAt, hi]
    · have hne : ¬ (i = a ∧ i < nav.length) := fun hh => h2 hh.1.symm
      cases r <;> simp [cellAt_updAt, hne, h2]
  · rw [if_neg h1, if_neg h1]
    simp

theorem fallStep_link_fall {F : Type} (oob : Oob F) (w i : Nat) (nav : List (NavPoint F))
    (hi : i < nav.length) (a : Nat) :
    (cellAt (fallStep oob w nav i) a).link_fall = (cellAt nav a).link_fall
      ++ (if a = i then fallLinksOf oob nav w i else []) := by
  have hside : ∀ (n1 : List (NavPoint F)), n1.map NavPoint.core = nav.map NavPoint.core →
      ∀ j, (cellAt (fallSide oob w i n1 j) a).link_fall = (cellAt n1 a).link_fall
        ++ (if a = i then
            sideLinks oob nav w (if j = 0 then (i : Int) - 1 else (i : Int) + 1) else []) := by
    intro n1 hc j
    rw [fallSide_link_fall oob w i n1 (by rw [length_of_map_eq _ hc]; exact hi),
      sideLinks_congr oob hc]
  unfold fallStep fallLinksOf
  rw [rdNav_nat oob nav i hi]
  simp only
  by_cases t1 : (cellAt nav i).nav_type = 1
  · simp only [t1, true_or, if_true]
    simp only [show (1 : Nat) ≠ 3 by decide, if_false, List.range'_succ, List.range'_zero,
      List.foldl_cons, List.foldl_nil, Nat.reduceAdd, Nat.reduceSub]
    rw [hside nav rfl 0]; simp
  · by_cases t3 : (cellAt nav i).nav_type = 3
    · simp only [t3, true_or, or_true, if_true]
      simp only [show (3 : Nat) ≠ 1 by decide, if_false, List.range'_succ, List.range'_zero,
        List.foldl_cons, List.foldl_nil, Nat.reduceAdd, Nat.reduceSub]
      rw [hside nav rfl 1]; simp
    · by_cases t4 : (cellAt nav i).nav_type = 4
      · simp only [t4, or_true, if_true]
        simp only [show (4 : Nat) ≠ 1 by decide, show (4 : Nat) ≠ 3 by decide, if_false,
          List.range'_succ, List.range'_zero, List.foldl_cons, List.foldl_nil, Nat.reduceAdd,
          Nat.reduceSub]
        rw [hside _ (fallSide_map NavPoint.core (fun _ _ => rfl) oob w i nav 0) 1,
          hside nav rfl 0]
        by_cases ha : a = i <;> simp [ha]
      · simp [t1, t3, t4]

theorem fallInv {F : Type} (oob : Oob F) (w h : Nat) (nav0 : List (NavPoint F))
    (hlen : nav0.length = w * h) (hempty : ∀ a, a < w * h → (cellAt nav0 a).link_fall = []) :
    ∀ k, k ≤ w * h →
      ((List.range k).foldl (fallStep oob w) nav0).map NavPoint.core = nav0.map NavPoint.core ∧
      ∀ a, a < w * h →
        (cellAt ((List.range k).foldl (fallStep oob w) nav0) a).link_fall
          = if a < k then fallLinksOf oob nav0 w a else [] := by
  intro k
  induction k with
  | zero =>
    intro _
    refine ⟨rfl, fun a ha => ?_⟩
    simp [hempty a ha]
  | succ k ih =>
    intro hk
    obtain ⟨hcore, hlinks⟩ := ih (by omega)
    rw [List.range_succ, List.foldl_append]
    simp only [List.foldl_cons, List.foldl_nil]
    generalize (List.range k).foldl (fallStep oob w) nav0 = navk at hcore hlinks
    have hlenk : navk.length = w * h := by rw [length_of_map_eq _ hcore, hlen]
    refine ⟨by rw [fallStep_map NavPoint.core (fun _ _ => rfl)]; exact hcore, ?_⟩
    intro a ha
    rw [fallStep_link_fall oob w k navk (by omega) a, hlinks a ha, fallLinksOf_congr oob hcore]
    by_cases h1 : a = k
    · subst h1; simp
    · by_cases h2 : a < k
      · have : a < k + 1 := by omega
        simp [h1, h2, this]
      · have : ¬ a < k + 1 := by omega
        simp [h1, h2, this]

/-- The fall links `CreateFallLinks` gives a graph that has none yet. -/
theorem createFallLinks_links {F : Type} (oob : Oob F) (w h : Nat) (nav0 : List (NavPoint F))
    (hlen : nav0.length = w * h) (hempty : ∀ a, a < w * h → (cellAt nav0 a).link_fall = [])
    (a : Nat) (ha : a < w * h) :
    (cellAt (CreateFallLinks oob w h nav0) a).link_fall = fallLinksOf oob nav0 w a := by
  have := (fallInv oob w h nav0 hlen hempty (w * h) (le_refl _)).2 a ha
  simpa [CreateFallLinks, ha] using this

/-- A successful scan returns the first classified cell of the column, top down. -/
theorem fallScan_some {F : Type} (oob : Oob F) (nav : List (NavPoint F)) (w col : Nat) :
    ∀ (R c : Nat), fallScan oob nav w col R = some c →
      ∃ r, 1 ≤ r ∧ r ≤ R ∧ c = r * w + col ∧
        (rdNav oob nav ((r * w + col : Nat) : Int)).nav_type ≠ 0 ∧
        ∀ r', r < r' → r' ≤ R → (rdNav oob nav ((r' * w + col : Nat) : Int)).nav_type = 0 := by
  intro R
  induction R with
  | zero => intro c hc; simp [fallScan] at hc
  | succ R ih =>
    intro c hc
    unfold fallScan at hc
    split_ifs at hc with h1
    · refine ⟨R + 1, by omega, le_refl _, (Option.some.inj hc).symm, h1, ?_⟩
      intro r' h2 h3; omega
    · obtain ⟨r, hr1, hr2, hc2, hnav, hall⟩ := ih c hc
      refine ⟨r, hr1, by omega, hc2, hnav, ?_⟩
      intro r' h2 h3
      rcases Nat.lt_or_ge r' (R + 1) with h4 | h4
      · exact hall r' h2 (by omega)
      · have : r' = R + 1 := by omega
        subst this
        exact not_not.mp h1

/-- A failed scan met no classified cell in rows `1..R` of the column. -/
theorem fallScan_none {F : Type} (oob : Oob F) (nav : List (NavPoint F)) (w col : Nat) :
    ∀ (R : Nat), fallScan oob nav w col R = none →
      ∀ r', 1 ≤ r' → r' ≤ R → (rdNav oob nav ((r' * w + col : Nat) : Int)).nav_type = 0 := by
  intro R
  induction R with
  | zero => intro _ r' h1 h2; omega
  | succ R ih =>
    intro hc r' h1 h2
    unfold fallScan at hc
    split_ifs at hc with h3
    rcases Nat.lt_or_ge r' (R + 1) with h4 | h4
    · exact ih hc r' h1 (by omega)
    · have : r' = R + 1 := by omega
      subst this
      exact not_not.mp h3

/-! ## CreateJumpLinks -/

theorem addJumpLink_map {F β : Type} (g : NavPoint F → β)
    (hg : ∀ (c : NavPoint F) (l : List (JumpInfo F)) (p : List (List Nat)),
      g { c with jump_paths := p, link_jump := l } = g c)
    (ops : FloatOps F) (w : Nat) (st : JumpState F) (target : Int) (base height horizontal : Nat)
    (path : List Nat) :
    (AddJumpLink ops w st target base height horizontal path).navMap.map g = st.navMap.map g := by
  unfold AddJumpLink
  by_cases h : st.platformsReached.contains (toU32 target) = true
  · rw [if_pos h]
  · rw [if_neg h]
    simp only
    rw [map_updAt g _ _ _ (fun c => hg c _ _)]

theorem jumpOffsetStep_map {F β : Type} (g : NavPoint F → β)
    (hg : ∀ (c : NavPoint F) (l : List (JumpInfo F)) (p : List (List Nat)),
      g { c with jump_paths := p, link_jump := l } = g c)
    (ops : FloatOps F) (oob : Oob F) (w v base x z : Nat) (dir : Int) (height : Nat)
    (st : JumpState F) (offset : Nat) :
    (jumpOffsetStep ops oob w v base x z dir height st offset).navMap.map g
      = st.navMap.map g := by
  unfold jumpOffsetStep
  split
  · exact addJumpLink_map g hg ops w st _ _ _ _ _
  · rfl

theorem calculateJumpAtPoint_map {F β : Type} (g : NavPoint F → β)
    (hg : ∀ (c : NavPoint F) (l : List (JumpInfo F)) (p : List (List Nat)),
      g { c with jump_paths := p, link_jump := l } = g c)
    (ops : FloatOps F) (oob : Oob F) (w v height base : Nat) (st : JumpState F) :
    (CalculateJumpAtPoint ops oob w v height base st).navMap.map g = st.navMap.map g := by
  unfold CalculateJumpAtPoint
  by_cases h : base ≥ st.navMap.length
  · rw [if_pos h]
  · rw [if_neg h]
    simp only
    have key : ∀ (dir : Int) (x z : Nat) (s0 : JumpState F) (l : List Nat),
        s0.navMap.map g = st.navMap.map g →
        ((l.foldl (jumpOffsetStep ops oob w v base x z dir height) s0)).navMap.map g
          = st.navMap.map g := by
      intro dir x z s0 l h0
      exact foldl_keeps (fun (s : JumpState F) => s.navMap.map g = st.navMap.map g)
        (jumpOffsetStep ops oob w v base x z dir height)
        (fun s b hs => by
          show (jumpOffsetStep ops oob w v base x z dir height s b).navMap.map g = _
          rw [jumpOffsetStep_map g hg]; exact hs) l s0 h0
    exact key _ _ _ _ _ (key _ _ _ _ _ rfl)

theorem jumpStep_map {F β : Type} (g : NavPoint F → β)
    (hg : ∀ (c : NavPoint F) (l : List (JumpInfo F)) (p : List (List Nat)),
      g { c with jump_paths := p, link_jump := l } = g c)
    (ops : FloatOps F) (oob : Oob F) (w v J : Nat) (st : JumpState F) (i : Nat) :
    (jumpStep ops oob w v J st i).navMap.map g = st.navMap.map g := by
  unfold jumpStep
  by_cases h : (rdNav oob st.navMap ↑i).nav_type ≠ 0
  · rw [if_pos h]
    exact foldl_keeps (fun (s : JumpState F) => s.navMap.map g = st.navMap.map g)
      (fun s j => CalculateJumpAtPoint ops oob w v j i s)
      (fun s b hs => by
        show (CalculateJumpAtPoint ops oob w v b i s).navMap.map g = _
        rw [calculateJumpAtPoint_map g hg]; exact hs) _ _ rfl
  · rw [if_neg h]

theorem createJumpLinks_map {F β : Type} (g : NavPoint F → β)
    (hg : ∀ (c : NavPoint F) (l : List (JumpInfo F)) (p : List (List Nat)),
      g { c with jump_paths := p, link_jump := l } = g c)
    (ops : FloatOps F) (oob : Oob F) (w h v J : Nat) (st : JumpState F) :
    (CreateJumpLinks ops oob w h v J st).navMap.map g = st.navMap.map g := by
  unfold CreateJumpLinks
  exact foldl_keeps (fun (s : JumpState F) => s.navMap.map g = st.navMap.map g)
    (jumpStep ops oob w v J)
    (fun s b hs => by
      show (jumpStep ops oob w v J s b).navMap.map g = _
      rw [jumpStep_map g hg]; exact hs) _ _ rfl

theorem addJumpLink_inv {F : Type} (ops : FloatOps F) (w : Nat) (st : JumpState F)
    (target : Int) (base height horizontal : Nat) (path : List Nat)
    (hinv : JumpInv st base) :
    JumpInv (AddJumpLink ops w st target base height horizontal path) base := by
  unfold AddJumpLink
  by_cases h : st.platformsReached.contains (toU32 target) = true
  · rw [if_pos h]; exact hinv
  · rw [if_neg h]
    obtain ⟨hnd, hsub, hemp⟩ := hinv
    have hnot : toU32 target ∉ st.platformsReached := by
      intro hm; exact h (by simpa using hm)
    refine ⟨?_, ?_, ?_⟩
    · intro a
      simp only [jumpTargets, cellAt_updAt]
      by_cases hc : base = a ∧ base < st.navMap.length
      · rw [if_pos hc]
        obtain ⟨rfl, _⟩ := hc
        simp only [List.map_append, List.map_cons, List.map_nil]
        have h1 := hnd base
        have h2 : toU32 target ∉ jumpTargets st.navMap base := fun hm => hnot (hsub _ hm)
        unfold jumpTargets at h1 h2
        rw [List.nodup_append]
        refine ⟨h1, List.nodup_singleton _, ?_⟩
        intro x hx1 hx2
        simp only [List.mem_singleton] at hx2
        subst hx2
        exact h2 hx1
      · rw [if_neg hc]; exact hnd a
    · intro t ht
      show t ∈ st.platformsReached ++ [toU32 target]
      unfold jumpTargets at ht
      rw [cellAt_updAt] at ht
      by_cases hc : base = base ∧ base < st.navMap.length
      · rw [if_pos hc] at ht
        simp only [List.map_append, List.map_cons, List.map_nil, List.mem_append,
          List.mem_singleton] at ht
        rcases ht with ht | ht
        · exact List.mem_append_left _ (hsub t ht)
        · subst ht; simp
      · rw [if_neg hc] at ht
        exact List.mem_append_left _ (hsub t ht)
    · intro a ha
      simp only [cellAt_updAt]
      have hc : ¬ (base = a ∧ base < st.navMap.length) := by omega
      rw [if_neg hc]; exact hemp a ha

theorem jumpOffsetStep_inv {F : Type} (ops : FloatOps F) (oob : Oob F) (w v base x z : Nat)
    (dir : Int) (height : Nat) (st : JumpState F) (offset : Nat) (hinv : JumpInv st base) :
    JumpInv (jumpOffsetStep ops oob w v base x z dir height st offset) base := by
  unfold jumpOffsetStep
  split
  · exact addJumpLink_inv ops w st _ _ _ _ _ hinv
  · exact hinv

theorem calculateJumpAtPoint_inv {F : Type} (ops : FloatOps F) (oob : Oob F)
    (w v height base : Nat) (st : JumpState F) (hinv : JumpInv st base) :
    JumpInv (CalculateJumpAtPoint ops oob w v height base st) base := by
  unfold CalculateJumpAtPoint
  by_cases h : base ≥ st.navMap.length
  · rw [if_pos h]; exact hinv
  · rw [if_neg h]
    simp only
    have key : ∀ (dir : Int) (x z : Nat) (s0 : JumpState F) (l : List Nat),
        JumpInv s0 base →
        JumpInv (l.foldl (jumpOffsetStep ops oob w v base x z dir height) s0) base := by
      intro dir x z s0 l h0
      exact foldl_keeps (fun (s : JumpState F) => JumpInv s base)
        (jumpOffsetStep ops oob w v base x z dir height)
        (fun s b hs => jumpOffsetStep_inv ops oob w v base x z dir height s b hs) l s0 h0
    exact key _ _ _ _ _ (key _ _ _ _ _ hinv)

theorem jumpStep_outer {F : Type} (ops : FloatOps F) (oob : Oob F) (w v J : Nat)
    (st : JumpState F) (i : Nat) (hinv : JumpOuter st i) :
    JumpOuter (jumpStep ops oob w v J st i) (i + 1) := by
  unfold jumpStep
  by_cases h : (rdNav oob st.navMap ↑i).nav_type ≠ 0
  · rw [if_pos h]
    have h0 : JumpInv ({ st with platformsReached := [] } : JumpState F) i := by
      refine ⟨hinv.1, ?_, fun a ha => hinv.2 a (by omega)⟩
      intro t ht
      simp only [jumpTargets, hinv.2 i (le_refl _), List.map_nil, List.not_mem_nil] at ht
    have h1 := foldl_keeps (fun (s : JumpState F) => JumpInv s i)
      (fun s j => CalculateJumpAtPoint ops oob w v j i s)
      (fun s b hs => calculateJumpAtPoint_inv ops oob w v b i s hs) (List.range' 1 J) _ h0
    exact ⟨h1.1, fun a ha => h1.2.2 a (by omega)⟩
  · rw [if_neg h]
    exact ⟨hinv.1, fun a ha => hinv.2 a (by omega)⟩

theorem createJumpLinks_outer {F : Type} (ops : FloatOps F) (oob : Oob F) (w v J : Nat)
    (st : JumpState F) (hinv : JumpOuter st 0) :
    ∀ k, JumpOuter ((List.range k).foldl (jumpStep ops oob w v J) st) k := by
  intro k
  induction k with
  | zero => exact hinv
  | succ k ih =>
    rw [List.range_succ, List.foldl_append]
    simp only [List.foldl_cons, List.foldl_nil]
    exact jumpStep_outer ops oob w v J _ k ih

/-! ## BuildNavigation: the passes put together -/

theorem build_core {F : Type} (ops : FloatOps F) (oob : Oob F) (pr : List Nat)
    (J v w h : Nat) (MapIn : List Nat) :
    (BuildNavigation ops oob pr J v w h MapIn).navMap.map NavPoint.core
      = (DetectPlatforms oob w h MapIn).map NavPoint.core := by
  unfold BuildNavigation
  simp only
  rw [createJumpLinks_map NavPoint.core (fun _ _ _ => rfl),
    createFallLinks_map NavPoint.core (fun _ _ => rfl),
    createRunLinks_map NavPoint.core (fun _ _ => rfl)]

theorem build_length {F : Type} (ops : FloatOps F) (oob : Oob F) (pr : List Nat)
    (J v w h : Nat) (MapIn : List Nat) :
    (BuildNavigation ops oob pr J v w h MapIn).navMap.length = w * h := by
  rw [length_of_map_eq _ (build_core ops oob pr J v w h MapIn)]
  exact (detectPlatforms_cells oob w h MapIn).1

theorem build_gridShaped {F : Type} (ops : FloatOps F) (oob : Oob F) (pr : List Nat)
    (J v w h : Nat) (MapIn : List Nat) :
    GridShaped (BuildNavigation ops oob pr J v w h MapIn).navMap w h := by
  refine ⟨build_length ops oob pr J v w h MapIn, fun i hi => ?_⟩
  have hc := cellAt_of_map_eq NavPoint.core (build_core ops oob pr J v w h MapIn) i
  have hd := (detectPlatforms_cells oob w h MapIn).2 i hi
  rw [core_x hc, core_z hc]
  exact ⟨hd.1, hd.2.1⟩

theorem build_collision {F : Type} (ops : FloatOps F) (oob : Oob F) (pr : List Nat)
    (J v w h : Nat) (MapIn : List Nat) (i : Nat) (hi : i < w * h) :
    (cellAt (BuildNavigation ops oob pr J v w h MapIn).navMap i).collision
      = rdMap oob MapIn (i : Int) := by
  have hc := cellAt_of_map_eq NavPoint.core (build_core ops oob pr J v w h MapIn) i
  rw [core_collision hc]
  exact ((detectPlatforms_cells oob w h MapIn).2 i hi).2.2.1

theorem build_link_run {F : Type} (ops : FloatOps F) (oob : Oob F) (pr : List Nat)
    (J v w h : Nat) (MapIn : List Nat) (a : Nat) (ha : a < w * h) :
    (cellAt (BuildNavigation ops oob pr J v w h MapIn).navMap a).link_run
      = runLinksUpTo (BuildNavigation ops oob pr J v w h MapIn).navMap w (w * h) a := by
  have hcore := build_core ops oob pr J v w h MapIn
  have e : runLinksUpTo (BuildNavigation ops oob pr J v w h MapIn).navMap w (w * h) a
      = runLinksUpTo (DetectPlatforms oob w h MapIn) w (w * h) a := by
    unfold runLinksUpTo
    simp only [runCond_congr hcore]
  rw [e]
  have hd := detectPlatforms_cells oob w h MapIn
  rw [← createRunLinks_links oob w h _ hd.1 (fun b hb => (hd.2 b hb).2.2.2.1) a ha]
  unfold BuildNavigation
  simp only
  have h1 := cellAt_of_map_eq (fun c : NavPoint F => c.link_run)
    (createJumpLinks_map (fun c : NavPoint F => c.link_run) (fun _ _ _ => rfl) ops oob w h v J
      { navMap := CreateFallLinks oob w h (CreateRunLinks oob w h (DetectPlatforms oob w h MapIn)),
        platformsReached := pr }) a
  have h2 := cellAt_of_map_eq (fun c : NavPoint F => c.link_run)
    (createFallLinks_map (fun c : NavPoint F => c.link_run) (fun _ _ => rfl) oob w h
      (CreateRunLinks oob w h (DetectPlatforms oob w h MapIn))) a
  simp only at h1 h2
  rw [h1, h2]

theorem build_link_fall {F : Type} (ops : FloatOps F) (oob : Oob F) (pr : List Nat)
    (J v w h : Nat) (MapIn : List Nat) (a : Nat) (ha : a < w * h) :
    (cellAt (BuildNavigation ops oob pr J v w h MapIn).navMap a).link_fall
      = fallLinksOf oob (BuildNavigation ops oob pr J v w h MapIn).navMap w a := by
  have hd := detectPlatforms_cells oob w h MapIn
  have hrun_core := createRunLinks_map NavPoint.core (fun _ _ => rfl) oob w h
    (DetectPlatforms oob w h MapIn)
  have hrun_fall := createRunLinks_map (fun c : NavPoint F => c.link_fall) (fun _ _ => rfl)
    oob w h (DetectPlatforms oob w h MapIn)
  have hlen1 : (CreateRunLinks oob w h (DetectPlatforms oob w h MapIn)).length = w * h := by
    rw [length_of_map_eq _ hrun_core]; exact hd.1
  have hempty : ∀ b, b < w * h →
      (cellAt (CreateRunLinks oob w h (DetectPlatforms oob w h MapIn)) b).link_fall = [] := by
    intro b hb
    have := cellAt_of_map_eq (fun c : NavPoint F => c.link_fall) hrun_fall b
    simp only at this
    rw [this]; exact (hd.2 b hb).2.2.2.2.1
  have hcore2 : (BuildNavigation ops oob pr J v w h MapIn).navMap.map NavPoint.core
      = (CreateRunLinks oob w h (DetectPlatforms oob w h MapIn)).map NavPoint.core := by
    rw [build_core, hrun_core]
  rw [fallLinksOf_congr oob hcore2, ← createFallLinks_links oob w h _ hlen1 hempty a ha]
  unfold BuildNavigation
  simp only
  have h1 := cellAt_of_map_eq (fun c : NavPoint F => c.link_fall)
    (createJumpLinks_map (fun c : NavPoint F => c.link_fall) (fun _ _ _ => rfl) ops oob w h v J
      { navMap := CreateFallLinks oob w h (CreateRunLinks oob w h (DetectPlatforms oob w h MapIn)),
        platformsReached := pr }) a
  simp only at h1
  rw [h1]

theorem build_jump_nodup {F : Type} (ops : FloatOps F) (oob : Oob F) (pr : List Nat)
    (J v w h : Nat) (MapIn : List Nat) (a : Nat) :
    (jumpTargets (BuildNavigation ops oob pr J v w h MapIn).navMap a).Nodup := by
  have hd := detectPlatforms_cells oob w h MapIn
  have hlen2 : (CreateFallLinks oob w h (CreateRunLinks oob w h
      (DetectPlatforms oob w h MapIn))).length = w * h := by
    rw [length_of_map_eq _ (createFallLinks_map NavPoint.core (fun _ _ => rfl) oob w h _),
      length_of_map_eq _ (createRunLinks_map NavPoint.core (fun _ _ => rfl) oob w h _)]
    exact hd.1
  have hempty : ∀ b, (cellAt (CreateFallLinks oob w h (CreateRunLinks oob w h
      (DetectPlatforms oob w h MapIn))) b).link_jump = [] := by
    intro b
    have h1 := cellAt_of_map_eq (fun c : NavPoint F => c.link_jump)
      (createFallLinks_map (fun c : NavPoint F => c.link_jump) (fun _ _ => rfl) oob w h
        (CreateRunLinks oob w h (DetectPlatforms oob w h MapIn))) b
    have h2 := cellAt_of_map_eq (fun c : NavPoint F => c.link_jump)
      (createRunLinks_map (fun c : NavPoint F => c.link_jump) (fun _ _ => rfl) oob w h
        (DetectPlatforms oob w h MapIn)) b
    simp only at h1 h2
    rw [h1, h2]
    by_cases hb : b < w * h
    · exact (hd.2 b hb).2.2.2.2.2.1
    · unfold cellAt
      rw [List.getD_eq_default _ _ (by rw [hd.1]; omega)]
      rfl
  have h0 : JumpOuter ({ navMap := CreateFallLinks oob w h (CreateRunLinks oob w h
      (DetectPlatforms oob w h MapIn)), platformsReached := pr } : JumpState F) 0 := by
    refine ⟨fun b => ?_, fun b _ => hempty b⟩
    simp [jumpTargets, hempty b]
  exact (createJumpLinks_outer ops oob w v J _ h0 (w * h)).1 a

/-! ## Grid arithmetic -/

theorem succ_div_mod {w a : Nat} (h : a % w + 1 < w) :
    (a + 1) / w = a / w ∧ (a + 1) % w = a % w + 1 := by
  have hw : 0 < w := by omega
  have ha : a + 1 = w * (a / w) + (a % w + 1) := by
    have := Nat.div_add_mod a w
    omega
  constructor
  · rw [ha, Nat.mul_add_div hw, Nat.div_eq_of_lt h]; simp
  · rw [ha, Nat.mul_add_mod, Nat.mod_eq_of_lt h]

theorem succ_mod_zero {w a : Nat} (h : a % w + 1 = w) : (a + 1) % w = 0 := by
  have ha : a + 1 = w * (a / w + 1) := by
    have := Nat.div_add_mod a w
    rw [Nat.mul_add]
    omega
  rw [ha, Nat.mul_mod_right]

theorem row_col_succ {w a b : Nat} (hw : 0 < w) :
    (a / w = b / w ∧ a % w + 1 = b % w) ↔ (b = a + 1 ∧ (a + 1) % w ≠ 0) := by
  constructor
  · rintro ⟨h1, h2⟩
    have ha := Nat.div_add_mod a w
    have hb := Nat.div_add_mod b w
    have hba : b = a + 1 := by rw [← hb, ← ha, h1, ← h2]; ring
    refine ⟨hba, ?_⟩
    rw [← hba, ← h2]; omega
  · rintro ⟨rfl, h2⟩
    have hlt : a % w < w := Nat.mod_lt _ hw
    have h3 : a % w + 1 < w := by
      rcases Nat.lt_or_ge (a % w + 1) w with h | h
      · exact h
      · exact absurd (succ_mod_zero (by omega)) h2
    obtain ⟨e1, e2⟩ := succ_div_mod h3
    exact ⟨e1.symm, e2.symm⟩

theorem pred_div_mod {w a : Nat} (h : 0 < a % w) :
    (a - 1) / w = a / w ∧ (a - 1) % w + 1 = a % w := by
  rcases Nat.eq_zero_or_pos w with h0 | hw
  · subst h0
    simp only [Nat.mod_zero, Nat.div_zero, true_and] at h ⊢
    omega
  · have hlt : a % w < w := Nat.mod_lt _ hw
    have h5 : a % w - 1 < w := by omega
    have h6 : a % w - 1 + 1 = a % w := by omega
    have ha : a - 1 = w * (a / w) + (a % w - 1) := by
      have := Nat.div_add_mod a w
      omega
    constructor
    · rw [ha, Nat.mul_add_div hw, Nat.div_eq_of_lt h5]; simp
    · rw [ha, Nat.mul_add_mod, Nat.mod_eq_of_lt h5]; exact h6

/-- The probe of an in-grid side tile in the row of `a` meets the specification `FallProbe`. -/
theorem sideLinks_probe {F : Type} (oob : Oob F) (nav : List (NavPoint F)) (w h : Nat)
    (hg : GridShaped nav w h) (a s : Nat) (hs : s < w * h)
    (hrow : (cellAt nav s).z_coord = (cellAt nav a).z_coord) :
    FallProbe nav w a s (sideLinks oob nav w (s : Int)) := by
  obtain ⟨hlen, hco⟩ := hg
  have hw : 0 < w := by
    rcases Nat.eq_zero_or_pos w with h0 | h0
    · subst h0; simp at hs
    · exact h0
  have hxs : (cellAt nav s).x_coord < w := by rw [(hco s hs).1]; exact Nat.mod_lt _ hw
  have hzs : (cellAt nav s).z_coord < h := by
    rw [(hco s hs).2]; exact Nat.div_lt_of_lt_mul hs
  have hrd : ∀ r, r < (cellAt nav s).z_coord →
      rdNav oob nav ((r * w + (cellAt nav s).x_coord : Nat) : Int)
        = cellAt nav (r * w + (cellAt nav s).x_coord) := by
    intro r hr
    apply rdNav_nat
    rw [hlen]
    exact cell_index_lt hxs (by omega)
  have hR : (((cellAt nav s).z_coord : Int) - 1).toNat = (cellAt nav s).z_coord - 1 := by omega
  unfold sideLinks FallProbe
  rw [rdNav_nat oob nav s (by omega), hR, ← hrow]
  by_cases hc : (cellAt nav s).collision = 1
  · rw [if_pos hc]
    refine ⟨fun hn => absurd hc hn, fun _ => ?_⟩
    cases hscan : fallScan oob nav w (cellAt nav s).x_coord ((cellAt nav s).z_coord - 1) with
    | none =>
      right
      refine ⟨rfl, fun r h1 h2 => ?_⟩
      have := fallScan_none oob nav w _ _ hscan r h1 (by omega)
      rwa [hrd r h2] at this
    | some c =>
      left
      obtain ⟨r, h1, h2, h3, h4, h5⟩ := fallScan_some oob nav w _ _ c hscan
      refine ⟨c, rfl, r, h1, by omega, h3, ?_, ?_⟩
      · rw [hrd r (by omega)] at h4
        rw [h3]; exact h4
      · intro r' h6 h7
        have := h5 r' h6 (by omega)
        rwa [hrd r' h7] at this
  · rw [if_neg hc]
    exact ⟨fun _ => rfl, fun h1 => absurd h1 hc⟩

/-- A cell linked by a probe lies in the side tile's column, below the row of `a`, above
row 0, inside the grid, and is classified. -/
theorem fallProbe_mem {F : Type} (nav : List (NavPoint F)) (w h : Nat)
    (hg : GridShaped nav w h) (a s : Nat) (ha : a < w * h) (hs : s < w * h)
    (links : List Nat) (hp : FallProbe nav w a s links) (b : Nat) (hb : b ∈ links) :
    b < w * h ∧ (cellAt nav b).nav_type ≠ 0 ∧ 1 ≤ (cellAt nav b).z_coord ∧
      (cellAt nav b).z_coord < (cellAt nav a).z_coord ∧
      (cellAt nav b).x_coord = (cellAt nav s).x_coord := by
  obtain ⟨hlen, hco⟩ := hg
  have hw : 0 < w := by
    rcases Nat.eq_zero_or_pos w with h0 | h0
    · subst h0; simp at hs
    · exact h0
  have hxs : (cellAt nav s).x_coord < w := by rw [(hco s hs).1]; exact Nat.mod_lt _ hw
  have hza : (cellAt nav a).z_coord < h := by
    rw [(hco a ha).2]; exact Nat.div_lt_of_lt_mul ha
  by_cases hc : (cellAt nav s).collision = 1
  · rcases hp.2 hc with ⟨b', hl, r, h1, h2, h3, h4, _⟩ | ⟨hl, _⟩
    · rw [hl, List.mem_singleton] at hb
      subst hb
      have hblt : b < w * h := by rw [h3]; exact cell_index_lt hxs (by omega)
      refine ⟨hblt, h4, ?_, ?_, ?_⟩
      · rw [(hco b hblt).2, h3, Nat.mul_comm, Nat.mul_add_div hw, Nat.div_eq_of_lt hxs]
        omega
      · rw [(hco b hblt).2, h3, Nat.mul_comm, Nat.mul_add_div hw, Nat.div_eq_of_lt hxs]
        omega
      · rw [(hco b hblt).1, h3, Nat.mul_comm, Nat.mul_add_mod, Nat.mod_eq_of_lt hxs]
    · rw [hl] at hb; simp at hb
  · rw [hp.1 hc] at hb; simp at hb

/-! ## Run links of a grid-shaped graph -/

theorem mem_runLinksUpTo {F : Type} (nav : List (NavPoint F)) (w h a b : Nat) (ha : a < w * h) :
    b ∈ runLinksUpTo nav w (w * h) a ↔
      (1 ≤ a ∧ RunCond nav w (a - 1) ∧ b = a - 1) ∨ (RunCond nav w a ∧ b = a + 1) := by
  unfold runLinksUpTo
  have h1 : a - 1 < w * h := by omega
  simp only [h1, ha, true_and, List.mem_append]
  constructor
  · rintro (hm | hm)
    · left
      by_cases hc : 1 ≤ a ∧ RunCond nav w (a - 1)
      · rw [if_pos hc] at hm
        exact ⟨hc.1, hc.2, by simpa using hm⟩
      · rw [if_neg hc] at hm; simp at hm
    · right
      by_cases hc : RunCond nav w a
      · rw [if_pos hc] at hm
        exact ⟨hc, by simpa using hm⟩
      · rw [if_neg hc] at hm; simp at hm
  · rintro (⟨h2, h3, h4⟩ | ⟨h2, h3⟩)
    · left; rw [if_pos ⟨h2, h3⟩]; simp [h4]
    · right; rw [if_pos h2]; simp [h3]

theorem nodup_runLinksUpTo {F : Type} (nav : List (NavPoint F)) (w k a : Nat) :
    (runLinksUpTo nav w k a).Nodup := by
  unfold runLinksUpTo
  by_cases h1 : 1 ≤ a ∧ a - 1 < k ∧ RunCond nav w (a - 1)
  · by_cases h2 : a < k ∧ RunCond nav w a
    · rw [if_pos h1, if_pos h2]
      simp only [List.singleton_append, List.nodup_cons, List.mem_singleton, List.not_mem_nil,
        not_false_eq_true, List.nodup_nil, and_self, and_true]
      omega
    · rw [if_pos h1, if_neg h2]; simp
  · by_cases h2 : a < k ∧ RunCond nav w a
    · rw [if_neg h1, if_pos h2]; simp
    · rw [if_neg h1, if_neg h2]; simp

/-- In a grid-shaped graph the condition of `CreateRunLinks` says: both cells classified,
same row, columns `x` and `x + 1`. -/
theorem runCond_iff {F : Type} (nav : List (NavPoint F)) (w h : Nat) (hg : GridShaped nav w h)
    (a b : Nat) (ha : a < w * h) (hb : b < w * h) :
    (RunCond nav w a ∧ b = a + 1) ↔
      ((cellAt nav a).nav_type ≠ 0 ∧ (cellAt nav b).nav_type ≠ 0 ∧
        (cellAt nav a).z_coord = (cellAt nav b).z_coord ∧
        (cellAt nav a).x_coord + 1 = (cellAt nav b).x_coord) := by
  have hw : 0 < w := by
    rcases Nat.eq_zero_or_pos w with h0 | h0
    · subst h0; simp at ha
    · exact h0
  rw [(hg.2 a ha).1, (hg.2 a ha).2, (hg.2 b hb).1, (hg.2 b hb).2]
  unfold RunCond
  constructor
  · rintro ⟨⟨h1, h2, h3⟩, rfl⟩
    have := (row_col_succ (a := a) (b := a + 1) hw).mpr ⟨rfl, h2⟩
    exact ⟨h1, h3, this.1, this.2⟩
  · rintro ⟨h1, h2, h3, h4⟩
    obtain ⟨h5, h6⟩ := (row_col_succ hw).mp ⟨h3, h4⟩
    subst h5
    exact ⟨⟨h1, h6, h2⟩, rfl⟩

theorem mem_link_run_iff {F : Type} (nav : List (NavPoint F)) (w h : Nat)
    (hg : GridShaped nav w h) (a b : Nat) (ha : a < w * h) (hb : b < w * h) :
    b ∈ runLinksUpTo nav w (w * h) a ↔
      ((cellAt nav a).nav_type ≠ 0 ∧ (cellAt nav b).nav_type ≠ 0 ∧
        (cellAt nav a).z_coord = (cellAt nav b).z_coord ∧
        ((cellAt nav a).x_coord + 1 = (cellAt nav b).x_coord ∨
          (cellAt nav b).x_coord + 1 = (cellAt nav a).x_coord)) := by
  rw [mem_runLinksUpTo nav w h a b ha]
  have e1 : (1 ≤ a ∧ RunCond nav w (a - 1) ∧ b = a - 1) ↔ (RunCond nav w b ∧ a = b + 1) := by
    constructor
    · rintro ⟨h1, h2, h3⟩
      subst h3
      exact ⟨h2, by omega⟩
    · rintro ⟨h1, h2⟩
      subst h2
      exact ⟨by omega, by simpa using h1, by omega⟩
  rw [e1, runCond_iff nav w h hg a b ha hb, runCond_iff nav w h hg b a hb ha]
  constructor
  · rintro (⟨h1, h2, h3, h4⟩ | ⟨h1, h2, h3, h4⟩)
    · exact ⟨h2, h1, h3.symm, Or.inr h4⟩
    · exact ⟨h1, h2, h3, Or.inl h4⟩
  · rintro ⟨h1, h2, h3, h4 | h4⟩
    · exact Or.inr ⟨h1, h2, h3, h4⟩
    · exact Or.inl ⟨h2, h1, h3.symm, h4⟩

theorem runLinksUpTo_lt {F : Type} (nav : List (NavPoint F)) (w h a c : Nat) (ha : a < w * h)
    (hc : c ∈ runLinksUpTo nav w (w * h) a) : c < w * h := by
  rcases (mem_runLinksUpTo nav w h a c ha).mp hc with ⟨_, _, h3⟩ | ⟨h2, h3⟩
  · omega
  · subst h3
    exact succ_lt_of_mod_ne ha h2.2.1

/-! ## Path search: the parent chain, GetNextNode -/

theorem parentChain_eq {F : Type} (n : PathNode F) :
    parentChain n = n :: (match n.parent with
      | some p => parentChain p
      | none => []) := by
  cases n with
  | mk x z i t b0 b1 parent g h d =>
    cases parent <;> simp [parentChain]

theorem parentChain_none {F : Type} (n : PathNode F) (h : n.parent = none) :
    parentChain n = [n] := by
  rw [parentChain_eq, h]

theorem parentChain_some {F : Type} (n p : PathNode F) (h : n.parent = some p) :
    parentChain n = n :: parentChain p := by
  rw [parentChain_eq, h]

theorem parentChain_head {F : Type} (n : PathNode F) : (parentChain n).head? = some n := by
  rw [parentChain_eq]; rfl

theorem parentChain_ne_nil {F : Type} (n : PathNode F) : parentChain n ≠ [] := by
  rw [parentChain_eq]; simp

theorem pathOK_child {F : Type} (ops : FloatOps F) (nav : List (NavPoint F)) (sIdx : Nat)
    (n p : PathNode F) (hp : n.parent = some p) (he : EdgeOK ops nav p n)
    (hok : PathOK ops nav sIdx (parentChain p)) : PathOK ops nav sIdx (parentChain n) := by
  rw [parentChain_some n p hp]
  rw [parentChain_eq p] at hok ⊢
  exact ⟨hp, he, hok⟩

theorem bestScan_lt {F : Type} (ops : FloatOps F) (l : List (PathNode F)) (hl : 0 < l.length) :
    (bestScan ops l).2 < l.length := by
  unfold bestScan
  have key : ∀ (k : Nat) (acc : F × Nat), k ≤ l.length → acc.2 < l.length →
      ((List.range k).foldl
        (fun (acc : F × Nat) i =>
          match l.get? i with
          | some n => if ops.lt (n.GetF ops) acc.1 || i == 0 then (n.GetF ops, i) else acc
          | none => acc) acc).2 < l.length := by
    intro k
    induction k with
    | zero => intro acc _ h; simpa using h
    | succ k ih =>
      intro acc hk h
      rw [List.range_succ, List.foldl_append]
      simp only [List.foldl_cons, List.foldl_nil]
      have h1 := ih acc (by omega) h
      split
      · split_ifs
        · simp only; omega
        · exact h1
      · exact h1
  exact key l.length _ (le_refl _) hl

/-- Specification of `GetNextNode` on a non-empty `openList`: it returns a node of the list, appends it to
`visitedList` and takes that one occurrence out of `openList`. -/
theorem getNextNode_spec {F : Type} (ops : FloatOps F) (s : SearchState F)
    (hl : 0 < s.openList.length) :
    ∃ (l1 l2 : List (PathNode F)) (cur : PathNode F), s.openList = l1 ++ cur :: l2 ∧
      GetNextNode ops s = (some cur,
        { s with visitedList := s.visitedList ++ [cur], openList := l1 ++ l2 }) := by
  have hk := bestScan_lt ops s.openList hl
  refine ⟨s.openList.take (bestScan ops s.openList).2,
    s.openList.drop ((bestScan ops s.openList).2 + 1), s.openList.get ⟨_, hk⟩, ?_, ?_⟩
  · have h1 := List.take_append_drop (bestScan ops s.openList).2 s.openList
    rw [List.drop_eq_getElem_cons hk] at h1
    exact h1.symm
  · unfold GetNextNode
    simp only [List.get?_eq_get hk, List.eraseIdx_eq_take_drop_succ]

/-! ## Path search: AddNodeToOpenList and the removal loop -/

theorem replaceLoop_idx {F : Type} (ops : FloatOps F) (c : PathNode F) (l : List (PathNode F)) :
    (replaceLoop ops c l).1.map (fun n => n.index) = l.map (fun n => n.index) := by
  induction l with
  | nil => rfl
  | cons n rest ih =>
    unfold replaceLoop
    by_cases h1 : c.index = n.index
    · rw [if_pos h1]
      by_cases h2 : ops.lt (ops.add c.G n.H) (n.GetF ops) = true
      · rw [if_pos h2]
        simp only [List.map_cons, ih, h1]
      · rw [if_neg h2]
    · rw [if_neg h1]
      simp only [List.map_cons, ih]

theorem replaceLoop_mem {F : Type} (ops : FloatOps F) (c : PathNode F) (l : List (PathNode F))
    (n' : PathNode F) (hn : n' ∈ (replaceLoop ops c l).1) :
    n' ∈ l ∨ (n'.parent = c.parent ∧ n'.index = c.index ∧ n'.type = c.type ∧ n'.G = c.G) := by
  induction l with
  | nil => simp [replaceLoop] at hn
  | cons n rest ih =>
    unfold replaceLoop at hn
    by_cases h1 : c.index = n.index
    · rw [if_pos h1] at hn
      by_cases h2 : ops.lt (ops.add c.G n.H) (n.GetF ops) = true
      · rw [if_pos h2] at hn
        simp only [List.mem_cons] at hn
        rcases hn with hn | hn
        · right; subst hn; exact ⟨rfl, rfl, rfl, rfl⟩
        · rcases ih hn with h | h
          · left; exact List.mem_cons_of_mem _ h
          · right; exact h
      · rw [if_neg h2] at hn
        left; exact hn
    · rw [if_neg h1] at hn
      simp only [List.mem_cons] at hn
      rcases hn with hn | hn
      · left; subst hn; exact List.mem_cons_self _ _
      · rcases ih hn with h | h
        · left; exact List.mem_cons_of_mem _ h
        · right; exact h

theorem replaceLoop_returned {F : Type} (ops : FloatOps F) (c : PathNode F)
    (l : List (PathNode F)) (hr : (replaceLoop ops c l).2 = true) :
    c.index ∈ l.map (fun n => n.index) := by
  induction l with
  | nil => simp [replaceLoop] at hr
  | cons n rest ih =>
    unfold replaceLoop at hr
    by_cases h1 : c.index = n.index
    · simp [h1]
    · rw [if_neg h1] at hr
      simp only [List.map_cons, List.mem_cons]
      right; exact ih hr

/-- What one `AddNodeToOpenList` call does to the state. -/
theorem addNode_spec {F : Type} (ops : FloatOps F) (w : Nat) (goal : GoalNode)
    (s : SearchState F) (x z : Int) (newCost : F) (parent : PathNode F) (path : List Nat)
    (type bez0 bez1 : Int) :
    (AddNodeToOpenList ops w goal s x z newCost parent path type bez0 bez1).visitedList
        = s.visitedList ∧
    (AddNodeToOpenList ops w goal s x z newCost parent path type bez0 bez1).goalNode
        = s.goalNode ∧
    (AddNodeToOpenList ops w goal s x z newCost parent path type bez0 bez1).pathNodesToGoal
        = s.pathNodesToGoal ∧
    (∀ n', n' ∈ (AddNodeToOpenList ops w goal s x z newCost parent path type bez0
        bez1).openList →
      n' ∈ s.openList ∨ (z * w + x ∉ visitedIdx s ∧ n'.parent = some parent ∧
        n'.index = z * w + x ∧ n'.type = type ∧ n'.G = newCost)) ∧
    (openIdx (AddNodeToOpenList ops w goal s x z newCost parent path type bez0 bez1)
        = openIdx s ∨
      (z * w + x ∉ visitedIdx s ∧
        openIdx (AddNodeToOpenList ops w goal s x z newCost parent path type bez0 bez1)
          = openIdx s ++ [z * w + x])) ∧
    (z * w + x ∈ visitedIdx s ∨
      z * w + x ∈ openIdx (AddNodeToOpenList ops w goal s x z newCost parent path type bez0
        bez1)) := by
  unfold AddNodeToOpenList
  simp only
  by_cases hv : (s.visitedList.any fun v => decide (z * ↑w + x = v.index)) = true
  · rw [if_pos hv]
    have hmem : z * w + x ∈ visitedIdx s := by
      simp only [List.any_eq_true, decide_eq_true_eq] at hv
      obtain ⟨v, hv1, hv2⟩ := hv
      unfold visitedIdx
      exact List.mem_map.mpr ⟨v, hv1, hv2.symm⟩
    exact ⟨rfl, rfl, rfl, fun n' hn => Or.inl hn, Or.inl rfl, Or.inl hmem⟩
  · rw [if_neg hv]
    have hnot : z * w + x ∉ visitedIdx s := by
      intro hm
      apply hv
      unfold visitedIdx at hm
      obtain ⟨v, hv1, hv2⟩ := List.mem_map.mp hm
      simp only [List.any_eq_true, decide_eq_true_eq]
      exact ⟨v, hv1, hv2.symm⟩
    generalize hc : PathNode.mk x z (z * ↑w + x) type bez0 bez1 (some parent) newCost
      (GetH ops parent.x_coord parent.z_coord goal) path = c
    have hci : c.index = z * w + x := by rw [← hc]
    have hcp : c.parent = some parent := by rw [← hc]
    have hct : c.type = type := by rw [← hc]
    have hcg : c.G = newCost := by rw [← hc]
    by_cases hr : (replaceLoop ops c s.openList).2 = true
    · rw [if_pos hr]
      refine ⟨rfl, rfl, rfl, ?_, ?_, ?_⟩
      · intro n' hn
        rcases replaceLoop_mem ops c s.openList n' hn with h | ⟨h1, h2, h3, h4⟩
        · exact Or.inl h
        · exact Or.inr ⟨hnot, by rw [h1, hcp], by rw [h2, hci], by rw [h3, hct], by rw [h4, hcg]⟩
      · left
        unfold openIdx
        exact replaceLoop_idx ops c s.openList
      · right
        unfold openIdx
        simp only
        rw [replaceLoop_idx, ← hci]
        exact replaceLoop_returned ops c s.openList hr
    · rw [if_neg hr]
      refine ⟨rfl, rfl, rfl, ?_, ?_, ?_⟩
      · intro n' hn
        simp only [List.mem_append, List.mem_singleton] at hn
        rcases hn with hn | hn
        · rcases replaceLoop_mem ops c s.openList n' hn with h | ⟨h1, h2, h3, h4⟩
          · exact Or.inl h
          · exact Or.inr ⟨hnot, by rw [h1, hcp], by rw [h2, hci], by rw [h3, hct],
              by rw [h4, hcg]⟩
        · subst hn
          exact Or.inr ⟨hnot, hcp, hci, hct, hcg⟩
      · right
        refine ⟨hnot, ?_⟩
        unfold openIdx
        simp only [List.map_append, List.map_cons, List.map_nil, replaceLoop_idx, hci]
      · right
        unfold openIdx
        simp only [List.map_append, List.map_cons, List.map_nil, List.mem_append,
          List.mem_singleton, hci, or_true]

theorem removeSame_sublist {F : Type} (idx : Int) :
    ∀ (l : List (PathNode F)), (removeSame idx l).Sublist l := by
  intro l
  induction l using removeSame.induct idx with
  | case1 => exact List.Sublist.refl _
  | case2 n h => simp [removeSame, h]
  | case3 n h => simp [removeSame, h]
  | case4 n m rest h ih =>
    rw [removeSame, if_pos h]
    exact List.Sublist.cons _ (List.Sublist.cons₂ _ ih)
  | case5 n m rest h ih =>
    rw [removeSame, if_neg h]
    exact List.Sublist.cons₂ _ ih

theorem removeSame_keeps {F : Type} (idx : Int) :
    ∀ (l : List (PathNode F)) (n : PathNode F), n ∈ l → n.index ≠ idx →
      n ∈ removeSame idx l := by
  intro l
  induction l using removeSame.induct idx with
  | case1 => intro n hn; simp at hn
  | case2 m h =>
    intro n hn hne
    simp only [List.mem_singleton] at hn
    subst hn
    exact absurd h.symm hne
  | case3 m h =>
    intro n hn _
    simp only [removeSame, if_neg h]
    exact hn
  | case4 m m' rest h ih =>
    intro n hn hne
    rw [removeSame, if_pos h]
    simp only [List.mem_cons] at hn ⊢
    rcases hn with hn | hn | hn
    · subst hn; exact absurd h.symm hne
    · exact Or.inl hn
    · exact Or.inr (ih n hn hne)
  | case5 m m' rest h ih =>
    intro n hn hne
    rw [removeSame, if_neg h]
    simp only [List.mem_cons] at hn ⊢
    rcases hn with hn | hn
    · exact Or.inl hn
    · exact Or.inr (ih n (by simpa using hn) hne)

/-! ## Path search: expanding a node -/

theorem expRel_refl {F : Type} (ops : FloatOps F) (nav : List (NavPoint F)) (n : Nat)
    (cur : PathNode F) (s : SearchState F) : ExpRel ops nav n cur s s :=
  ⟨rfl, rfl, rfl, fun _ h => Or.inl h, fun _ h => h, rfl⟩

theorem expRel_trans {F : Type} (ops : FloatOps F) (nav : List (NavPoint F)) (n : Nat)
    (cur : PathNode F) (s1 s2 s3 : SearchState F) (h12 : ExpRel ops nav n cur s1 s2)
    (h23 : ExpRel ops nav n cur s2 s3) : ExpRel ops nav n cur s1 s3 := by
  obtain ⟨a1, a2, a3, a4, a5, a6⟩ := h12
  obtain ⟨b1, b2, b3, b4, b5, b6⟩ := h23
  refine ⟨b1.trans a1, b2.trans a2, b3.trans a3, ?_, fun i hi => b5 i (a5 i hi), b6.trans a6⟩
  intro n' hn
  rcases b4 n' hn with h | h
  · exact a4 n' h
  · exact Or.inr h

theorem grid_index_cast (w b : Nat) :
    ((b / w : Nat) : Int) * (w : Int) + ((b % w : Nat) : Int) = (b : Int) := by
  have := Nat.div_add_mod' b w
  exact_mod_cast this

/-- One `AddNodeToOpenList` call that proposes the cell `b` as a child of `cur` over a link. -/
theorem addNode_expRel {F : Type} (ops : FloatOps F) (nav : List (NavPoint F)) (w h : Nat)
    (goal : GoalNode) (s : SearchState F) (cur : PathNode F) (b : Nat) (hb : b < w * h)
    (newCost : F) (path : List Nat) (type bez0 bez1 : Int)
    (hedge : ∀ n' : PathNode F, n'.index = (b : Int) → n'.type = type → n'.G = newCost →
      EdgeOK ops nav cur n') :
    ExpRel ops nav (w * h) cur s
      (AddNodeToOpenList ops w goal s ((b % w : Nat) : Int) ((b / w : Nat) : Int) newCost cur
        path type bez0 bez1) ∧
    ((b : Int) ∈ visitedIdx s ∨ (b : Int) ∈ openIdx
      (AddNodeToOpenList ops w goal s ((b % w : Nat) : Int) ((b / w : Nat) : Int) newCost cur
        path type bez0 bez1)) := by
  obtain ⟨h1, h2, h3, h4, h5, h6⟩ := addNode_spec ops w goal s ((b % w : Nat) : Int)
    ((b / w : Nat) : Int) newCost cur path type bez0 bez1
  rw [grid_index_cast] at h4 h5 h6
  refine ⟨⟨h1, h2, h3, ?_, ?_, ?_⟩, h6⟩
  · intro n' hn
    rcases h4 n' hn with h | ⟨_, hp, hi, ht, hg⟩
    · exact Or.inl h
    · exact Or.inr ⟨hp, hedge n' hi ht hg, b, hb, hi⟩
  · intro i hi
    rcases h5 with h | ⟨_, h⟩
    · rw [h]; exact hi
    · rw [h]; exact List.mem_append_left _ hi
  · unfold staleCount visitedIdx
    rw [h1]
    rcases h5 with h | ⟨hn, h⟩
    · rw [h]
    · rw [h, List.filter_append]
      have : List.filter (fun i => decide (i ∈ List.map (fun n => n.index) s.visitedList))
          [(b : Int)] = [] := by
        unfold visitedIdx at hn
        rw [List.filter_cons, if_neg (by simpa using hn)]
        rfl
      rw [this, List.append_nil]

/-- Folding steps that each satisfy `ExpRel` and each settle their own item. -/
theorem foldl_expRel {F β : Type} (ops : FloatOps F) (nav : List (NavPoint F)) (n : Nat)
    (cur : PathNode F) (step : SearchState F → β → SearchState F) (key : β → Int)
    (l : List β)
    (hstep : ∀ s b, b ∈ l → ExpRel ops nav n cur s (step s b) ∧
      (key b ∈ visitedIdx s ∨ key b ∈ openIdx (step s b))) :
    ∀ s, ExpRel ops nav n cur s (l.foldl step s) ∧
      ∀ b, b ∈ l → key b ∈ visitedIdx s ∨ key b ∈ openIdx (l.foldl step s) := by
  induction l with
  | nil =>
    intro s
    exact ⟨expRel_refl ops nav n cur s, fun b hb => by simp at hb⟩
  | cons b0 rest ih =>
    intro s
    have h0 := hstep s b0 (List.mem_cons_self _ _)
    have ih' := ih (fun s b hb => hstep s b (List.mem_cons_of_mem _ hb)) (step s b0)
    simp only [List.foldl_cons]
    refine ⟨expRel_trans ops nav n cur _ _ _ h0.1 ih'.1, ?_⟩
    intro b hb
    have hv : visitedIdx (step s b0) = visitedIdx s := by
      unfold visitedIdx; rw [h0.1.1]
    rcases List.mem_cons.mp hb with hb | hb
    · subst hb
      rcases h0.2 with h | h
      · exact Or.inl h
      · exact Or.inr (ih'.1.2.2.2.2.1 _ h)
    · rcases ih'.2 b hb with h | h
      · rw [hv] at h; exact Or.inl h
      · exact Or.inr h

theorem expandRun_expRel {F : Type} (ops : FloatOps F) (oob : Oob F) (nav : List (NavPoint F))
    (w h : Nat) (hwf : WellFormed nav w h) (goal : GoalNode) (cur : PathNode F) (a : Nat)
    (ha : a < w * h) (hcur : cur.index = (a : Int)) (s : SearchState F) (b : Nat)
    (hb : b ∈ (cellAt nav a).link_run) :
    ExpRel ops nav (w * h) cur s (expandRun ops oob nav w goal cur s b) ∧
    ((b : Int) ∈ visitedIdx s ∨ (b : Int) ∈ openIdx (expandRun ops oob nav w goal cur s b)) := by
  have hbl : b < w * h := (hwf.2 a ha).1 b hb
  unfold expandRun
  simp only
  rw [rdNav_nat oob nav b (by rw [hwf.1.1]; exact hbl), (hwf.1.2 b hbl).1, (hwf.1.2 b hbl).2]
  apply addNode_expRel ops nav w h goal s cur b hbl
  intro n' hi ht hg
  exact ⟨a, b, hcur, hi, Or.inl ⟨ht, hb, hg⟩⟩

theorem expandFall_expRel {F : Type} (ops : FloatOps F) (oob : Oob F) (nav : List (NavPoint F))
    (w h : Nat) (hwf : WellFormed nav w h) (goal : GoalNode) (cur : PathNode F) (a : Nat)
    (ha : a < w * h) (hcur : cur.index = (a : Int)) (s : SearchState F) (b : Nat)
    (hb : b ∈ (cellAt nav a).link_fall) :
    ExpRel ops nav (w * h) cur s (expandFall ops oob nav w goal cur s b) ∧
    ((b : Int) ∈ visitedIdx s ∨ (b : Int) ∈ openIdx (expandFall ops oob nav w goal cur s b)) := by
  have hbl : b < w * h := (hwf.2 a ha).2.1 b hb
  unfold expandFall
  simp only
  rw [rdNav_nat oob nav b (by rw [hwf.1.1]; exact hbl), (hwf.1.2 b hbl).1, (hwf.1.2 b hbl).2]
  apply addNode_expRel ops nav w h goal s cur b hbl
  intro n' hi ht hg
  refine ⟨a, b, hcur, hi, Or.inr (Or.inl ⟨ht, hb, ?_⟩)⟩
  rw [hg, hcur, rdNav_nat oob nav a (by rw [hwf.1.1]; exact ha)]

theorem expandJump_expRel {F : Type} (ops : FloatOps F) (oob : Oob F) (nav : List (NavPoint F))
    (w h : Nat) (hwf : WellFormed nav w h) (goal : GoalNode) (cur : PathNode F) (a : Nat)
    (ha : a < w * h) (hcur : cur.index = (a : Int)) (s : SearchState F) (j : JumpInfo F)
    (hj : j ∈ (cellAt nav a).link_jump) :
    ExpRel ops nav (w * h) cur s (expandJump ops oob nav w goal cur s j) ∧
    ((j.index : Int) ∈ visitedIdx s ∨
      (j.index : Int) ∈ openIdx (expandJump ops oob nav w goal cur s j)) := by
  have hbl : j.index < w * h := (hwf.2 a ha).2.2 j hj
  unfold expandJump
  simp only
  rw [rdNav_nat oob nav j.index (by rw [hwf.1.1]; exact hbl), (hwf.1.2 _ hbl).1,
    (hwf.1.2 _ hbl).2]
  apply addNode_expRel ops nav w h goal s cur j.index hbl
  intro n' hi ht hg
  exact ⟨a, j.index, hcur, hi, Or.inr (Or.inr ⟨ht, j, hj, rfl, hg⟩)⟩

/-- Expanding a node: the state changes as `ExpRel` allows, and every cell the node's cell
links to is then visited or open. -/
theorem expand_spec {F : Type} (ops : FloatOps F) (oob : Oob F) (nav : List (NavPoint F))
    (w h : Nat) (hwf : WellFormed nav w h) (goal : GoalNode) (cur : PathNode F) (a : Nat)
    (ha : a < w * h) (hcur : cur.index = (a : Int)) (s : SearchState F) :
    ExpRel ops nav (w * h) cur s (expand ops oob nav w goal cur s) ∧
    ∀ b, Edge nav a b →
      (b : Int) ∈ visitedIdx s ∨ (b : Int) ∈ openIdx (expand ops oob nav w goal cur s) := by
  unfold expand
  simp only
  rw [hcur, rdNav_nat oob nav a (by rw [hwf.1.1]; exact ha)]
  obtain ⟨r1, c1⟩ := foldl_expRel ops nav (w * h) cur (expandRun ops oob nav w goal cur)
    (fun b : Nat => (b : Int)) (cellAt nav a).link_run
    (fun s b hb => expandRun_expRel ops oob nav w h hwf goal cur a ha hcur s b hb) s
  generalize List.foldl (expandRun ops oob nav w goal cur) s (cellAt nav a).link_run = s1
    at r1 c1
  obtain ⟨r2, c2⟩ := foldl_expRel ops nav (w * h) cur (expandFall ops oob nav w goal cur)
    (fun b : Nat => (b : Int)) (cellAt nav a).link_fall
    (fun s b hb => expandFall_expRel ops oob nav w h hwf goal cur a ha hcur s b hb) s1
  generalize List.foldl (expandFall ops oob nav w goal cur) s1 (cellAt nav a).link_fall = s2
    at r2 c2
  obtain ⟨r3, c3⟩ := foldl_expRel ops nav (w * h) cur (expandJump ops oob nav w goal cur)
    (fun j : JumpInfo F => (j.index : Int)) (cellAt nav a).link_jump
    (fun s j hj => expandJump_expRel ops oob nav w h hwf goal cur a ha hcur s j hj) s2
  generalize List.foldl (expandJump ops oob nav w goal cur) s2 (cellAt nav a).link_jump = s3
    at r3 c3
  have hv1 : visitedIdx s1 = visitedIdx s := by unfold visitedIdx; rw [r1.1]
  have hv2 : visitedIdx s2 = visitedIdx s := by unfold visitedIdx; rw [r2.1, r1.1]
  refine ⟨expRel_trans ops nav _ cur _ _ _ (expRel_trans ops nav _ cur _ _ _ r1 r2) r3, ?_⟩
  intro b hb
  rcases hb with hb | hb | ⟨j, hj, rfl⟩
  · rcases c1 b hb with h | h
    · exact Or.inl h
    · exact Or.inr (r3.2.2.2.2.1 _ (r2.2.2.2.2.1 _ h))
  · rcases c2 b hb with h | h
    · rw [hv1] at h; exact Or.inl h
    · exact Or.inr (r3.2.2.2.2.1 _ h)
  · rcases c3 j hj with h | h
    · rw [hv2] at h; exact Or.inl h
    · exact Or.inr h

/-! ## Path search: one call of CheckPath -/

theorem filter_length_lt {α : Type} (p q : α → Bool) (l : List α)
    (himp : ∀ x, q x = true → p x = true) (x : α) (hx : x ∈ l) (hp : p x = true)
    (hq : q x = false) : (l.filter q).length < (l.filter p).length := by
  induction l with
  | nil => simp at hx
  | cons y rest ih =>
    have hle : (rest.filter q).length ≤ (rest.filter p).length := by
      clear ih hx
      induction rest with
      | nil => simp
      | cons z r ihr =>
        simp only [List.filter_cons]
        by_cases hqz : q z = true
        · rw [if_pos hqz, if_pos (himp z hqz)]
          simp only [List.length_cons]; omega
        · rw [if_neg hqz]
          by_cases hpz : p z = true
          · rw [if_pos hpz]; simp only [List.length_cons]; omega
          · rw [if_neg hpz]; exact ihr
    simp only [List.filter_cons]
    rcases List.mem_cons.mp hx with hxy | hxr
    · subst hxy
      rw [if_pos hp, if_neg (by rw [hq]; simp)]
      simp only [List.length_cons]; omega
    · have := ih hxr
      by_cases hqy : q y = true
      · rw [if_pos hqy, if_pos (himp y hqy)]
        simp only [List.length_cons]; omega
      · rw [if_neg hqy]
        by_cases hpy : p y = true
        · rw [if_pos hpy]; simp only [List.length_cons]; omega
        · rw [if_neg hpy]; exact this

/-- The state `CheckPath` recurses on after expanding `cur` out of `s1`. -/
theorem next_state_facts {F : Type} (ops : FloatOps F) (oob : Oob F) (nav : List (NavPoint F))
    (w h sIdx gIdx : Nat) (hwf : WellFormed nav w h) (s : SearchState F)
    (hinv : SearchInv ops nav w h sIdx gIdx s) (goal : GoalNode) (hgoal : s.goalNode = some goal)
    (l1 l2 : List (PathNode F)) (cur : PathNode F) (hopen : s.openList = l1 ++ cur :: l2)
    (hng : cur.index ≠ goal.index) (s3 : SearchState F)
    (hs3 : s3 = { expand ops oob nav w goal cur
        { s with visitedList := s.visitedList ++ [cur], openList := l1 ++ l2 } with
      openList := removeSame cur.index (expand ops oob nav w goal cur
        { s with visitedList := s.visitedList ++ [cur], openList := l1 ++ l2 }).openList }) :
    SearchInv ops nav w h sIdx gIdx s3 ∧
    (unvisitedCount (w * h) s3 < unvisitedCount (w * h) s ∨
      (unvisitedCount (w * h) s3 = unvisitedCount (w * h) s ∧ staleCount s3 < staleCount s)) := by
  obtain ⟨⟨g0, hg0, hg0i⟩, hpath, hnodes, hstart, hgv, hclos⟩ := hinv
  have hgg : g0 = goal := by rw [hgoal] at hg0; exact (Option.some.inj hg0).symm
  subst hgg
  have hcurmem : cur ∈ s.openList := by rw [hopen]; simp
  obtain ⟨hcurok, a, ha, hcura⟩ := hnodes cur (Or.inl hcurmem)
  generalize hs1 : ({ s with visitedList := s.visitedList ++ [cur], openList := l1 ++ l2 } :
    SearchState F) = s1 at hs3
  have hs1v : s1.visitedList = s.visitedList ++ [cur] := by rw [← hs1]
  have hs1o : s1.openList = l1 ++ l2 := by rw [← hs1]
  have hs1g : s1.goalNode = s.goalNode := by rw [← hs1]
  have hs1p : s1.pathNodesToGoal = s.pathNodesToGoal := by rw [← hs1]
  obtain ⟨⟨e1, e2, e3, e4, e5, e6⟩, ecomp⟩ :=
    expand_spec ops oob nav w h hwf g0 cur a ha hcura s1
  generalize expand ops oob nav w g0 cur s1 = s2 at hs3 e1 e2 e3 e4 e5 e6 ecomp
  have hs3v : s3.visitedList = s.visitedList ++ [cur] := by rw [hs3]; simp only; rw [e1, hs1v]
  have hs3o : s3.openList = removeSame cur.index s2.openList := by rw [hs3]
  have hs3g : s3.goalNode = s.goalNode := by rw [hs3]; simp only; rw [e2, hs1g]
  have hs3p : s3.pathNodesToGoal = [] := by rw [hs3]; simp only; rw [e3, hs1p, hpath]
  have hV3 : visitedIdx s3 = visitedIdx s ++ [(a : Int)] := by
    unfold visitedIdx; rw [hs3v, List.map_append]; simp [hcura]
  have hV1 : visitedIdx s1 = visitedIdx s ++ [(a : Int)] := by
    unfold visitedIdx; rw [hs1v, List.map_append]; simp [hcura]
  -- an index that is open in `s2` is the expanded one or stays open
  have keep2 : ∀ i, i ∈ openIdx s2 → i = (a : Int) ∨ i ∈ openIdx s3 := by
    intro i hi
    by_cases hia : i = (a : Int)
    · exact Or.inl hia
    · right
      unfold openIdx at hi ⊢
      obtain ⟨n, hn1, hn2⟩ := List.mem_map.mp hi
      rw [hs3o]
      refine List.mem_map.mpr ⟨n, removeSame_keeps _ _ n hn1 ?_, hn2⟩
      rw [hn2, hcura]; exact hia
  have keep0 : ∀ i, i ∈ openIdx s → i = (a : Int) ∨ i ∈ openIdx s3 := by
    intro i hi
    unfold openIdx at hi
    rw [hopen] at hi
    simp only [List.map_append, List.map_cons, List.mem_append, List.mem_cons] at hi
    have h1 : i = (a : Int) ∨ i ∈ openIdx s1 := by
      unfold openIdx
      rw [hs1o, List.map_append, List.mem_append]
      rcases hi with hi | hi | hi
      · exact Or.inr (Or.inl hi)
      · exact Or.inl (by rw [hi, hcura])
      · exact Or.inr (Or.inr hi)
    rcases h1 with h1 | h1
    · exact Or.inl h1
    · exact keep2 i (e5 i h1)
  have inV3 : ∀ i, i ∈ visitedIdx s ∨ i = (a : Int) → i ∈ visitedIdx s3 := by
    intro i hi
    rw [hV3, List.mem_append, List.mem_singleton]; exact hi
  refine ⟨⟨⟨g0, by rw [hs3g, hgoal], hg0i⟩, hs3p, ?_, ?_, ?_, ?_⟩, ?_⟩
  · -- nodes
    intro n hn
    rcases hn with hn | hn
    · rw [hs3o] at hn
      have hn2 : n ∈ s2.openList := (removeSame_sublist cur.index s2.openList).subset hn
      rcases e4 n hn2 with h | ⟨hp, hedge, hidx⟩
      · rw [hs1o] at h
        refine hnodes n (Or.inl ?_)
        rw [hopen]
        simp only [List.mem_append, List.mem_cons] at h ⊢
        rcases h with h | h
        · exact Or.inl h
        · exact Or.inr (Or.inr h)
      · exact ⟨pathOK_child ops nav sIdx n cur hp hedge hcurok, hidx⟩
    · rw [hs3v, List.mem_append, List.mem_singleton] at hn
      rcases hn with hn | hn
      · exact hnodes n (Or.inr hn)
      · subst hn; exact ⟨hcurok, a, ha, hcura⟩
  · -- start
    rcases hstart with h | h
    · exact Or.inl (inV3 _ (Or.inl h))
    · rcases keep0 _ h with h | h
      · exact Or.inl (inV3 _ (Or.inr h))
      · exact Or.inr h
  · -- goal not visited
    rw [hV3, List.mem_append, List.mem_singleton]
    rintro (h | h)
    · exact hgv h
    · apply hng; rw [hcura, hg0i]; exact h.symm
  · -- closure
    intro a' b ha' hedge
    rw [hV3, List.mem_append, List.mem_singleton] at ha'
    rcases ha' with ha' | ha'
    · rcases hclos a' b ha' hedge with h | h
      · exact Or.inl (inV3 _ (Or.inl h))
      · rcases keep0 _ h with h | h
        · exact Or.inl (inV3 _ (Or.inr h))
        · exact Or.inr h
    · have haa : a' = a := by exact_mod_cast ha'
      subst haa
      rcases ecomp b hedge with h | h
      · rw [hV1] at h
        exact Or.inl (by rw [hV3]; exact h)
      · rcases keep2 _ h with h | h
        · exact Or.inl (inV3 _ (Or.inr h))
        · exact Or.inr h
  · -- measure
    by_cases hav : (a : Int) ∈ visitedIdx s
    · right
      have hmemeq : ∀ i : Int, decide (i ∈ visitedIdx s3) = decide (i ∈ visitedIdx s) := by
        intro i
        rw [hV3]
        by_cases hi : i ∈ visitedIdx s
        · simp [hi]
        · have : i ≠ (a : Int) := fun hh => hi (hh ▸ hav)
          simp [hi, this]
      have hmemeq1 : ∀ i : Int, decide (i ∈ visitedIdx s1) = decide (i ∈ visitedIdx s) := by
        intro i; rw [hV1, ← hV3]; exact hmemeq i
      constructor
      · unfold unvisitedCount
        congr 1
        apply List.filter_congr
        intro i _
        have := hmemeq (Int.ofNat i)
        simp only [decide_not, this]
      · have h3le : staleCount s3 ≤ staleCount s2 := by
          unfold staleCount
          have hv32 : visitedIdx s3 = visitedIdx s2 := by
            unfold visitedIdx; rw [hs3v, e1, hs1v]
          rw [hv32]
          apply List.Sublist.length_le
          apply List.Sublist.filter
          unfold openIdx
          rw [hs3o]
          exact (removeSame_sublist cur.index s2.openList).map _
        have h1 : staleCount s1 + 1 = staleCount s := by
          unfold staleCount openIdx
          rw [hs1o, hopen]
          simp only [List.map_append, List.map_cons, List.filter_append, List.filter_cons,
            List.length_append, hmemeq1, hcura, hav, decide_True, if_true, List.length_cons]
          omega
        omega
    · left
      unfold unvisitedCount
      refine filter_length_lt (fun i : Nat => decide (Int.ofNat i ∉ visitedIdx s))
        (fun i : Nat => decide (Int.ofNat i ∉ visitedIdx s3)) (List.range (w * h)) ?_ a
        (List.mem_range.mpr ha) ?_ ?_
      · intro x hx
        rw [hV3] at hx
        simp only [List.mem_append, List.mem_singleton, not_or, decide_eq_true_eq] at hx ⊢
        exact hx.1
      · simpa using hav
      · rw [hV3]; simp

/-! ## Path search: the whole run -/

theorem checkPath_zero_open {F : Type} (ops : FloatOps F) (oob : Oob F)
    (nav : List (NavPoint F)) (w fuel : Nat) (s : SearchState F) (h0 : s.openList.length = 0) :
    CheckPath ops oob nav w (fuel + 1) s = some s := by
  rw [CheckPath, if_pos h0]

theorem checkPath_succ {F : Type} (ops : FloatOps F) (oob : Oob F)
    (nav : List (NavPoint F)) (w fuel : Nat) (s : SearchState F) (goal : GoalNode)
    (hgoal : s.goalNode = some goal) (l1 l2 : List (PathNode F)) (cur : PathNode F)
    (hnext : GetNextNode ops s = (some cur,
      { s with visitedList := s.visitedList ++ [cur], openList := l1 ++ l2 }))
    (hpos : 0 < s.openList.length) :
    CheckPath ops oob nav w (fuel + 1) s =
      if cur.index = goal.index then
        some { s with visitedList := s.visitedList ++ [cur], openList := l1 ++ l2,
                      pathNodesToGoal := s.pathNodesToGoal ++ parentChain cur }
      else
        CheckPath ops oob nav w fuel
          { expand ops oob nav w goal cur
              { s with visitedList := s.visitedList ++ [cur], openList := l1 ++ l2 } with
            openList := removeSame cur.index (expand ops oob nav w goal cur
              { s with visitedList := s.visitedList ++ [cur], openList := l1 ++ l2 }).openList } := by
  rw [CheckPath, if_neg (by omega), hnext]
  simp only [hgoal]

/-- The state `SetStartAndGoal` builds from the reset state meets the invariant. -/
theorem setStartAndGoal_inv {F : Type} (ops : FloatOps F) (u : Unset) (nav : List (NavPoint F))
    (w h sx sz gx gz : Nat) (hsx : sx < w) (hsz : sz < h) (hgx : gx < w) (hgz : gz < h) :
    SearchInv ops nav w h (sz * w + sx) (gz * w + gx)
      (SetStartAndGoal ops u w h DeletePath (sx : Int) (sz : Int) (gx : Int) (gz : Int)) := by
  have hs := cell_index_lt hsx hsz
  have hg := cell_index_lt hgx hgz
  have hcond : (sx : Int) ≥ 0 ∧ (sz : Int) ≥ 0 ∧ (gx : Int) ≥ 0 ∧ (gz : Int) ≥ 0 ∧
      (sz : Int) * (w : Int) + (sx : Int) < ((w * h : Nat) : Int) ∧
      (gz : Int) * (w : Int) + (gx : Int) < ((w * h : Nat) : Int) := by
    refine ⟨by omega, by omega, by omega, by omega, ?_, ?_⟩
    · exact_mod_cast hs
    · exact_mod_cast hg
  unfold SetStartAndGoal
  simp only
  rw [if_pos hcond]
  refine ⟨⟨_, rfl, by push_cast; rfl⟩, rfl, ?_, ?_, ?_, ?_⟩
  · intro n hn
    simp only [DeletePath, List.nil_append, List.mem_singleton, List.not_mem_nil, or_false]
      at hn
    subst hn
    refine ⟨?_, sz * w + sx, hs, by push_cast; rfl⟩
    rw [parentChain_none _ rfl]
    exact ⟨rfl, rfl, by push_cast; rfl⟩
  · right
    simp [openIdx, DeletePath]
  · simp [visitedIdx, DeletePath]
  · intro a b ha
    simp [visitedIdx, DeletePath] at ha

/-- Soundness of `CheckPath`: from a state that meets the invariant, a result either has an
empty path and an empty open list and meets the invariant, or its path runs from the goal
back to the start. -/
theorem checkPath_sound {F : Type} (ops : FloatOps F) (oob : Oob F) (nav : List (NavPoint F))
    (w h sIdx gIdx : Nat) (hwf : WellFormed nav w h) :
    ∀ (fuel : Nat) (s s' : SearchState F), SearchInv ops nav w h sIdx gIdx s →
      CheckPath ops oob nav w fuel s = some s' →
      (s'.pathNodesToGoal = [] ∧ s'.openList = [] ∧ SearchInv ops nav w h sIdx gIdx s') ∨
      GoalToStart ops nav sIdx gIdx s'.pathNodesToGoal := by
  intro fuel
  induction fuel with
  | zero => intro s s' _ hc; simp [CheckPath] at hc
  | succ fuel ih =>
    intro s s' hinv hc
    by_cases h0 : s.openList.length = 0
    · rw [checkPath_zero_open ops oob nav w fuel s h0] at hc
      have : s = s' := Option.some.inj hc
      subst this
      exact Or.inl ⟨hinv.2.1, List.length_eq_zero.mp h0, hinv⟩
    · have hpos : 0 < s.openList.length := by omega
      obtain ⟨l1, l2, cur, hopen, hnext⟩ := getNextNode_spec ops s hpos
      obtain ⟨goal, hgoal, hgi⟩ := hinv.1
      rw [checkPath_succ ops oob nav w fuel s goal hgoal l1 l2 cur hnext hpos] at hc
      by_cases hcg : cur.index = goal.index
      · rw [if_pos hcg] at hc
        have : _ = s' := Option.some.inj hc
        subst this
        right
        simp only [hinv.2.1, List.nil_append]
        have hcurmem : cur ∈ s.openList := by rw [hopen]; simp
        refine ⟨⟨cur, parentChain_head cur, by rw [hcg, hgi]⟩, (hinv.2.2.1 cur (Or.inl hcurmem)).1⟩
      · rw [if_neg hcg] at hc
        exact ih _ s' (next_state_facts ops oob nav w h sIdx gIdx hwf s hinv goal hgoal l1 l2
          cur hopen hcg _ rfl).1 hc

/-- Termination of `CheckPath`: from a state that meets the invariant, enough fuel gives a
result. -/
theorem checkPath_terminates {F : Type} (ops : FloatOps F) (oob : Oob F)
    (nav : List (NavPoint F)) (w h sIdx gIdx : Nat) (hwf : WellFormed nav w h) :
    ∀ (u t : Nat) (s : SearchState F), unvisitedCount (w * h) s = u → staleCount s = t →
      SearchInv ops nav w h sIdx gIdx s →
      ∃ N, ∀ fuel, N ≤ fuel → ∃ s', CheckPath ops oob nav w fuel s = some s' := by
  intro u
  induction u using Nat.strong_induction_on with
  | _ u ihu =>
    intro t
    induction t using Nat.strong_induction_on with
    | _ t iht =>
      intro s hu ht hinv
      by_cases h0 : s.openList.length = 0
      · refine ⟨1, fun fuel hf => ⟨s, ?_⟩⟩
        obtain ⟨f', rfl⟩ : ∃ f', fuel = f' + 1 := ⟨fuel - 1, by omega⟩
        exact checkPath_zero_open ops oob nav w f' s h0
      · have hpos : 0 < s.openList.length := by omega
        obtain ⟨l1, l2, cur, hopen, hnext⟩ := getNextNode_spec ops s hpos
        obtain ⟨goal, hgoal, hgi⟩ := hinv.1
        by_cases hcg : cur.index = goal.index
        · refine ⟨1, fun fuel hf => ?_⟩
          obtain ⟨f', rfl⟩ : ∃ f', fuel = f' + 1 := ⟨fuel - 1, by omega⟩
          rw [checkPath_succ ops oob nav w f' s goal hgoal l1 l2 cur hnext hpos, if_pos hcg]
          exact ⟨_, rfl⟩
        · obtain ⟨hinv3, hdec⟩ := next_state_facts ops oob nav w h sIdx gIdx hwf s hinv goal
            hgoal l1 l2 cur hopen hcg _ rfl
          have hrec : ∃ N, ∀ fuel, N ≤ fuel → ∃ s', CheckPath ops oob nav w fuel
              { expand ops oob nav w goal cur
                  { s with visitedList := s.visitedList ++ [cur], openList := l1 ++ l2 } with
                openList := removeSame cur.index (expand ops oob nav w goal cur
                  { s with visitedList := s.visitedList ++ [cur],
                           openList := l1 ++ l2 }).openList } = some s' := by
            rcases hdec with hd | ⟨hd1, hd2⟩
            · exact ihu _ (by rw [← hu]; exact hd) _ _ rfl rfl hinv3
            · exact iht _ (by rw [← ht]; exact hd2) _ (by rw [hd1, hu]) rfl hinv3
          obtain ⟨N, hN⟩ := hrec
          refine ⟨N + 1, fun fuel hf => ?_⟩
          obtain ⟨f', rfl⟩ : ∃ f', fuel = f' + 1 := ⟨fuel - 1, by omega⟩
          rw [checkPath_succ ops oob nav w f' s goal hgoal l1 l2 cur hnext hpos, if_neg hcg]
          exact hN f' (by omega)

/-! ## Path search: what the result says about the graph -/

theorem edge_of_edgeOK {F : Type} (ops : FloatOps F) (nav : List (NavPoint F))
    (p c : PathNode F) (a b : Nat) (hp : p.index = (a : Int)) (hc : c.index = (b : Int))
    (he : EdgeOK ops nav p c) : Edge nav a b := by
  obtain ⟨a', b', hp', hc', hcase⟩ := he
  have ha : a' = a := by rw [hp] at hp'; exact_mod_cast hp'.symm
  have hb : b' = b := by rw [hc] at hc'; exact_mod_cast hc'.symm
  subst ha; subst hb
  rcases hcase with ⟨_, h, _⟩ | ⟨_, h, _⟩ | ⟨_, j, hj, hji, _⟩
  · exact Or.inl h
  · exact Or.inr (Or.inl h)
  · exact Or.inr (Or.inr ⟨j, hj, hji⟩)

/-- The cell of the first node of a `PathOK` list can be reached from the start cell. -/
theorem reach_of_pathOK {F : Type} (ops : FloatOps F) (nav : List (NavPoint F)) (sIdx : Nat) :
    ∀ (l : List (PathNode F)), PathOK ops nav sIdx l →
      ∀ (first : PathNode F) (b : Nat), l.head? = some first → first.index = (b : Int) →
        Reach nav sIdx b := by
  intro l
  induction l with
  | nil => intro h; exact absurd h (by simp [PathOK])
  | cons c rest ih =>
    intro hok first b hf hb
    simp only [List.head?_cons, Option.some.injEq] at hf
    subst hf
    cases rest with
    | nil =>
      obtain ⟨_, _, hi⟩ := hok
      have : b = sIdx := by rw [hb] at hi; exact_mod_cast hi
      subst this
      exact Relation.ReflTransGen.refl
    | cons p rest' =>
      obtain ⟨_, he, hrest⟩ := hok
      obtain ⟨a, b', hp, hc', _⟩ := id he
      have hr : Reach nav sIdx a := ih hrest p a rfl hp
      exact Relation.ReflTransGen.tail hr (edge_of_edgeOK ops nav p c a b hp hb he)

/-- When the open list is empty, every cell reachable from the start cell is visited. -/
theorem visited_of_reach {F : Type} (ops : FloatOps F) (nav : List (NavPoint F))
    (w h sIdx gIdx : Nat) (s : SearchState F) (hinv : SearchInv ops nav w h sIdx gIdx s)
    (hopen : s.openList = []) (b : Nat) (hr : Reach nav sIdx b) : (b : Int) ∈ visitedIdx s := by
  have hnil : openIdx s = [] := by unfold openIdx; rw [hopen]; rfl
  obtain ⟨_, _, _, hstart, _, hclos⟩ := hinv
  induction hr with
  | refl =>
    rcases hstart with h | h
    · exact h
    · rw [hnil] at h; simp at h
  | tail _ hedge ih =>
    rcases hclos _ _ ih hedge with h | h
    · exact h
    · rw [hnil] at h; simp at h

theorem nonNeg_fallCost {F : Type} (ops : FloatOps F) (hops : OrderedOps ops)
    (cur tgt : NavPoint F) : NonNeg ops (fallCost ops cur tgt) := by
  unfold fallCost
  split_ifs
  · exact hops.2.2 _
  · exact hops.2.1

/-- Along a `PathOK` list `G` does not decrease from parent to child when costs are
non-negative. -/
theorem gNonDecreasing_of_pathOK {F : Type} (ops : FloatOps F) (nav : List (NavPoint F))
    (sIdx : Nat) (hops : OrderedOps ops) (hj : NonNegJumps ops nav) :
    ∀ (l : List (PathNode F)), PathOK ops nav sIdx l → GNonDecreasing ops l := by
  intro l
  induction l with
  | nil => intro _; trivial
  | cons c rest ih =>
    intro hok
    cases rest with
    | nil => trivial
    | cons p rest' =>
      obtain ⟨_, he, hrest⟩ := hok
      refine ⟨?_, ih hrest⟩
      obtain ⟨a, b, _, _, hcase⟩ := he
      rcases hcase with ⟨_, _, hg⟩ | ⟨_, _, hg⟩ | ⟨_, j, hjm, _, hg⟩
      · rw [hg]; exact hops.1 _ _ hops.2.1
      · rw [hg]; exact hops.1 _ _ (nonNeg_fallCost ops hops _ _)
      · rw [hg]; exact hops.1 _ _ (hj a j hjm)

theorem goalToStart_ne_nil {F : Type} (ops : FloatOps F) (nav : List (NavPoint F))
    (sIdx gIdx : Nat) (l : List (PathNode F)) (h : GoalToStart ops nav sIdx gIdx l) :
    l ≠ [] := by
  intro hl
  subst hl
  exact h.2

/-- The search from an in-range start to an in-range goal on a well-formed graph: enough fuel
gives a result, and a result has a goal-to-start path if the goal cell can be reached
from the start cell and an empty path otherwise. -/
theorem search_total {F : Type} (ops : FloatOps F) (oob : Oob F) (u : Unset)
    (nav : List (NavPoint F)) (w h sx sz gx gz : Nat) (hwf : WellFormed nav w h)
    (hsx : sx < w) (hsz : sz < h) (hgx : gx < w) (hgz : gz < h) :
    ∃ N, ∀ fuel, N ≤ fuel → ∃ s',
      search ops oob u nav w h (sx : Int) (sz : Int) (gx : Int) (gz : Int) fuel = some s' ∧
      ((Reach nav (sz * w + sx) (gz * w + gx) ∧
          GoalToStart ops nav (sz * w + sx) (gz * w + gx) (GetPath s')) ∨
        (¬ Reach nav (sz * w + sx) (gz * w + gx) ∧ GetPath s' = [])) := by
  have hinv := setStartAndGoal_inv ops u nav w h sx sz gx gz hsx hsz hgx hgz
  obtain ⟨N, hN⟩ := checkPath_terminates ops oob nav w h (sz * w + sx) (gz * w + gx) hwf _ _ _
    rfl rfl hinv
  refine ⟨N, fun fuel hf => ?_⟩
  obtain ⟨s', hs'⟩ := hN fuel hf
  refine ⟨s', hs', ?_⟩
  rcases checkPath_sound ops oob nav w h _ _ hwf fuel _ s' hinv hs' with ⟨hp, ho, hinv'⟩ | hgs
  · right
    refine ⟨fun hr => ?_, hp⟩
    exact hinv'.2.2.2.2.1 (visited_of_reach ops nav w h _ _ s' hinv' ho _ hr)
  · left
    obtain ⟨⟨first, hf1, hf2⟩, hok⟩ := id hgs
    exact ⟨reach_of_pathOK ops nav _ _ hok first _ hf1 hf2, hgs⟩

/-- Any result of the search with a non-empty path has a goal-to-start path. -/
theorem search_sound {F : Type} (ops : FloatOps F) (oob : Oob F) (u : Unset)
    (nav : List (NavPoint F)) (w h sx sz gx gz : Nat) (hwf : WellFormed nav w h)
    (hsx : sx < w) (hsz : sz < h) (hgx : gx < w) (hgz : gz < h) (fuel : Nat)
    (s' : SearchState F)
    (hres : search ops oob u nav w h (sx : Int) (sz : Int) (gx : Int) (gz : Int) fuel = some s')
    (hne : GetPath s' ≠ []) :
    GoalToStart ops nav (sz * w + sx) (gz * w + gx) (GetPath s') := by
  have hinv := setStartAndGoal_inv ops u nav w h sx sz gx gz hsx hsz hgx hgz
  rcases checkPath_sound ops oob nav w h _ _ hwf fuel _ s' hinv hres with ⟨hp, _, _⟩ | hgs
  · exact absurd hp hne
  · exact hgs

/-! ## Rebuilding: the graph does not depend on the previous state -/

/-- One step of the outer loop of `CreateJumpLinks` forgets `platformsReached` on the way in
whenever it does any work. -/
theorem jumpStep_navMap_indep {F : Type} (ops : FloatOps F) (oob : Oob F) (w v J : Nat)
    (st st2 : JumpState F) (i : Nat) (h : st.navMap = st2.navMap) :
    (jumpStep ops oob w v J st i).navMap = (jumpStep ops oob w v J st2 i).navMap := by
  unfold jumpStep
  rw [← h]
  by_cases hn : (rdNav oob st.navMap i).nav_type ≠ 0
  · rw [if_pos hn, if_pos hn]
  · rw [if_neg hn, if_neg hn]; exact h

theorem foldl_jumpStep_navMap_indep {F : Type} (ops : FloatOps F) (oob : Oob F) (w v J : Nat)
    (l : List Nat) (st st2 : JumpState F) (h : st.navMap = st2.navMap) :
    (l.foldl (jumpStep ops oob w v J) st).navMap
      = (l.foldl (jumpStep ops oob w v J) st2).navMap := by
  induction l generalizing st st2 with
  | nil => exact h
  | cons i rest ih =>
    simp only [List.foldl_cons]
    exact ih _ _ (jumpStep_navMap_indep ops oob w v J st st2 i h)

/-- The graph `BuildNavigation` leaves is the same for every earlier `platformsReached`. -/
theorem build_navMap_indep {F : Type} (ops : FloatOps F) (oob : Oob F) (pr pr2 : List Nat)
    (J v w h : Nat) (MapIn : List Nat) :
    (BuildNavigation ops oob pr J v w h MapIn).navMap
      = (BuildNavigation ops oob pr2 J v w h MapIn).navMap := by
  unfold BuildNavigation CreateJumpLinks
  exact foldl_jumpStep_navMap_indep ops oob w v J _ _ _ rfl

/-! ## The fields of a proposed successor -/

/-- A node of the list `replaceLoop` leaves is an old one or carries every field of the
proposed node but `H`. -/
theorem replaceLoop_fields {F : Type} (ops : FloatOps F) (c : PathNode F)
    (l : List (PathNode F)) (n : PathNode F) (hn : n ∈ (replaceLoop ops c l).1) :
    n ∈ l ∨ (n.index = c.index ∧ n.x_coord = c.x_coord ∧ n.z_coord = c.z_coord ∧ n.G = c.G ∧
      n.type = c.type ∧ n.bez0 = c.bez0 ∧ n.bez1 = c.bez1 ∧ n.directions = c.directions ∧
      n.parent = c.parent) := by
  induction l with
  | nil => simp [replaceLoop] at hn
  | cons m rest ih =>
    unfold replaceLoop at hn
    by_cases h1 : c.index = m.index
    · rw [if_pos h1] at hn
      by_cases h2 : ops.lt (ops.add c.G m.H) (m.GetF ops) = true
      · rw [if_pos h2] at hn
        simp only [List.mem_cons] at hn
        rcases hn with hn | hn
        · right; subst hn; exact ⟨rfl, rfl, rfl, rfl, rfl, rfl, rfl, rfl, rfl⟩
        · rcases ih hn with h | h
          · left; exact List.mem_cons_of_mem _ h
          · right; exact h
      · rw [if_neg h2] at hn
        left; exact hn
    · rw [if_neg h1] at hn
      simp only [List.mem_cons] at hn
      rcases hn with hn | hn
      · left; subst hn; exact List.mem_cons_self _ _
      · rcases ih hn with h | h
        · left; exact List.mem_cons_of_mem _ h
        · right; exact h

/-- With no node of the proposed index in the list, `replaceLoop` changes nothing and does
not leave through `return`. -/
theorem replaceLoop_fresh {F : Type} (ops : FloatOps F) (c : PathNode F)
    (l : List (PathNode F)) (h : c.index ∉ l.map (fun n => n.index)) :
    replaceLoop ops c l = (l, false) := by
  induction l with
  | nil => rfl
  | cons m rest ih =>
    simp only [List.map_cons, List.mem_cons, not_or] at h
    unfold replaceLoop
    rw [if_neg h.1, ih h.2]

/-- The fields of the nodes one `AddNodeToOpenList` call leaves in `openList`. -/
theorem addNode_fields {F : Type} (ops : FloatOps F) (w : Nat) (goal : GoalNode)
    (s : SearchState F) (x z : Int) (newCost : F) (parent : PathNode F) (path : List Nat)
    (type bez0 bez1 : Int) :
    (∀ n, n ∈ (AddNodeToOpenList ops w goal s x z newCost parent path type bez0 bez1).openList →
      n ∈ s.openList ∨ (n.index = z * w + x ∧ n.x_coord = x ∧ n.z_coord = z ∧ n.G = newCost ∧
        n.type = type ∧ n.bez0 = bez0 ∧ n.bez1 = bez1 ∧ n.directions = path ∧
        n.parent = some parent)) ∧
    (z * w + x ∉ visitedIdx s → z * w + x ∉ openIdx s →
      ∃ n, (AddNodeToOpenList ops w goal s x z newCost parent path type bez0 bez1).openList
          = s.openList ++ [n] ∧
        n.index = z * w + x ∧ n.x_coord = x ∧ n.z_coord = z ∧ n.G = newCost ∧
        n.type = type ∧ n.bez0 = bez0 ∧ n.bez1 = bez1 ∧ n.directions = path ∧
        n.parent = some parent) := by
  constructor
  · intro n hn
    unfold AddNodeToOpenList at hn
    simp only at hn
    split_ifs at hn with h1 h2
    · left; exact hn
    · exact replaceLoop_fields ops _ _ n hn
    · simp only [List.mem_append, List.mem_singleton] at hn
      rcases hn with hn | hn
      · exact replaceLoop_fields ops _ _ n hn
      · right; subst hn; exact ⟨rfl, rfl, rfl, rfl, rfl, rfl, rfl, rfl, rfl⟩
  · intro hv ho
    unfold AddNodeToOpenList
    simp only
    have h1 : ¬ (s.visitedList.any (fun v => decide (z * w + x = v.index)) = true) := by
      intro hc
      apply hv
      simp only [List.any_eq_true, decide_eq_true_eq] at hc
      obtain ⟨m, hm, he⟩ := hc
      unfold visitedIdx
      exact List.mem_map.mpr ⟨m, hm, he.symm⟩
    rw [if_neg h1]
    rw [replaceLoop_fresh ops _ _ (by unfold openIdx at ho; exact ho)]
    simp only [Bool.false_eq_true, if_false]
    exact ⟨_, rfl, rfl, rfl, rfl, rfl, rfl, rfl, rfl, rfl, rfl⟩

/-- The `H` of a node `AddNodeToOpenList` appends for a cell that is neither visited nor in
the open list: the distance of the parent to the goal, whatever the cell. -/
theorem addNode_fresh_H {F : Type} (ops : FloatOps F) (w : Nat) (goal : GoalNode)
    (s : SearchState F) (x z : Int) (newCost : F) (parent : PathNode F) (path : List Nat)
    (type bez0 bez1 : Int)
    (hv : z * w + x ∉ visitedIdx s) (ho : z * w + x ∉ openIdx s) :
    ∃ n, (AddNodeToOpenList ops w goal s x z newCost parent path type bez0 bez1).openList
        = s.openList ++ [n] ∧
      n.x_coord = x ∧ n.z_coord = z ∧
      n.H = GetH ops parent.x_coord parent.z_coord goal := by
  unfold AddNodeToOpenList
  simp only
  have h1 : ¬ (s.visitedList.any (fun v => decide (z * w + x = v.index)) = true) := by
    intro hc
    apply hv
    simp only [List.any_eq_true, decide_eq_true_eq] at hc
    obtain ⟨m, hm, he⟩ := hc
    unfold visitedIdx
    exact List.mem_map.mpr ⟨m, hm, he.symm⟩
  rw [if_neg h1]
  rw [replaceLoop_fresh ops _ _ (by unfold openIdx at ho; exact ho)]
  simp only [Bool.false_eq_true, if_false]
  exact ⟨_, rfl, rfl, rfl, rfl⟩

/-- The nodes the jump-link loop body of `CheckPath` leaves in `openList`. -/
theorem expandJump_fields {F : Type} (ops : FloatOps F) (oob : Oob F)
    (nav : List (NavPoint F)) (w h : Nat) (goal : GoalNode) (cur : PathNode F)
    (s : SearchState F) (jump : JumpInfo F)
    (hg : GridShaped nav w h) (hb : jump.index < w * h) :
    (∀ n, n ∈ (expandJump ops oob nav w goal cur s jump).openList →
      n ∈ s.openList ∨ JumpChild ops nav cur jump n) ∧
    ((jump.index : Int) ∉ visitedIdx s → (jump.index : Int) ∉ openIdx s →
      ∃ n, (expandJump ops oob nav w goal cur s jump).openList = s.openList ++ [n] ∧
        JumpChild ops nav cur jump n) := by
  have hlen : jump.index < nav.length := by rw [hg.1]; exact hb
  have hxz := hg.2 jump.index hb
  have hidx : ((cellAt nav jump.index).z_coord : Int) * w + ((cellAt nav jump.index).x_coord : Int)
      = (jump.index : Int) := by
    rw [hxz.1, hxz.2]
    have := Nat.div_add_mod jump.index w
    have e : jump.index / w * w + jump.index % w = jump.index := by
      rw [Nat.mul_comm]; exact this
    exact_mod_cast e
  unfold expandJump
  simp only
  rw [rdNav_nat oob nav jump.index hlen]
  have hf := addNode_fields ops w goal s ((cellAt nav jump.index).x_coord : Int)
    ((cellAt nav jump.index).z_coord : Int) (ops.add cur.G jump.jump_cost) cur [jump.index] 3
    jump.bez0 jump.bez1
  rw [hidx] at hf
  unfold JumpChild
  exact hf

/-! ## The cells of a jump path -/

theorem headBlocked_false {F : Type} (oob : Oob F) (nav : List (NavPoint F)) (w v : Nat)
    (index : Int) (h : headBlocked oob nav w v index = false) :
    ClearHeadroom oob nav w v index := by
  intro k hk h0 h1 hc
  unfold headBlocked at h
  rw [List.any_eq_false] at h
  have := h k (List.mem_range.mpr (by omega))
  apply this
  simp only [Bool.and_eq_true, decide_eq_true_eq, beq_iff_eq]
  exact ⟨⟨h0, h1⟩, hc⟩

theorem clearHeadroom_headBlocked {F : Type} (oob : Oob F) (nav : List (NavPoint F)) (w v : Nat)
    (index : Int) (h : ClearHeadroom oob nav w v index) :
    headBlocked oob nav w v index = false := by
  unfold headBlocked
  rw [List.any_eq_false]
  intro k hk hc
  simp only [Bool.and_eq_true, decide_eq_true_eq, beq_iff_eq] at hc
  exact h k (by have := List.mem_range.mp hk; omega) hc.1.1 hc.1.2 hc.2

theorem clearHeadroom_congr {F : Type} (oob : Oob F) {nav1 nav2 : List (NavPoint F)}
    (h : nav1.map NavPoint.core = nav2.map NavPoint.core) (w v : Nat) (index : Int)
    (hc : ClearHeadroom oob nav1 w v index) : ClearHeadroom oob nav2 w v index := by
  intro k hk h0 h1
  rw [← core_collision (rdNav_core_congr oob h _)]
  exact hc k hk h0 (by rw [length_of_map_eq _ h]; exact h1)

theorem jumpPathAt_congr {F : Type} (oob : Oob F) {nav1 nav2 : List (NavPoint F)}
    (h : nav1.map NavPoint.core = nav2.map NavPoint.core) (w v base x z : Nat) (path : List Nat)
    (hp : JumpPathAt oob nav1 w v base x z path) : JumpPathAt oob nav2 w v base x z path := by
  have hcol : ∀ i : Int, (rdNav oob nav1 i).collision ≠ 0 → (rdNav oob nav2 i).collision ≠ 0 := by
    intro i hi
    rw [← core_collision (rdNav_core_congr oob h _)]
    exact hi
  obtain ⟨height, offset, dir, hoff, hdir, hup, hrest⟩ := hp
  refine ⟨height, offset, dir, hoff, hdir,
    fun i hi => clearHeadroom_congr oob h w v _ (hup i hi), ?_⟩
  rcases hrest with ⟨m, hm1, hm2, he, ho⟩ | ⟨more, he, hd, ho⟩
  · exact Or.inl ⟨m, hm1, hm2, he, fun i hi => hcol i (ho i hi)⟩
  · exact Or.inr ⟨more, he,
      fun i hi => ⟨hcol i (hd i hi).1, clearHeadroom_congr oob h w v _ (hd i hi).2⟩,
      fun i hi => hcol i (ho i hi)⟩

theorem openExt_refl {F : Type} (oob : Oob F) (nav : List (NavPoint F)) (p : List Nat) :
    OpenExt oob nav p p := ⟨[], by simp, by simp⟩

theorem openExt_snoc {F : Type} (oob : Oob F) (nav : List (NavPoint F)) (p : List Nat)
    (i : Int) (h : (rdNav oob nav i).collision ≠ 0) : OpenExt oob nav p (p ++ [toU32 i]) :=
  ⟨[i], by simp, by simpa using h⟩

theorem openExt_trans {F : Type} (oob : Oob F) (nav : List (NavPoint F)) (p q r : List Nat)
    (h1 : OpenExt oob nav p q) (h2 : OpenExt oob nav q r) : OpenExt oob nav p r := by
  obtain ⟨c1, e1, o1⟩ := h1
  obtain ⟨c2, e2, o2⟩ := h2
  refine ⟨c1 ++ c2, by rw [e2, e1]; simp, fun i hi => ?_⟩
  rcases List.mem_append.mp hi with hi | hi
  · exact o1 i hi
  · exact o2 i hi

/-- The straight ascent, when it is not cut short, adds the cells above the base in the
order met, each with clear headroom. -/
theorem goUp_ok {F : Type} (oob : Oob F) (nav : List (NavPoint F)) (w v x z : Nat)
    (fs : List Nat) (path : List Nat) (h : (goUp oob nav w v x z fs path).1 = false) :
    (goUp oob nav w v x z fs path).2
        = path ++ fs.map (fun f : Nat => toU32 (((z : Int) + (f : Int)) * w + x)) ∧
    ∀ f, f ∈ fs → ClearHeadroom oob nav w v (((z : Int) + f) * w + x) := by
  induction fs generalizing path with
  | nil => simp [goUp]
  | cons f rest ih =>
    unfold goUp at h ⊢
    simp only at h ⊢
    by_cases hb : headBlocked oob nav w v (((z : Int) + f) * w + x) = true
    · rw [if_pos hb] at h; simp at h
    · rw [if_neg hb] at h ⊢
      obtain ⟨e, hc⟩ := ih _ h
      refine ⟨by rw [e]; simp, fun g hg => ?_⟩
      rcases List.mem_cons.mp hg with hg | hg
      · subst hg
        exact headBlocked_false oob nav w v _ (by simpa using hb)
      · exact hc g hg

/-- The diagonal ascent adds open tiles only; a call it makes carries the path so far, and it
makes none without setting `bSkip`. -/
theorem goDiag_ok {F : Type} (oob : Oob F) (nav : List (NavPoint F)) (w v x z : Nat)
    (dir : Int) (height : Nat) (js : List Nat) (st : ArcState) (h0 : st.call = none) :
    OpenExt oob nav st.path (goDiag oob nav w v x z dir height js st).path ∧
    (∀ c, (goDiag oob nav w v x z dir height js st).call = some c →
      c.path = (goDiag oob nav w v x z dir height js st).path) ∧
    ((goDiag oob nav w v x z dir height js st).bSkip = false →
      (goDiag oob nav w v x z dir height js st).call = none) := by
  induction js generalizing st with
  | nil =>
    unfold goDiag
    exact ⟨openExt_refl oob nav _, (fun c hc => by rw [h0] at hc; cases hc), fun _ => h0⟩
  | cons j rest ih =>
    unfold goDiag
    simp only
    by_cases hc : (rdNav oob nav (((z : Int) + j) * w + x + (st.horizontal : Int) * dir)).collision = 0
    · rw [if_pos hc]
      exact ⟨openExt_refl oob nav _, (fun c hc2 => by rw [h0] at hc2; cases hc2),
        fun hb => by simp at hb⟩
    · rw [if_neg hc]
      by_cases hn : (rdNav oob nav (((z : Int) + j) * w + x + (st.horizontal : Int) * dir)).nav_type ≠ 0
      · rw [if_pos hn]
        exact ⟨openExt_snoc oob nav _ _ hc, (fun c hc2 => by cases hc2; rfl),
          fun hb => by simp at hb⟩
      · rw [if_neg hn]
        obtain ⟨e, hcall, hb⟩ := ih
          { bSkip := st.bSkip || headBlocked oob nav w v
              (((z : Int) + j) * w + x + (st.horizontal : Int) * dir),
            horizontal := st.horizontal + 1,
            path := st.path ++ [toU32 (((z : Int) + j) * w + x + (st.horizontal : Int) * dir)],
            call := none } rfl
        exact ⟨openExt_trans oob nav _ _ _ (openExt_snoc oob nav _ _ hc) e, hcall, hb⟩

/-- The descent adds open tiles only; a call it makes carries the path so far. -/
theorem goDown_ok {F : Type} (oob : Oob F) (nav : List (NavPoint F)) (w x z : Nat)
    (dir : Int) (height offset : Nat) (js : List Nat) (st : ArcState) (h0 : st.call = none) :
    OpenExt oob nav st.path (goDown oob nav w x z dir height offset js st).path ∧
    (∀ c, (goDown oob nav w x z dir height offset js st).call = some c →
      c.path = (goDown oob nav w x z dir height offset js st).path) := by
  induction js generalizing st with
  | nil =>
    unfold goDown
    exact ⟨openExt_refl oob nav _, (fun c hc => by rw [h0] at hc; cases hc)⟩
  | cons j rest ih =>
    unfold goDown
    simp only
    by_cases hc : (rdNav oob nav (((z : Int) + height - j) * w + x
        + (st.horizontal : Int) * dir)).collision = 0
    · rw [if_pos hc]
      exact ⟨openExt_refl oob nav _, (fun c hc2 => by rw [h0] at hc2; cases hc2)⟩
    · rw [if_neg hc]
      by_cases hn : (rdNav oob nav (((z : Int) + height - j) * w + x
          + (st.horizontal : Int) * dir)).nav_type ≠ 0
      · rw [if_pos hn]
        exact ⟨openExt_snoc oob nav _ _ hc, (fun c hc2 => by cases hc2; rfl)⟩
      · rw [if_neg hn]
        obtain ⟨e, hcall⟩ := ih
          { bSkip := false,
            horizontal := if (j : Int) < (height : Int) - offset then st.horizontal + 1
                          else st.horizontal,
            path := st.path ++ [toU32 (((z : Int) + height - j) * w + x
              + (st.horizontal : Int) * dir)],
            call := none } rfl
        exact ⟨openExt_trans oob nav _ _ _ (openExt_snoc oob nav _ _ hc) e, hcall⟩

/-- The drop below the start row adds open tiles only. -/
theorem goDrop_ok {F : Type} (oob : Oob F) (nav : List (NavPoint F)) (w x z : Nat)
    (dir : Int) (height horizontal : Nat) (js : List Nat) (path : List Nat) (c : JumpCall)
    (h : goDrop oob nav w x z dir height horizontal js path = some c) :
    OpenExt oob nav path c.path := by
  induction js generalizing path with
  | nil => simp [goDrop] at h
  | cons j rest ih =>
    unfold goDrop at h
    simp only at h
    by_cases hc : ((z : Int) - j) * w + x + (horizontal : Int) * dir ≤ 1 ∨
        (rdNav oob nav (((z : Int) - j) * w + x + (horizontal : Int) * dir)).collision = 0
    · rw [if_pos hc] at h; cases h
    · rw [if_neg hc] at h
      have hopen : (rdNav oob nav (((z : Int) - j) * w + x
          + (horizontal : Int) * dir)).collision ≠ 0 := fun hh => hc (Or.inr hh)
      by_cases hn : (rdNav oob nav (((z : Int) - j) * w + x
          + (horizontal : Int) * dir)).nav_type ≠ 0
      · rw [if_pos hn] at h
        cases h
        exact openExt_snoc oob nav _ _ hopen
      · rw [if_neg hn] at h
        exact openExt_trans oob nav _ _ _ (openExt_snoc oob nav _ _ hopen) (ih _ h)

/-- The diagonal ascent over `n` consecutive loop values from `j`, entered with the step
counter `h0`: a call it makes carries the path over the first `m ≥ 1` cells of the diagonal,
all open tiles; when it ends with `bSkip` unset it made no call, was entered with `bSkip`
unset, went over all `n` cells, and each of them is an open tile with clear headroom. -/
theorem goDiag_shape {F : Type} (oob : Oob F) (nav : List (NavPoint F)) (w v x z : Nat)
    (dir : Int) (height : Nat) :
    ∀ (n j h0 : Nat) (st : ArcState), st.call = none → st.horizontal = h0 →
      (∀ c, (goDiag oob nav w v x z dir height (List.range' j n) st).call = some c →
        ∃ m, 1 ≤ m ∧ m ≤ n ∧
          c.path = st.path ++ (diagCells w x z dir j h0 m).map toU32 ∧
          ∀ i, i ∈ diagCells w x z dir j h0 m → (rdNav oob nav i).collision ≠ 0) ∧
      ((goDiag oob nav w v x z dir height (List.range' j n) st).bSkip = false →
        st.bSkip = false ∧
        (goDiag oob nav w v x z dir height (List.range' j n) st).call = none ∧
        (goDiag oob nav w v x z dir height (List.range' j n) st).path
          = st.path ++ (diagCells w x z dir j h0 n).map toU32 ∧
        (goDiag oob nav w v x z dir height (List.range' j n) st).horizontal = h0 + n ∧
        ∀ i, i ∈ diagCells w x z dir j h0 n →
          (rdNav oob nav i).collision ≠ 0 ∧ ClearHeadroom oob nav w v i) := by
  intro n
  induction n with
  | zero =>
    intro j h0 st hcall hh
    have e : goDiag oob nav w v x z dir height (List.range' j 0) st = st := by
      simp [goDiag]
    rw [e]
    refine ⟨(fun c hc => by rw [hcall] at hc; cases hc),
      fun hb => ⟨hb, hcall, by simp [diagCells], by omega, ?_⟩⟩
    intro i hi
    simp [diagCells] at hi
  | succ n ih =>
    intro j h0 st hcall hh
    rw [List.range'_succ]
    unfold goDiag
    simp only
    rw [hh]
    by_cases hc : (rdNav oob nav (((z : Int) + j) * w + x + (h0 : Int) * dir)).collision = 0
    · rw [if_pos hc]
      exact ⟨(fun c hc2 => by rw [hcall] at hc2; cases hc2), fun hb => by simp at hb⟩
    · rw [if_neg hc]
      by_cases hn : (rdNav oob nav (((z : Int) + j) * w + x + (h0 : Int) * dir)).nav_type ≠ 0
      · rw [if_pos hn]
        refine ⟨fun c hc2 => ?_, fun hb => by simp at hb⟩
        cases hc2
        refine ⟨1, le_refl _, by omega, by simp [diagCells], ?_⟩
        intro i hi
        simp only [diagCells, List.mem_singleton] at hi
        subst hi
        exact hc
      · rw [if_neg hn]
        obtain ⟨ih1, ih2⟩ := ih (j + 1) (h0 + 1)
          { bSkip := st.bSkip || headBlocked oob nav w v
              (((z : Int) + j) * w + x + (h0 : Int) * dir),
            horizontal := h0 + 1,
            path := st.path ++ [toU32 (((z : Int) + j) * w + x + (h0 : Int) * dir)],
            call := none } rfl rfl
        constructor
        · intro c hc2
          obtain ⟨m, hm1, hm2, hp, ho⟩ := ih1 c hc2
          refine ⟨m + 1, by omega, by omega, ?_, ?_⟩
          · rw [hp]; simp [diagCells]
          · intro i hi
            simp only [diagCells, List.mem_cons] at hi
            rcases hi with hi | hi
            · subst hi; exact hc
            · exact ho i hi
        · intro hb
          obtain ⟨hs, hcall2, hp, hh2, ho⟩ := ih2 hb
          simp only [Bool.or_eq_false_iff] at hs
          refine ⟨hs.1, hcall2, ?_, by rw [hh2]; omega, ?_⟩
          · rw [hp]; simp [diagCells]
          · intro i hi
            simp only [diagCells, List.mem_cons] at hi
            rcases hi with hi | hi
            · subst hi
              exact ⟨hc, headBlocked_false oob nav w v _ hs.2⟩
            · exact ho i hi

/-- The descent over a non-empty range of loop values: a call it makes, and its path when it
ends with `bSkip` unset, carry the path so far, then the first cell of the descent, then
further cells, all open tiles. -/
theorem goDown_first {F : Type} (oob : Oob F) (nav : List (NavPoint F)) (w x z : Nat)
    (dir : Int) (height offset : Nat) (j : Nat) (js : List Nat) (st : ArcState)
    (h0 : st.call = none) :
    (∀ c, (goDown oob nav w x z dir height offset (j :: js) st).call = some c →
      ∃ more : List Int,
        c.path = st.path ++ ((((z : Int) + height - j) * w + x + (st.horizontal : Int) * dir)
                              :: more).map toU32 ∧
        ∀ i, i ∈ (((z : Int) + height - j) * w + x + (st.horizontal : Int) * dir) :: more →
          (rdNav oob nav i).collision ≠ 0) ∧
    ((goDown oob nav w x z dir height offset (j :: js) st).bSkip = false →
      ∃ more : List Int,
        (goDown oob nav w x z dir height offset (j :: js) st).path
          = st.path ++ ((((z : Int) + height - j) * w + x + (st.horizontal : Int) * dir)
                              :: more).map toU32 ∧
        ∀ i, i ∈ (((z : Int) + height - j) * w + x + (st.horizontal : Int) * dir) :: more →
          (rdNav oob nav i).collision ≠ 0) := by
  unfold goDown
  simp only
  by_cases hc : (rdNav oob nav (((z : Int) + height - j) * w + x
      + (st.horizontal : Int) * dir)).collision = 0
  · rw [if_pos hc]
    exact ⟨(fun c hc2 => by rw [h0] at hc2; cases hc2), fun hb => by simp at hb⟩
  · rw [if_neg hc]
    by_cases hn : (rdNav oob nav (((z : Int) + height - j) * w + x
        + (st.horizontal : Int) * dir)).nav_type ≠ 0
    · rw [if_pos hn]
      refine ⟨fun c hc2 => ?_, fun hb => by simp at hb⟩
      cases hc2
      refine ⟨[], by simp, ?_⟩
      intro i hi
      simp only [List.mem_singleton] at hi
      subst hi
      exact hc
    · rw [if_neg hn]
      obtain ⟨⟨cells, he, ho⟩, hcall⟩ := goDown_ok oob nav w x z dir height offset js
        { bSkip := false,
          horizontal := if (j : Int) < (height : Int) - offset then st.horizontal + 1
                        else st.horizontal,
          path := st.path ++ [toU32 (((z : Int) + height - j) * w + x
            + (st.horizontal : Int) * dir)],
          call := none } rfl
      have hopen : ∀ i, i ∈ (((z : Int) + height - j) * w + x + (st.horizontal : Int) * dir)
          :: cells → (rdNav oob nav i).collision ≠ 0 := by
        intro i hi
        rcases List.mem_cons.mp hi with hi | hi
        · subst hi; exact hc
        · exact ho i hi
      constructor
      · intro c hc2
        refine ⟨cells, ?_, hopen⟩
        rw [hcall c hc2, he]
        simp
      · intro _
        refine ⟨cells, ?_, hopen⟩
        rw [he]
        simp

/-- The path an arc hands to `AddJumpLink`. -/
theorem jumpArc_ok {F : Type} (oob : Oob F) (nav : List (NavPoint F)) (w v base x z : Nat)
    (dir : Int) (height offset : Nat) (c : JumpCall)
    (hoff : offset < height) (hdir : dir = 1 ∨ dir = -1)
    (h : jumpArc oob nav w v base x z dir height offset = some c) :
    JumpPathAt oob nav w v base x z c.path := by
  unfold jumpArc at h
  simp only at h
  by_cases hs : ((goUp oob nav w v x z (List.range' 1 offset) [base]).1 ||
      headBlocked oob nav w v (((z : Int) + 1 + offset) * w + x)) = true
  · rw [if_pos hs] at h; cases h
  · rw [if_neg hs] at h
    have hup1 : (goUp oob nav w v x z (List.range' 1 offset) [base]).1 = false := by
      simp only [Bool.or_eq_true, not_or, Bool.not_eq_true] at hs
      exact hs.1
    obtain ⟨eup, hclear⟩ := goUp_ok oob nav w v x z (List.range' 1 offset) [base] hup1
    have eup2 : (goUp oob nav w v x z (List.range' 1 offset) [base]).2
        = base :: (upCells w x z offset).map toU32 := by
      rw [eup]; simp [upCells]
    have hclear2 : ∀ i, i ∈ upCells w x z offset → ClearHeadroom oob nav w v i := by
      intro i hi
      simp only [upCells, List.mem_map] at hi
      obtain ⟨f, hf, hfi⟩ := hi
      rw [← hfi]
      exact hclear f hf
    refine ⟨height, offset, dir, hoff, hdir, hclear2, ?_⟩
    obtain ⟨hd1, hd2⟩ := goDiag_shape oob nav w v x z dir height (height - offset)
      (1 + offset) 1
      { bSkip := false, horizontal := 1,
        path := (goUp oob nav w v x z (List.range' 1 offset) [base]).2, call := none } rfl rfl
    simp only at hd1 hd2
    generalize hd : goDiag oob nav w v x z dir height
      (List.range' (1 + offset) (height - offset))
      { bSkip := false, horizontal := 1,
        path := (goUp oob nav w v x z (List.range' 1 offset) [base]).2, call := none } = d
      at h hd1 hd2
    by_cases hb : d.bSkip = true
    · rw [if_pos hb] at h
      obtain ⟨m, hm1, hm2, hp, ho⟩ := hd1 c h
      refine Or.inl ⟨m, hm1, hm2, ?_, ho⟩
      rw [hp, eup2]; simp
    · rw [if_neg hb] at h
      obtain ⟨_, hdnone, hdpath, hdhor, hdcells⟩ := hd2 (by simpa using hb)
      obtain ⟨h', rfl⟩ : ∃ h', height = h' + 1 := ⟨height - 1, by omega⟩
      rw [List.range'_succ] at h
      obtain ⟨hf1, hf2⟩ := goDown_first oob nav w x z dir (h' + 1) offset 1
        (List.range' (1 + 1) h') { d with bSkip := false } hdnone
      simp only at hf1 hf2
      have efd : ((z : Int) + ((h' + 1 : Nat) : Int) - ((1 : Nat) : Int)) * w + x
          + (d.horizontal : Int) * dir = firstDown w x z dir (h' + 1) offset := by
        unfold firstDown
        rw [hdhor]
        push_cast
        ring
      rw [efd] at hf1 hf2
      generalize he : goDown oob nav w x z dir (h' + 1) offset (1 :: List.range' (1 + 1) h')
        { d with bSkip := false } = e at h hf1 hf2
      by_cases hb2 : e.bSkip = true
      · rw [if_pos hb2] at h
        obtain ⟨more, hp, ho⟩ := hf1 c h
        refine Or.inr ⟨more, ?_, hdcells, ho⟩
        rw [hp, hdpath, eup2]; simp
      · rw [if_neg hb2] at h
        obtain ⟨more, hp, ho⟩ := hf2 (by simpa using hb2)
        obtain ⟨cells, hp2, ho2⟩ := goDrop_ok oob nav w x z dir (h' + 1) _ _ _ c h
        refine Or.inr ⟨more ++ cells, ?_, hdcells, ?_⟩
        · rw [hp2, hp, hdpath, eup2]; simp
        · intro i hi
          rcases List.mem_cons.mp hi with hi | hi
          · exact ho i (by rw [hi]; exact List.mem_cons_self _ _)
          · rcases List.mem_append.mp hi with hi | hi
            · exact ho i (List.mem_cons_of_mem _ hi)
            · exact ho2 i hi

/-! ## The stored jump paths of the built graph -/

theorem addJumpLink_paths {F : Type} (ops : FloatOps F) (oob : Oob F)
    (nav0 : List (NavPoint F)) (w v : Nat) (st : JumpState F) (target : Int)
    (base height horizontal : Nat) (path : List Nat)
    (hinv : JumpPathsInv oob nav0 w v st.navMap) (hp : JumpPathOK oob nav0 w v base path) :
    JumpPathsInv oob nav0 w v
      (AddJumpLink ops w st target base height horizontal path).navMap := by
  refine ⟨?_, ?_⟩
  · rw [addJumpLink_map NavPoint.core (fun _ _ _ => rfl)]; exact hinv.1
  · unfold AddJumpLink
    by_cases h : st.platformsReached.contains (toU32 target) = true
    · rw [if_pos h]; exact hinv.2
    · rw [if_neg h]
      intro a j hj
      simp only [cellAt_updAt] at hj
      by_cases hc : base = a ∧ base < st.navMap.length
      · rw [if_pos hc] at hj
        obtain ⟨rfl, _⟩ := hc
        simp only [List.mem_append, List.mem_singleton] at hj
        rcases hj with hj | hj
        · exact hinv.2 base j hj
        · subst hj; exact hp
      · rw [if_neg hc] at hj
        exact hinv.2 a j hj

theorem foldl_keeps_mem {α β : Type} (P : α → Prop) (step : α → β → α) (l : List β)
    (hstep : ∀ s b, b ∈ l → P s → P (step s b)) (s : α) (hs : P s) :
    P (l.foldl step s) := by
  induction l generalizing s with
  | nil => exact hs
  | cons b l ih =>
    exact ih (fun s c hc => hstep s c (List.mem_cons_of_mem _ hc)) _
      (hstep s b (List.mem_cons_self _ _) hs)

theorem mem_offsets_lt {height offset : Nat} (h : offset ∈ offsets height) : offset < height := by
  unfold offsets at h
  exact List.mem_range.mp (List.mem_reverse.mp h)

theorem jumpOffsetStep_paths {F : Type} (ops : FloatOps F) (oob : Oob F)
    (nav0 : List (NavPoint F)) (w v base : Nat) (dir : Int) (height : Nat) (st : JumpState F)
    (offset : Nat) (hoff : offset < height) (hdir : dir = 1 ∨ dir = -1)
    (hinv : JumpPathsInv oob nav0 w v st.navMap) :
    JumpPathsInv oob nav0 w v
      (jumpOffsetStep ops oob w v base (cellAt nav0 base).x_coord (cellAt nav0 base).z_coord
        dir height st offset).navMap := by
  unfold jumpOffsetStep
  split
  · rename_i c hc
    exact addJumpLink_paths ops oob nav0 w v st _ _ _ _ _ hinv
      (jumpPathAt_congr oob hinv.1 w v base _ _ _
        (jumpArc_ok oob _ w v base _ _ dir _ _ c hoff hdir hc))
  · exact hinv

theorem calculateJumpAtPoint_paths {F : Type} (ops : FloatOps F) (oob : Oob F)
    (nav0 : List (NavPoint F)) (w v height base : Nat) (st : JumpState F)
    (hinv : JumpPathsInv oob nav0 w v st.navMap) :
    JumpPathsInv oob nav0 w v (CalculateJumpAtPoint ops oob w v height base st).navMap := by
  unfold CalculateJumpAtPoint
  by_cases h : base ≥ st.navMap.length
  · rw [if_pos h]; exact hinv
  · rw [if_neg h]
    simp only
    have hcore := cellAt_of_map_eq NavPoint.core hinv.1 base
    rw [core_x hcore, core_z hcore]
    have key : ∀ (dir : Int) (s0 : JumpState F), dir = 1 ∨ dir = -1 →
        JumpPathsInv oob nav0 w v s0.navMap →
        JumpPathsInv oob nav0 w v ((offsets height).foldl (jumpOffsetStep ops oob w v base
          (cellAt nav0 base).x_coord (cellAt nav0 base).z_coord dir height) s0).navMap := by
      intro dir s0 hdir h0
      exact foldl_keeps_mem (fun (s : JumpState F) => JumpPathsInv oob nav0 w v s.navMap)
        (jumpOffsetStep ops oob w v base (cellAt nav0 base).x_coord (cellAt nav0 base).z_coord
          dir height) (offsets height)
        (fun s b hb hs => jumpOffsetStep_paths ops oob nav0 w v base dir height s b
          (mem_offsets_lt hb) hdir hs) s0 h0
    exact key _ _ (Or.inr rfl) (key _ _ (Or.inl rfl) hinv)

theorem jumpStep_paths {F : Type} (ops : FloatOps F) (oob : Oob F)
    (nav0 : List (NavPoint F)) (w v J : Nat) (st : JumpState F) (i : Nat)
    (hinv : JumpPathsInv oob nav0 w v st.navMap) :
    JumpPathsInv oob nav0 w v (jumpStep ops oob w v J st i).navMap := by
  unfold jumpStep
  by_cases h : (rdNav oob st.navMap ↑i).nav_type ≠ 0
  · rw [if_pos h]
    exact foldl_keeps (fun (s : JumpState F) => JumpPathsInv oob nav0 w v s.navMap)
      (fun s j => CalculateJumpAtPoint ops oob w v j i s)
      (fun s b hs => calculateJumpAtPoint_paths ops oob nav0 w v b i s hs) _ _ hinv
  · rw [if_neg h]; exact hinv

theorem createJumpLinks_paths {F : Type} (ops : FloatOps F) (oob : Oob F)
    (nav0 : List (NavPoint F)) (w h v J : Nat) (st : JumpState F)
    (hinv : JumpPathsInv oob nav0 w v st.navMap) :
    JumpPathsInv oob nav0 w v (CreateJumpLinks ops oob w h v J st).navMap := by
  unfold CreateJumpLinks
  exact foldl_keeps (fun (s : JumpState F) => JumpPathsInv oob nav0 w v s.navMap)
    (jumpStep ops oob w v J) (fun s b hs => jumpStep_paths ops oob nav0 w v J s b hs) _ _ hinv

/-- Every stored jump path of the built graph meets `JumpPathOK` over the built graph. -/
theorem build_jump_paths {F : Type} (ops : FloatOps F) (oob : Oob F) (pr : List Nat)
    (J v w h : Nat) (MapIn : List Nat) (a : Nat) (j : JumpInfo F)
    (hj : j ∈ (cellAt (BuildNavigation ops oob pr J v w h MapIn).navMap a).link_jump) :
    JumpPathOK oob (BuildNavigation ops oob pr J v w h MapIn).navMap w v a j.jump_path := by
  have hd := detectPlatforms_cells oob w h MapIn
  have hempty : ∀ b, (cellAt (CreateFallLinks oob w h (CreateRunLinks oob w h
      (DetectPlatforms oob w h MapIn))) b).link_jump = [] := by
    intro b
    have h1 := cellAt_of_map_eq (fun c : NavPoint F => c.link_jump)
      (createFallLinks_map (fun c : NavPoint F => c.link_jump) (fun _ _ => rfl) oob w h
        (CreateRunLinks oob w h (DetectPlatforms oob w h MapIn))) b
    have h2 := cellAt_of_map_eq (fun c : NavPoint F => c.link_jump)
      (createRunLinks_map (fun c : NavPoint F => c.link_jump) (fun _ _ => rfl) oob w h
        (DetectPlatforms oob w h MapIn)) b
    simp only at h1 h2
    rw [h1, h2]
    by_cases hb : b < w * h
    · exact (hd.2 b hb).2.2.2.2.2.1
    · unfold cellAt
      rw [List.getD_eq_default _ _ (by rw [hd.1]; omega)]
      rfl
  have h0 : JumpPathsInv oob (CreateFallLinks oob w h (CreateRunLinks oob w h
      (DetectPlatforms oob w h MapIn))) w v (CreateFallLinks oob w h (CreateRunLinks oob w h
      (DetectPlatforms oob w h MapIn))) :=
    ⟨rfl, (fun b k hk => by rw [hempty b] at hk; cases hk)⟩
  have hfin := createJumpLinks_paths ops oob _ w h v J
    { navMap := CreateFallLinks oob w h (CreateRunLinks oob w h (DetectPlatforms oob w h MapIn)),
      platformsReached := pr } h0
  have hp := hfin.2 a j hj
  unfold JumpPathOK at hp ⊢
  have hcore := cellAt_of_map_eq NavPoint.core hfin.1 a
  unfold BuildNavigation
  simp only
  rw [core_x hcore, core_z hcore]
  exact jumpPathAt_congr oob hfin.1.symm w v a _ _ _ hp

/-! ## DetectPlatforms on square grids: the class of every cell -/

/-- The flag and the class `detectCell` leaves, from the flag on entry and the values read. -/
theorem detectCell_exact {F : Type} (oob : Oob F) (w h : Nat) (MapIn : List Nat) (z x : Nat)
    (st : DetectState F) (hr : st.returned = false) (hlt : z * w + x < st.navMap.length)
    (hz0 : (cellAt st.navMap (z * w + x)).nav_type = 0) :
    (detectCell oob w h MapIn z x st).bPlatformStarted
      = ((st.bPlatformStarted ||
          (rdMap oob MapIn ((z * w + x : Nat) : Int) == 1
            && rdMap oob MapIn (((z * w + x : Nat) : Int) - w) == 0))
        && !(rdMap oob MapIn (((z * w + x : Nat) : Int) - h + 1) == 1
            || rdMap oob MapIn (((z * w + x : Nat) : Int) + 1) == 0)) ∧
    (cellAt (detectCell oob w h MapIn z x st).navMap (z * w + x)).nav_type
      = cellClass st.bPlatformStarted (rdMap oob MapIn ((z * w + x : Nat) : Int))
          (rdMap oob MapIn (((z * w + x : Nat) : Int) - w))
          (rdMap oob MapIn (((z * w + x : Nat) : Int) - h + 1))
          (rdMap oob MapIn (((z * w + x : Nat) : Int) + 1)) := by
  have hlt2 : ¬ (z * w + x ≥ st.navMap.length) := by omega
  have hlt3 : ¬ (st.navMap.length ≤ z * w + x) := by omega
  generalize hcur : rdMap oob MapIn ((z * w + x : Nat) : Int) = cur
  generalize hbelow : rdMap oob MapIn (((z * w + x : Nat) : Int) - w) = below
  generalize hlr : rdMap oob MapIn (((z * w + x : Nat) : Int) - h + 1) = lr
  generalize hright : rdMap oob MapIn (((z * w + x : Nat) : Int) + 1) = right
  unfold detectCell cellClass
  simp only [hr, hlt2, if_false, Bool.false_eq_true, hcur, hbelow, hlr, hright]
  cases hb : st.bPlatformStarted <;>
  by_cases h1 : cur = 1 <;> by_cases h2 : below = 0 <;>
  by_cases h3 : lr = 1 <;> by_cases h4 : right = 0 <;>
  by_cases h5 : lr = 0 <;> by_cases h6 : right = 1 <;>
  simp [hb, h1, h2, h3, h4, h5, h6, cellAt_set, hz0, hlt3, hlt]

theorem getD_binary (MapIn : List Nat) (hbin : ∀ v, v ∈ MapIn → v = 0 ∨ v = 1) (j : Nat)
    (hj : j < MapIn.length) : MapIn.getD j 0 = 0 ∨ MapIn.getD j 0 = 1 := by
  apply hbin
  rw [List.getD_eq_getElem _ _ hj]
  exact List.getElem_mem _

/-- The four values `detectCell` reads at a cell of a row `z ≥ 1` that is not the last cell
of the square grid are values of the grid. -/
theorem detect_reads_in_grid {F : Type} (oob : Oob F) (w : Nat) (MapIn : List Nat)
    (hlen : MapIn.length = w * w) (i : Nat) (hwi : w ≤ i) (hi1 : i + 1 < w * w) :
    rdMap oob MapIn (i : Int) = MapIn.getD i 0 ∧
    rdMap oob MapIn ((i : Int) - w) = MapIn.getD (i - w) 0 ∧
    rdMap oob MapIn ((i : Int) - w + 1) = MapIn.getD (i + 1 - w) 0 ∧
    rdMap oob MapIn ((i : Int) + 1) = MapIn.getD (i + 1) 0 := by
  have e2 : ((i : Int) - (w : Int)) = ((i - w : Nat) : Int) := by omega
  have e3 : ((i : Int) - (w : Int) + 1) = ((i + 1 - w : Nat) : Int) := by omega
  have e4 : ((i : Int) + 1) = ((i + 1 : Nat) : Int) := by omega
  refine ⟨rdMap_nat oob MapIn i (by omega), ?_, ?_, ?_⟩
  · rw [e2]; exact rdMap_nat oob MapIn (i - w) (by omega)
  · rw [e3]; exact rdMap_nat oob MapIn (i + 1 - w) (by omega)
  · rw [e4]; exact rdMap_nat oob MapIn (i + 1) (by omega)

/-- The case analysis behind the classification: with values 0 and 1 and the flag on entry
set exactly when the previous cell and this one are standable, `cellClass` is the class by
run position and the flag on exit says that this cell and the next are standable. -/
theorem class_logic (a b c d x : Nat) (P : Prop) [Decidable P] (s : Bool)
    (ba : a = 0 ∨ a = 1) (bb : b = 0 ∨ b = 1) (bc : c = 0 ∨ c = 1) (bd : d = 0 ∨ d = 1)
    (hfl : s = true ↔ 0 < x ∧ P ∧ a = 1 ∧ b = 0) :
    (cellClass s a b c d ≠ 0 ↔ a = 1 ∧ b = 0) ∧
    cellClass s a b c d
      = (if a = 1 ∧ b = 0 then
          if x ≠ 0 ∧ P then (if d = 1 ∧ c = 0 then 2 else 3)
          else (if d = 1 ∧ c = 0 then 1 else 4)
        else 0) ∧
    (((s || (a == 1 && b == 0)) && !(c == 1 || d == 0)) = true ↔
      0 < x + 1 ∧ (a = 1 ∧ b = 0) ∧ d = 1 ∧ c = 0) := by
  unfold cellClass
  by_cases hP : P <;> by_cases hx : x = 0 <;>
  cases s <;>
  rcases ba with ba | ba <;> rcases bb with bb | bb <;>
  rcases bc with bc | bc <;> rcases bd with bd | bd <;>
  subst ba bb bc bd <;> simp [hP, hx] at hfl ⊢

theorem classInv_cell {F : Type} (oob : Oob F) (w : Nat) (MapIn : List Nat)
    (hlen : MapIn.length = w * w) (hbin : ∀ v, v ∈ MapIn → v = 0 ∨ v = 1)
    (z x : Nat) (st : DetectState F) (hx : x < w) (hz : z < w)
    (hd : DetInv oob w w MapIn st (z * w + x)) (hs : ClassInv w MapIn st z x) :
    ClassInv w MapIn (detectCell oob w w MapIn z x st) z (x + 1) := by
  obtain ⟨hlen2, hret, hcells⟩ := hd
  obtain ⟨hA, hB⟩ := hs
  have hlt : z * w + x < w * w := cell_index_lt hx hz
  have hz0 : cellAt st.navMap (z * w + x) = NavPoint.zeroed := (hcells _ hlt).2 (le_refl _)
  obtain ⟨hflag, hty⟩ := detectCell_exact oob w w MapIn z x st hret (by omega)
    (by rw [hz0]; rfl)
  obtain ⟨c, hnav, _⟩ := detectCell_spec oob w w MapIn z x st hret (by omega)
  have key : 1 ≤ z → z * w + x + 1 < w * w →
      ((cellAt (detectCell oob w w MapIn z x st).navMap (z * w + x)).nav_type ≠ 0 ↔
          Standable MapIn w (z * w + x)) ∧
      (cellAt (detectCell oob w w MapIn z x st).navMap (z * w + x)).nav_type
        = runClass MapIn w (z * w + x) ∧
      ((detectCell oob w w MapIn z x st).bPlatformStarted = true ↔
        0 < x + 1 ∧ Standable MapIn w (z * w + x) ∧ Standable MapIn w (z * w + x + 1)) := by
    intro hz1 hi1
    have hwi : w ≤ z * w + x := by
      have : 1 * w ≤ z * w := Nat.mul_le_mul_right w hz1
      omega
    obtain ⟨r1, r2, r3, r4⟩ := detect_reads_in_grid oob w MapIn hlen (z * w + x) hwi hi1
    rw [r1, r2, r3, r4] at hty hflag
    have hmod : (z * w + x) % w = x := by
      rw [Nat.mul_comm, Nat.mul_add_mod, Nat.mod_eq_of_lt hx]
    have hl := class_logic (MapIn.getD (z * w + x) 0) (MapIn.getD (z * w + x - w) 0)
      (MapIn.getD (z * w + x + 1 - w) 0) (MapIn.getD (z * w + x + 1) 0) x
      (Standable MapIn w (z * w + x - 1)) st.bPlatformStarted
      (getD_binary MapIn hbin _ (by omega)) (getD_binary MapIn hbin _ (by omega))
      (getD_binary MapIn hbin _ (by omega)) (getD_binary MapIn hbin _ (by omega))
      (hB hz1 hx)
    rw [hty, hflag]
    unfold runClass
    rw [hmod]
    exact hl
  constructor
  · intro i hi hwi hi1
    by_cases hEq : i = z * w + x
    · subst hEq
      have hz1 : 1 ≤ z := by
        rcases Nat.eq_zero_or_pos z with h0 | h0
        · subst h0; simp at hwi; omega
        · exact h0
      obtain ⟨k1, k2, _⟩ := key hz1 hi1
      exact ⟨k1, fun _ => k2⟩
    · have hc : (cellAt (detectCell oob w w MapIn z x st).navMap i) = cellAt st.navMap i := by
        rw [hnav, cellAt_set, if_neg (fun hh => hEq hh.1.symm)]
      rw [hc]
      exact hA i (by omega) hwi hi1
  · intro hz1 hx1
    have hi1 : z * w + x + 1 < w * w := by
      have := cell_index_lt hx1 hz
      omega
    have e1 : z * w + (x + 1) - 1 = z * w + x := by omega
    have e2 : z * w + (x + 1) = z * w + x + 1 := by omega
    rw [e1, e2]
    exact (key hz1 hi1).2.2

theorem classInv_row {F : Type} (oob : Oob F) (w : Nat) (MapIn : List Nat)
    (hlen : MapIn.length = w * w) (hbin : ∀ v, v ∈ MapIn → v = 0 ∨ v = 1)
    (z : Nat) (st : DetectState F) (hz : z < w)
    (hd : DetInv oob w w MapIn st (z * w)) (hs : ClassInv w MapIn st z 0) :
    ∀ x, x ≤ w →
      DetInv oob w w MapIn
        ((List.range x).foldl (fun s x => detectCell oob w w MapIn z x s) st) (z * w + x) ∧
      ClassInv w MapIn
        ((List.range x).foldl (fun s x => detectCell oob w w MapIn z x s) st) z x := by
  intro x
  induction x with
  | zero => intro _; exact ⟨hd, hs⟩
  | succ x ih =>
    intro hx
    obtain ⟨h1, h2⟩ := ih (by omega)
    rw [List.range_succ, List.foldl_append]
    simp only [List.foldl_cons, List.foldl_nil]
    exact ⟨detInv_cell oob w w MapIn z x _ (by omega) hz h1,
      classInv_cell oob w MapIn hlen hbin z x _ (by omega) hz h1 h2⟩

theorem classInv_final {F : Type} (oob : Oob F) (w : Nat) (MapIn : List Nat)
    (hlen : MapIn.length = w * w) (hbin : ∀ v, v ∈ MapIn → v = 0 ∨ v = 1) :
    ∀ z, z ≤ w →
      DetInv oob w w MapIn
        ((List.range z).foldl (detectRow oob w w MapIn)
          { navMap := List.replicate (w * w) NavPoint.zeroed,
            bPlatformStarted := false, platformIndex := 0, returned := false }) (z * w) ∧
      ∀ i, i < z * w → w ≤ i → i + 1 < w * w →
        ((cellAt ((List.range z).foldl (detectRow oob w w MapIn)
          { navMap := List.replicate (w * w) NavPoint.zeroed,
            bPlatformStarted := false, platformIndex := 0, returned := false }).navMap
          i).nav_type ≠ 0 ↔ Standable MapIn w i) ∧
        (i % w + 1 < w →
          (cellAt ((List.range z).foldl (detectRow oob w w MapIn)
            { navMap := List.replicate (w * w) NavPoint.zeroed,
              bPlatformStarted := false, platformIndex := 0, returned := false }).navMap
            i).nav_type = runClass MapIn w i) := by
  intro z
  induction z with
  | zero =>
    intro _
    exact ⟨detInv_final oob w w MapIn 0 (Nat.zero_le _), fun i hi => by omega⟩
  | succ z ih =>
    intro hz
    obtain ⟨hd, hA⟩ := ih (by omega)
    rw [List.range_succ, List.foldl_append]
    simp only [List.foldl_cons, List.foldl_nil]
    generalize (List.range z).foldl (detectRow oob w w MapIn)
      { navMap := List.replicate (w * w) NavPoint.zeroed,
        bPlatformStarted := false, platformIndex := 0, returned := false } = st at hd hA
    have hret : st.returned = false := hd.2.1
    have hd0 : DetInv oob w w MapIn
        (if st.returned then st else { st with bPlatformStarted := false }) (z * w) := by
      simp only [hret, Bool.false_eq_true, if_false]
      exact ⟨hd.1, rfl, hd.2.2⟩
    have hs0 : ClassInv w MapIn
        (if st.returned then st else { st with bPlatformStarted := false }) z 0 := by
      simp only [hret, Bool.false_eq_true, if_false]
      exact ⟨fun i hi => hA i (by omega), fun _ _ => by simp⟩
    obtain ⟨h1, h2⟩ := classInv_row oob w MapIn hlen hbin z _ (by omega) hd0 hs0 w (le_refl _)
    have e : (z + 1) * w = z * w + w := by ring
    unfold detectRow
    rw [e]
    exact ⟨h1, h2.1⟩

/-- On a square grid with values 0 and 1, in every row `z ≥ 1` and at every cell but the
last one of the grid, `DetectPlatforms` classifies exactly the standable cells, and a cell
that is not in the last column gets the class of its place in its run of standable cells. -/
theorem detectPlatforms_square_class {F : Type} (oob : Oob F) (w : Nat) (MapIn : List Nat)
    (hlen : MapIn.length = w * w) (hbin : ∀ v, v ∈ MapIn → v = 0 ∨ v = 1)
    (i : Nat) (hrow : w ≤ i) (hi : i + 1 < w * w) :
    ((cellAt (DetectPlatforms oob w w MapIn) i).nav_type ≠ 0 ↔ Standable MapIn w i) ∧
    (i % w + 1 < w → (cellAt (DetectPlatforms oob w w MapIn) i).nav_type = runClass MapIn w i) :=
  (classInv_final oob w MapIn hlen hbin w (le_refl _)).2 i (by omega) hrow hi

/-! ## GetNextNode: the node of lowest F, first position on ties -/

theorem bestScan_eq_foldl {F : Type} (ops : FloatOps F) (l : List (PathNode F)) :
    bestScan ops l = (List.range l.length).foldl (scanStep ops l) (ops.ofInt 0, 0) := rfl

theorem getF_mem_of_get? {F : Type} (ops : FloatOps F) (l : List (PathNode F)) (j : Nat)
    (n : PathNode F) (h : l.get? j = some n) :
    n.GetF ops ∈ l.map (fun n => n.GetF ops) :=
  List.mem_map.mpr ⟨n, List.get?_mem h, rfl⟩

/-- The first step of the scan takes the node at position 0. -/
theorem scanInv_one {F : Type} (ops : FloatOps F) (l : List (PathNode F)) (hl : 0 < l.length)
    (hord : WeakOrderOn ops (l.map (fun n => n.GetF ops))) :
    ScanInv ops l 1 ((List.range 1).foldl (scanStep ops l) (ops.ofInt 0, 0)) := by
  obtain ⟨n0, h0⟩ : ∃ n0, l.get? 0 = some n0 := ⟨l.get ⟨0, hl⟩, List.get?_eq_get hl⟩
  have e : (List.range 1).foldl (scanStep ops l) (ops.ofInt 0, 0) = (n0.GetF ops, 0) := by
    rw [List.range_succ, List.range_zero]
    simp only [List.nil_append, List.foldl_cons, List.foldl_nil, scanStep, h0]
    simp
  rw [e]
  refine ⟨n0, h0, rfl, by omega, ?_, fun j n hj => by omega⟩
  intro j n hj hn
  have hj0 : j = 0 := by omega
  subst hj0
  rw [h0] at hn
  cases hn
  exact hord.1 _ (getF_mem_of_get? ops l 0 n0 h0)

/-- One step of the scan at a position `k ≥ 1` keeps the invariant. -/
theorem scanInv_step {F : Type} (ops : FloatOps F) (l : List (PathNode F))
    (hord : WeakOrderOn ops (l.map (fun n => n.GetF ops)))
    (k : Nat) (hk1 : 1 ≤ k) (hk : k < l.length) (acc : F × Nat) (hinv : ScanInv ops l k acc) :
    ScanInv ops l (k + 1) (scanStep ops l acc k) := by
  obtain ⟨nb, hb, hF, hlt, hmin, hfirst⟩ := hinv
  obtain ⟨nk, hnk⟩ : ∃ nk, l.get? k = some nk := ⟨l.get ⟨k, hk⟩, List.get?_eq_get hk⟩
  have hk0 : (k == 0) = false := by
    cases k with
    | zero => omega
    | succ k => rfl
  have mk := getF_mem_of_get? ops l k nk hnk
  have mb := getF_mem_of_get? ops l acc.2 nb hb
  unfold scanStep
  rw [hnk]
  simp only [hk0, Bool.or_false]
  by_cases hc : ops.lt (nk.GetF ops) acc.1 = true
  · rw [if_pos hc]
    refine ⟨nk, hnk, rfl, by simp, ?_, ?_⟩
    · intro j n hj hn
      simp only
      by_cases hjk : j = k
      · subst hjk
        rw [hnk] at hn
        cases hn
        exact hord.1 _ mk
      · have h1 := hmin j n (by omega) hn
        cases h2 : ops.lt (n.GetF ops) (nk.GetF ops) with
        | false => rfl
        | true =>
          have h3 := hord.2.1 _ _ _ (getF_mem_of_get? ops l j n hn) mk mb h2 (by rw [← hF]; exact hc)
          rw [← hF, h1] at h3
          cases h3
    · intro j n hj hn
      simp only at hj ⊢
      have h1 := hmin j n hj hn
      rcases hord.2.2 _ _ _ mk mb (getF_mem_of_get? ops l j n hn) (by rw [← hF]; exact hc)
        with h3 | h3
      · exact h3
      · rw [← hF, h1] at h3
        cases h3
  · rw [if_neg hc]
    refine ⟨nb, hb, hF, by omega, ?_, hfirst⟩
    intro j n hj hn
    by_cases hjk : j = k
    · subst hjk
      rw [hnk] at hn
      cases hn
      simpa using hc
    · exact hmin j n (by omega) hn

theorem scanInv_all {F : Type} (ops : FloatOps F) (l : List (PathNode F)) (hl : 0 < l.length)
    (hord : WeakOrderOn ops (l.map (fun n => n.GetF ops))) :
    ∀ k, 1 ≤ k → k ≤ l.length →
      ScanInv ops l k ((List.range k).foldl (scanStep ops l) (ops.ofInt 0, 0)) := by
  intro k
  induction k with
  | zero => intro h; omega
  | succ k ih =>
    intro _ hk
    by_cases hk0 : k = 0
    · subst hk0
      exact scanInv_one ops l hl hord
    · rw [List.range_succ, List.foldl_append]
      simp only [List.foldl_cons, List.foldl_nil]
      exact scanInv_step ops l hord k (by omega) (by omega) _ (ih (by omega) (by omega))

/-- What `GetNextNode` does on a non-empty open list whose `F` values are comparable. -/
theorem getNextNode_lowest {F : Type} (ops : FloatOps F) (s : SearchState F)
    (hne : s.openList ≠ [])
    (hord : WeakOrderOn ops (s.openList.map (fun n => n.GetF ops))) :
    ∃ (i : Nat) (cur : PathNode F), s.openList.get? i = some cur ∧
      (∀ j n, s.openList.get? j = some n → ops.lt (n.GetF ops) (cur.GetF ops) = false) ∧
      (∀ j n, j < i → s.openList.get? j = some n →
        ops.lt (cur.GetF ops) (n.GetF ops) = true) ∧
      GetNextNode ops s = (some cur,
        { s with visitedList := s.visitedList ++ [cur],
                 openList := s.openList.eraseIdx i }) := by
  have hl : 0 < s.openList.length := List.length_pos.mpr hne
  obtain ⟨nb, hb, hF, _, hmin, hfirst⟩ :=
    scanInv_all ops s.openList hl hord s.openList.length hl (le_refl _)
  rw [← bestScan_eq_foldl] at hb hF hmin hfirst
  refine ⟨(bestScan ops s.openList).2, nb, hb, ?_, ?_, ?_⟩
  · intro j n hn
    rw [← hF]
    have hj : j < s.openList.length := by
      rcases Nat.lt_or_ge j s.openList.length with h | h
      · exact h
      · rw [List.get?_eq_none.mpr h] at hn; cases hn
    exact hmin j n hj hn
  · intro j n hj hn
    rw [← hF]
    exact hfirst j n hj hn
  · unfold GetNextNode
    simp only [hb]

theorem weakOrderOn_natOps (vals : List Nat) : WeakOrderOn natOps vals := by
  refine ⟨fun a _ => ?_, fun a b c _ _ _ h1 h2 => ?_, fun a b c _ _ _ h1 => ?_⟩
  · simp [natOps]
  · simp only [natOps, decide_eq_true_eq] at h1 h2 ⊢; omega
  · simp only [natOps, decide_eq_true_eq] at h1 ⊢; omega

/-! ## Claims about graph construction -/

/-- C4 (code defect): on the 4 × 3 grid `gridNonSquare`, `DetectPlatforms` classifies cell 9
(column 1, row 2) as RightEdge although the tile directly below it (cell 5) is free, not
colliding: the lower-right test reads `index - mapHeight + 1` where the cell below and to the
right is `index - mapWidth + 1`. No read on this grid is out of range. -/
theorem C4_navigable_over_free_tile :
    (cellAt (DetectPlatforms zeroOob 4 3 gridNonSquare) 9).nav_type = 3 ∧
    (cellAt (DetectPlatforms zeroOob 4 3 gridNonSquare) 9).x_coord = 1 ∧
    (cellAt (DetectPlatforms zeroOob 4 3 gridNonSquare) 9).z_coord = 2 ∧
    gridNonSquare.getD 9 0 = 1 ∧ gridNonSquare.getD (9 - 4) 0 = 1 := by
  decide!

/-- C5, as stated, fails: on `gridLone` cell 2 is classified Lone, yet its grid value is not 0
and the value directly below is not 1. -/
theorem C5_counterexample :
    (cellAt (DetectPlatforms zeroOob 2 2 gridLone) 2).nav_type = 4 ∧
    ¬ (gridLone.getD 2 0 = 0 ∧ gridLone.getD (2 - 2) 0 = 1) := by
  decide!

/-- C5 (amended): in the collision grid the value 1 means open and 0 means solid. For every
grid of `w * h` values, `DetectPlatforms` stores the grid value of each cell as its collision
flag, and classifies a cell LeftEdge (1) or Lone (4) only if its grid value is 1 and, when the
cell is not in row 0, the value directly below it is 0. -/
theorem C5_platform_opens_on_one_over_zero {F : Type} (oob : Oob F) (w h : Nat)
    (MapIn : List Nat) (hlen : MapIn.length = w * h) (i : Nat) (hi : i < w * h) :
    (cellAt (DetectPlatforms oob w h MapIn) i).collision = MapIn.getD i 0 ∧
    ((cellAt (DetectPlatforms oob w h MapIn) i).nav_type = 1 ∨
        (cellAt (DetectPlatforms oob w h MapIn) i).nav_type = 4 →
      MapIn.getD i 0 = 1 ∧ (w ≤ i → MapIn.getD (i - w) 0 = 0)) := by
  obtain ⟨_, _, hc, _, _, _, _, hty⟩ := (detectPlatforms_cells oob w h MapIn).2 i hi
  rw [rdMap_nat oob MapIn i (by omega)] at hc hty
  refine ⟨hc, fun ht => ⟨(hty ht).1, fun hwi => ?_⟩⟩
  have e : ((i : Int) - (w : Int)) = ((i - w : Nat) : Int) := by omega
  have := (hty ht).2
  rwa [e, rdMap_nat oob MapIn (i - w) (by omega)] at this

/-- C5 (amended), at the grid `gridLone` and its Lone cell 2. -/
theorem C5_platform_opens_on_one_over_zero_witness :
    gridLone.length = 2 * 2 ∧ 2 < 2 * 2 ∧
    (cellAt (DetectPlatforms zeroOob 2 2 gridLone) 2).collision = gridLone.getD 2 0 ∧
    ((cellAt (DetectPlatforms zeroOob 2 2 gridLone) 2).nav_type = 1 ∨
        (cellAt (DetectPlatforms zeroOob 2 2 gridLone) 2).nav_type = 4 →
      gridLone.getD 2 0 = 1 ∧ (2 ≤ 2 → gridLone.getD (2 - 2) 0 = 0)) :=
  ⟨by decide, by decide,
    C5_platform_opens_on_one_over_zero zeroOob 2 2 gridLone (by decide) 2 (by decide)⟩

/-- C6: after `BuildNavigation`, for all cells `a` and `b` of the grid, `b` is in the run
links of `a` exactly when both are classified, lie in the same row and their columns differ
by one; run links are symmetric; no cell lists a run neighbour twice; every run link points
into the grid. -/
theorem C6_run_links_adjacent_symmetric {F : Type} (ops : FloatOps F) (oob : Oob F)
    (pr : List Nat) (J v w h : Nat) (MapIn : List Nat) (a b : Nat)
    (ha : a < w * h) (hb : b < w * h) :
    (b ∈ (cellAt (BuildNavigation ops oob pr J v w h MapIn).navMap a).link_run ↔
      ((cellAt (BuildNavigation ops oob pr J v w h MapIn).navMap a).nav_type ≠ 0 ∧
       (cellAt (BuildNavigation ops oob pr J v w h MapIn).navMap b).nav_type ≠ 0 ∧
       (cellAt (BuildNavigation ops oob pr J v w h MapIn).navMap a).z_coord
         = (cellAt (BuildNavigation ops oob pr J v w h MapIn).navMap b).z_coord ∧
       ((cellAt (BuildNavigation ops oob pr J v w h MapIn).navMap a).x_coord + 1
           = (cellAt (BuildNavigation ops oob pr J v w h MapIn).navMap b).x_coord ∨
         (cellAt (BuildNavigation ops oob pr J v w h MapIn).navMap b).x_coord + 1
           = (cellAt (BuildNavigation ops oob pr J v w h MapIn).navMap a).x_coord))) ∧
    (b ∈ (cellAt (BuildNavigation ops oob pr J v w h MapIn).navMap a).link_run ↔
      a ∈ (cellAt (BuildNavigation ops oob pr J v w h MapIn).navMap b).link_run) ∧
    (cellAt (BuildNavigation ops oob pr J v w h MapIn).navMap a).link_run.count b ≤ 1 ∧
    (∀ c, c ∈ (cellAt (BuildNavigation ops oob pr J v w h MapIn).navMap a).link_run →
      c < w * h) ∧
    (cellAt (BuildNavigation ops oob pr J v w h MapIn).navMap a).x_coord = a % w ∧
    (cellAt (BuildNavigation ops oob pr J v w h MapIn).navMap a).z_coord = a / w := by
  have hg := build_gridShaped ops oob pr J v w h MapIn
  rw [build_link_run ops oob pr J v w h MapIn a ha, build_link_run ops oob pr J v w h MapIn b hb]
  generalize (BuildNavigation ops oob pr J v w h MapIn).navMap = nav at hg
  refine ⟨mem_link_run_iff nav w h hg a b ha hb, ?_, ?_, ?_, (hg.2 a ha).1, (hg.2 a ha).2⟩
  · rw [mem_link_run_iff nav w h hg a b ha hb, mem_link_run_iff nav w h hg b a hb ha]
    constructor
    · rintro ⟨h1, h2, h3, h4⟩
      exact ⟨h2, h1, h3.symm, h4.symm⟩
    · rintro ⟨h1, h2, h3, h4⟩
      exact ⟨h2, h1, h3.symm, h4.symm⟩
  · exact List.nodup_iff_count_le_one.mp (nodup_runLinksUpTo nav w (w * h) a) b
  · intro c hc
    exact runLinksUpTo_lt nav w h a c ha hc

/-- C6 at the flat five-tile platform of `gridFlat` (cells 8 to 12 of the 7 × 7 grid): the
statement for the neighbours 8 and 9, and the run-link lists of the five cells, which hold
four links in each direction. -/
theorem C6_run_links_adjacent_symmetric_witness :
    8 < 7 * 7 ∧ 9 < 7 * 7 ∧
    (9 ∈ (cellAt (BuildNavigation natOps zeroOob [] 0 1 7 7 gridFlat).navMap 8).link_run ↔
      8 ∈ (cellAt (BuildNavigation natOps zeroOob [] 0 1 7 7 gridFlat).navMap 9).link_run) ∧
    (cellAt (BuildNavigation natOps zeroOob [] 0 1 7 7 gridFlat).navMap 8).link_run.count 9 ≤ 1 ∧
    ((List.range' 8 5).map (fun i =>
        (cellAt (BuildNavigation natOps zeroOob [] 0 1 7 7 gridFlat).navMap i).link_run))
      = [[9], [8, 10], [9, 11], [10, 12], [11]] :=
  ⟨by decide, by decide,
    (C6_run_links_adjacent_symmetric natOps zeroOob [] 0 1 7 7 gridFlat 8 9
      (by decide) (by decide)).2.1,
    (C6_run_links_adjacent_symmetric natOps zeroOob [] 0 1 7 7 gridFlat 8 9
      (by decide) (by decide)).2.2.1,
    by decide!⟩

/-- The fall links of a built graph meet `FallLinksSpec` at every cell off the side columns. -/
theorem build_fallLinksSpec {F : Type} (oob : Oob F) (nav : List (NavPoint F)) (w h : Nat)
    (hg : GridShaped nav w h) (a : Nat) (ha : a < w * h) (hfirst : 0 < a % w)
    (hlast : a % w + 1 < w)
    (hlf : (cellAt nav a).link_fall = fallLinksOf oob nav w a) :
    FallLinksSpec nav w a := by
  have ha0 : 1 ≤ a := by
    rcases Nat.eq_zero_or_pos a with h0 | h0
    · subst h0; simp at hfirst
    · exact h0
  obtain ⟨p1, p2⟩ := pred_div_mod hfirst
  obtain ⟨s1, s2⟩ := succ_div_mod hlast
  have hs : a + 1 < w * h := succ_lt_of_mod_ne ha (by omega)
  have hp : a - 1 < w * h := by omega
  have zl : (cellAt nav (a - 1)).z_coord = (cellAt nav a).z_coord := by
    rw [(hg.2 _ hp).2, (hg.2 _ ha).2, p1]
  have zr : (cellAt nav (a + 1)).z_coord = (cellAt nav a).z_coord := by
    rw [(hg.2 _ hs).2, (hg.2 _ ha).2, s1]
  have xl : (cellAt nav (a - 1)).x_coord + 1 = (cellAt nav a).x_coord := by
    rw [(hg.2 _ hp).1, (hg.2 _ ha).1, p2]
  have xr : (cellAt nav (a + 1)).x_coord = (cellAt nav a).x_coord + 1 := by
    rw [(hg.2 _ hs).1, (hg.2 _ ha).1, s2]
  have e1 : (a : Int) - 1 = ((a - 1 : Nat) : Int) := by omega
  have e2 : (a : Int) + 1 = ((a + 1 : Nat) : Int) := by omega
  refine ⟨sideLinks oob nav w ((a - 1 : Nat) : Int), sideLinks oob nav w ((a + 1 : Nat) : Int),
    sideLinks_probe oob nav w h hg a (a - 1) hp zl,
    sideLinks_probe oob nav w h hg a (a + 1) hs zr, zl, xl, zr, xr, ?_, ?_, ?_, ?_⟩
  · intro ht
    rw [hlf]; unfold fallLinksOf
    rcases ht with ht | ht <;> simp [ht]
  · intro ht
    rw [hlf]; unfold fallLinksOf
    rw [if_pos ht, e1]
  · intro ht
    rw [hlf]; unfold fallLinksOf
    rw [if_neg (by omega), if_pos ht, e2]
  · intro ht
    rw [hlf]; unfold fallLinksOf
    rw [if_neg (by omega), if_neg (by omega), if_pos ht, e1, e2]

/-- C7: after `CreateFallLinks` (in the graph `BuildNavigation` returns), every cell `a` that
is not in the first or last column has the fall links `FallLinksSpec` describes: none for a
Middle or unclassified cell; for a LeftEdge the probe of its left tile, for a RightEdge the
probe of its right tile, for a Lone cell both; a probe of a tile that is not open gives no
link, a probe of an open tile gives exactly one link, to the first classified cell met
scanning that tile's column from row `z_a - 1` down to row 1, or none if there is none. -/
theorem C7_fall_links_by_classification {F : Type} (ops : FloatOps F) (oob : Oob F)
    (pr : List Nat) (J v w h : Nat) (MapIn : List Nat) (a : Nat)
    (ha : a < w * h) (hfirst : 0 < a % w) (hlast : a % w + 1 < w) :
    FallLinksSpec (BuildNavigation ops oob pr J v w h MapIn).navMap w a :=
  build_fallLinksSpec oob _ w h (build_gridShaped ops oob pr J v w h MapIn) a ha hfirst hlast
    (build_link_fall ops oob pr J v w h MapIn a ha)

/-- C7 at the Lone ledge (cell 17) of `gridLedge`, whose two probes link to cells 6 and 8. -/
theorem C7_fall_links_by_classification_witness :
    17 < 5 * 5 ∧ 0 < 17 % 5 ∧ 17 % 5 + 1 < 5 ∧
    FallLinksSpec (BuildNavigation natOps zeroOob [] 0 1 5 5 gridLedge).navMap 5 17 ∧
    (cellAt (BuildNavigation natOps zeroOob [] 0 1 5 5 gridLedge).navMap 17).nav_type = 4 ∧
    (cellAt (BuildNavigation natOps zeroOob [] 0 1 5 5 gridLedge).navMap 17).link_fall = [6, 8] :=
  ⟨by decide, by decide, by decide,
    C7_fall_links_by_classification natOps zeroOob [] 0 1 5 5 gridLedge 17
      (by decide) (by decide) (by decide),
    by decide!, by decide!⟩

/-- C8, as stated, fails: on `gridLedge` the ledge cell 17 has a fall link to cell 6, which is
not in the column of cell 17. -/
theorem C8_counterexample :
    6 ∈ (cellAt (BuildNavigation natOps zeroOob [] 0 1 5 5 gridLedge).navMap 17).link_fall ∧
    ¬ ((cellAt (BuildNavigation natOps zeroOob [] 0 1 5 5 gridLedge).navMap 6).x_coord
          = (cellAt (BuildNavigation natOps zeroOob [] 0 1 5 5 gridLedge).navMap 17).x_coord ∧
       (cellAt (BuildNavigation natOps zeroOob [] 0 1 5 5 gridLedge).navMap 6).z_coord
          < (cellAt (BuildNavigation natOps zeroOob [] 0 1 5 5 gridLedge).navMap 17).z_coord) := by
  decide!

/-- C8 (amended): for every grid and every fall link `(a, b)` from a cell `a` that is not in
the first or last column, `b` is a classified cell of the grid below `a` in a column next to
that of `a`: `x_b + 1 = x_a` or `x_b = x_a + 1`, and `1 ≤ z_b < z_a`. -/
theorem C8_fall_target_below_in_adjacent_column {F : Type} (ops : FloatOps F) (oob : Oob F)
    (pr : List Nat) (J v w h : Nat) (MapIn : List Nat) (a b : Nat)
    (ha : a < w * h) (hfirst : 0 < a % w) (hlast : a % w + 1 < w)
    (hb : b ∈ (cellAt (BuildNavigation ops oob pr J v w h MapIn).navMap a).link_fall) :
    b < w * h ∧
    (cellAt (BuildNavigation ops oob pr J v w h MapIn).navMap b).nav_type ≠ 0 ∧
    1 ≤ (cellAt (BuildNavigation ops oob pr J v w h MapIn).navMap b).z_coord ∧
    (cellAt (BuildNavigation ops oob pr J v w h MapIn).navMap b).z_coord
      < (cellAt (BuildNavigation ops oob pr J v w h MapIn).navMap a).z_coord ∧
    ((cellAt (BuildNavigation ops oob pr J v w h MapIn).navMap b).x_coord + 1
        = (cellAt (BuildNavigation ops oob pr J v w h MapIn).navMap a).x_coord ∨
      (cellAt (BuildNavigation ops oob pr J v w h MapIn).navMap b).x_coord
        = (cellAt (BuildNavigation ops oob pr J v w h MapIn).navMap a).x_coord + 1) := by
  have hg := build_gridShaped ops oob pr J v w h MapIn
  have hlf := build_link_fall ops oob pr J v w h MapIn a ha
  generalize (BuildNavigation ops oob pr J v w h MapIn).navMap = nav at hg hlf hb
  obtain ⟨L, R, pL, pR, _, xl, _, xr, t02, t1, t3, t4⟩ :=
    build_fallLinksSpec oob nav w h hg a ha hfirst hlast hlf
  have hs : a + 1 < w * h := succ_lt_of_mod_ne ha (by
    have := (succ_div_mod hlast).2
    omega)
  have hp : a - 1 < w * h := by omega
  have inL : b ∈ L → _ := fallProbe_mem nav w h hg a (a - 1) ha hp L pL b
  have inR : b ∈ R → _ := fallProbe_mem nav w h hg a (a + 1) ha hs R pR b
  have hmem : b ∈ L ∨ b ∈ R := by
    have hty : (cellAt nav a).nav_type = 1 ∨ (cellAt nav a).nav_type = 3 ∨
        (cellAt nav a).nav_type = 4 := by
      by_contra hcon
      rw [hlf] at hb
      unfold fallLinksOf at hb
      simp only [not_or] at hcon
      simp [hcon.1, hcon.2.1, hcon.2.2] at hb
    rcases hty with ht | ht | ht
    · rw [t1 ht] at hb; exact Or.inl hb
    · rw [t3 ht] at hb; exact Or.inr hb
    · rw [t4 ht] at hb; exact List.mem_append.mp hb
  rcases hmem with hm | hm
  · obtain ⟨h1, h2, h3, h4, h5⟩ := inL hm
    exact ⟨h1, h2, h3, h4, Or.inl (by rw [h5]; exact xl)⟩
  · obtain ⟨h1, h2, h3, h4, h5⟩ := inR hm
    exact ⟨h1, h2, h3, h4, Or.inr (by rw [h5]; exact xr)⟩

/-- C8 (amended) at the fall link from cell 17 to cell 6 of `gridLedge`. -/
theorem C8_fall_target_below_in_adjacent_column_witness :
    6 ∈ (cellAt (BuildNavigation natOps zeroOob [] 0 1 5 5 gridLedge).navMap 17).link_fall ∧
    6 < 5 * 5 ∧
    (cellAt (BuildNavigation natOps zeroOob [] 0 1 5 5 gridLedge).navMap 6).nav_type ≠ 0 ∧
    1 ≤ (cellAt (BuildNavigation natOps zeroOob [] 0 1 5 5 gridLedge).navMap 6).z_coord ∧
    (cellAt (BuildNavigation natOps zeroOob [] 0 1 5 5 gridLedge).navMap 6).z_coord
      < (cellAt (BuildNavigation natOps zeroOob [] 0 1 5 5 gridLedge).navMap 17).z_coord ∧
    ((cellAt (BuildNavigation natOps zeroOob [] 0 1 5 5 gridLedge).navMap 6).x_coord + 1
        = (cellAt (BuildNavigation natOps zeroOob [] 0 1 5 5 gridLedge).navMap 17).x_coord ∨
      (cellAt (BuildNavigation natOps zeroOob [] 0 1 5 5 gridLedge).navMap 6).x_coord
        = (cellAt (BuildNavigation natOps zeroOob [] 0 1 5 5 gridLedge).navMap 17).x_coord + 1) :=
  ⟨by decide!,
    C8_fall_target_below_in_adjacent_column natOps zeroOob [] 0 1 5 5 gridLedge 17 6
      (by decide) (by decide) (by decide) (by decide!)⟩

/-- C9 (code defect): on `gridWrap` with jump height 1 and body height 1, cell 11 (column 5,
row 1) gets a jump link to cell 18 (column 0, row 3), two rows above the base: the arc index
`(z + j) * mapWidth + x + horizontal` is not checked against the row end, so from the last
column it lands in the first column one row higher. No read on this grid is out of range. -/
theorem C9_jump_link_above_jump_height :
    (cellAt (BuildNavigation natOps zeroOob [] 1 1 6 6 gridWrap).navMap 11).link_jump.map
        (fun j => j.index) = [18] ∧
    (cellAt (BuildNavigation natOps zeroOob [] 1 1 6 6 gridWrap).navMap 11).z_coord = 1 ∧
    (cellAt (BuildNavigation natOps zeroOob [] 1 1 6 6 gridWrap).navMap 18).z_coord = 3 ∧
    (cellAt (BuildNavigation natOps zeroOob [] 1 1 6 6 gridWrap).navMap 11).x_coord = 5 ∧
    (cellAt (BuildNavigation natOps zeroOob [] 1 1 6 6 gridWrap).navMap 18).x_coord = 0 := by
  decide!

/-- C10: after `BuildNavigation` on any grid, with any jump height and body height and from
any prior content of `platformsReached`, no cell's jump-link list holds two links with the
same target index. -/
theorem C10_one_jump_link_per_target {F : Type} (ops : FloatOps F) (oob : Oob F)
    (pr : List Nat) (J v w h : Nat) (MapIn : List Nat) (a : Nat) :
    ((cellAt (BuildNavigation ops oob pr J v w h MapIn).navMap a).link_jump.map
      (fun j => j.index)).Nodup :=
  build_jump_nodup ops oob pr J v w h MapIn a

/-! ## Claims about the path search -/

theorem wellFormed_navLine : WellFormed navLine 3 1 := by
  unfold WellFormed GridShaped
  decide

theorem orderedOps_natOps : OrderedOps natOps := by
  refine ⟨fun g c _ => ?_, ?_, fun x => ?_⟩
  · simp [natOps]
  · simp [NonNeg, natOps]
  · simp [NonNeg, natOps]

theorem nonNegJumps_natOps (nav : List (NavPoint Nat)) : NonNegJumps natOps nav := by
  intro i j _
  simp [NonNeg, natOps]

/-- C1: for every navigation graph over a `w × h` grid whose link targets are in range and
every in-range start and goal cell, if the search (`DeletePath`, `SetStartAndGoal`,
`CheckPath`) ends with a non-empty path, the list `GetPath` returns runs goal-to-start: its
first node has the goal's grid index, its last node is the start node (`G = 0`, no parent),
each node's parent is the next node of the list, and every node other than the start was
reached from its parent over a link of its recorded type with `G` equal to the parent's `G`
plus that edge's cost (`GoalToStart`, `PathOK`, `EdgeOK`). -/
theorem C1_path_runs_goal_to_start {F : Type} (ops : FloatOps F) (oob : Oob F) (u : Unset)
    (nav : List (NavPoint F)) (w h sx sz gx gz : Nat) (hwf : WellFormed nav w h)
    (hsx : sx < w) (hsz : sz < h) (hgx : gx < w) (hgz : gz < h) (fuel : Nat)
    (s' : SearchState F)
    (hres : search ops oob u nav w h (sx : Int) (sz : Int) (gx : Int) (gz : Int) fuel = some s')
    (hne : GetPath s' ≠ []) :
    GoalToStart ops nav (sz * w + sx) (gz * w + gx) (GetPath s') :=
  search_sound ops oob u nav w h sx sz gx gz hwf hsx hsz hgx hgz fuel s' hres hne

/-- C1 on `navLine`, from cell 0 to cell 2: the search returns the three-node path over the
run link 0 → 1 and the jump link 1 → 2. -/
theorem C1_path_runs_goal_to_start_witness :
    WellFormed navLine 3 1 ∧
    ∃ s', search natOps zeroOob zeroUnset navLine 3 1 ((0 : Nat) : Int) ((0 : Nat) : Int)
        ((2 : Nat) : Int) ((0 : Nat) : Int) 10 = some s' ∧
      (GetPath s').map (fun n => (n.index, n.type, n.G)) = [(2, 3, 3), (1, 1, 1), (0, 0, 0)] ∧
      GoalToStart natOps navLine (0 * 3 + 0) (0 * 3 + 2) (GetPath s') := by
  have hsome : ((search natOps zeroOob zeroUnset navLine 3 1 ((0 : Nat) : Int) ((0 : Nat) : Int)
      ((2 : Nat) : Int) ((0 : Nat) : Int) 10).map
        (fun s => (GetPath s).map (fun n => (n.index, n.type, n.G))))
      = some [(2, 3, 3), (1, 1, 1), (0, 0, 0)] := by decide!
  cases hs : search natOps zeroOob zeroUnset navLine 3 1 ((0 : Nat) : Int) ((0 : Nat) : Int)
      ((2 : Nat) : Int) ((0 : Nat) : Int) 10 with
  | none => rw [hs] at hsome; simp at hsome
  | some s' =>
    rw [hs] at hsome
    have hpath : (GetPath s').map (fun n => (n.index, n.type, n.G))
        = [(2, 3, 3), (1, 1, 1), (0, 0, 0)] := by simpa using hsome
    have hne : GetPath s' ≠ [] := by
      intro h0; rw [h0] at hpath; simp at hpath
    exact ⟨wellFormed_navLine, s', rfl, hpath,
      C1_path_runs_goal_to_start natOps zeroOob zeroUnset navLine 3 1 0 0 2 0
        wellFormed_navLine (by decide) (by decide) (by decide) (by decide) 10 s' hs hne⟩

/-- C2: for every navigation graph whose link targets are in range and every in-range start
and goal cell, the search ends (enough fuel gives a result), with a non-empty path whose first
node is at the goal whenever the goal cell can be reached from the start cell over run, fall
and jump links, and with an empty path exactly when the goal cannot be reached that way. -/
theorem C2_path_found_iff_reachable {F : Type} (ops : FloatOps F) (oob : Oob F) (u : Unset)
    (nav : List (NavPoint F)) (w h sx sz gx gz : Nat) (hwf : WellFormed nav w h)
    (hsx : sx < w) (hsz : sz < h) (hgx : gx < w) (hgz : gz < h) :
    ∃ N, ∀ fuel, N ≤ fuel → ∃ s',
      search ops oob u nav w h (sx : Int) (sz : Int) (gx : Int) (gz : Int) fuel = some s' ∧
      (Reach nav (sz * w + sx) (gz * w + gx) →
        GetPath s' ≠ [] ∧
        ∃ first, (GetPath s').head? = some first ∧ first.index = ((gz * w + gx : Nat) : Int)) ∧
      (GetPath s' = [] ↔ ¬ Reach nav (sz * w + sx) (gz * w + gx)) := by
  obtain ⟨N, hN⟩ := search_total ops oob u nav w h sx sz gx gz hwf hsx hsz hgx hgz
  refine ⟨N, fun fuel hf => ?_⟩
  obtain ⟨s', hs', hcase⟩ := hN fuel hf
  refine ⟨s', hs', ?_, ?_⟩
  · intro hr
    rcases hcase with ⟨_, hg⟩ | ⟨hnr, _⟩
    · exact ⟨goalToStart_ne_nil ops nav _ _ _ hg, hg.1⟩
    · exact absurd hr hnr
  · rcases hcase with ⟨hr, hg⟩ | ⟨hnr, hp⟩
    · exact ⟨fun h0 => absurd h0 (goalToStart_ne_nil ops nav _ _ _ hg), fun hnr => absurd hr hnr⟩
    · exact ⟨fun _ => hnr, fun _ => hp⟩

/-- C2 on `navLine`, from cell 0 to cell 2. -/
theorem C2_path_found_iff_reachable_witness :
    WellFormed navLine 3 1 ∧
    ∃ N, ∀ fuel, N ≤ fuel → ∃ s',
      search natOps zeroOob zeroUnset navLine 3 1 ((0 : Nat) : Int) ((0 : Nat) : Int)
        ((2 : Nat) : Int) ((0 : Nat) : Int) fuel = some s' ∧
      (Reach navLine (0 * 3 + 0) (0 * 3 + 2) →
        GetPath s' ≠ [] ∧
        ∃ first, (GetPath s').head? = some first ∧ first.index = ((0 * 3 + 2 : Nat) : Int)) ∧
      (GetPath s' = [] ↔ ¬ Reach navLine (0 * 3 + 0) (0 * 3 + 2)) :=
  ⟨wellFormed_navLine,
    C2_path_found_iff_reachable natOps zeroOob zeroUnset navLine 3 1 0 0 2 0 wellFormed_navLine
      (by decide) (by decide) (by decide) (by decide)⟩

/-- C3: for every navigation graph with finitely many cells, in-range link targets and
non-negative edge costs, and every in-range start and goal, `CheckPath` terminates (enough
fuel gives a result), either with a goal-to-start path along which `G` does not decrease from
parent to child, or with an empty path. -/
theorem C3_search_terminates {F : Type} (ops : FloatOps F) (oob : Oob F) (u : Unset)
    (nav : List (NavPoint F)) (w h sx sz gx gz : Nat) (hwf : WellFormed nav w h)
    (hops : OrderedOps ops) (hjumps : NonNegJumps ops nav)
    (hsx : sx < w) (hsz : sz < h) (hgx : gx < w) (hgz : gz < h) :
    ∃ N, ∀ fuel, N ≤ fuel → ∃ s',
      search ops oob u nav w h (sx : Int) (sz : Int) (gx : Int) (gz : Int) fuel = some s' ∧
      (GetPath s' = [] ∨
        (GoalToStart ops nav (sz * w + sx) (gz * w + gx) (GetPath s') ∧
          GNonDecreasing ops (GetPath s'))) := by
  obtain ⟨N, hN⟩ := search_total ops oob u nav w h sx sz gx gz hwf hsx hsz hgx hgz
  refine ⟨N, fun fuel hf => ?_⟩
  obtain ⟨s', hs', hcase⟩ := hN fuel hf
  refine ⟨s', hs', ?_⟩
  rcases hcase with ⟨_, hg⟩ | ⟨_, hp⟩
  · exact Or.inr ⟨hg, gNonDecreasing_of_pathOK ops nav _ hops hjumps _ hg.2⟩
  · exact Or.inl hp

/-- C3 on `navLine` with the natural-number costs, from cell 0 to cell 2. -/
theorem C3_search_terminates_witness :
    WellFormed navLine 3 1 ∧ OrderedOps natOps ∧ NonNegJumps natOps navLine ∧
    ∃ N, ∀ fuel, N ≤ fuel → ∃ s',
      search natOps zeroOob zeroUnset navLine 3 1 ((0 : Nat) : Int) ((0 : Nat) : Int)
        ((2 : Nat) : Int) ((0 : Nat) : Int) fuel = some s' ∧
      (GetPath s' = [] ∨
        (GoalToStart natOps navLine (0 * 3 + 0) (0 * 3 + 2) (GetPath s') ∧
          GNonDecreasing natOps (GetPath s'))) :=
  ⟨wellFormed_navLine, orderedOps_natOps, nonNegJumps_natOps navLine,
    C3_search_terminates natOps zeroOob zeroUnset navLine 3 1 0 0 2 0 wellFormed_navLine
      orderedOps_natOps (nonNegJumps_natOps navLine)
      (by decide) (by decide) (by decide) (by decide)⟩

/-! ## Claims about jump paths, costs, the heuristic, the open list and the query façade -/

/-- A state `checkPathNext` gives is the state `CheckPath` recurses on. -/
theorem checkPath_of_next {F : Type} (ops : FloatOps F) (oob : Oob F) (nav : List (NavPoint F))
    (w fuel : Nat) (s s2 : SearchState F) (h : checkPathNext ops oob nav w s = some s2) :
    CheckPath ops oob nav w (fuel + 1) s = CheckPath ops oob nav w fuel s2 := by
  unfold checkPathNext at h
  rw [CheckPath]
  by_cases h0 : s.openList.length = 0
  · rw [if_pos h0] at h; exact absurd h (by simp)
  · rw [if_neg h0] at h
    rw [if_neg h0]
    cases hg : s.goalNode with
    | none => simp [hg] at h
    | some goal =>
      cases hn : GetNextNode ops s with
      | mk c s1 =>
        cases c with
        | none => simp [hg, hn] at h
        | some cur =>
          simp only [hg, hn] at h ⊢
          by_cases hc : cur.index = goal.index
          · rw [if_pos hc] at h; exact absurd h (by simp)
          · rw [if_neg hc] at h
            rw [if_neg hc, ← Option.some.inj h]

theorem gridShaped_navLine : GridShaped navLine 3 1 := by
  unfold GridShaped
  decide

/-- C11, as stated, fails: on `gridCeiling` (jump height 1, body height 1) cell 8 has a jump
link to cell 10 over the path 8, 16, 10, and the tile directly above the landing cell 10
(cell 17, one row up in the same column) is solid. -/
theorem C11_counterexample :
    (cellAt (navCeiling natOps zeroOob) 8).link_jump.map (fun j => (j.index, j.jump_path))
      = [(10, [8, 16, 10])] ∧
    (cellAt (navCeiling natOps zeroOob) (10 + 1 * 7)).collision = 0 := by
  decide!

/-- The slip in the diagonal ascent of `CalculateJumpAtPoint`, left out of C11 as amended: on
`gridLowCeiling` (jump height 1, body height 1) cell 6 gets a jump link to cell 12 over the
path 6, 12 although the tile directly above the landing cell 12 (cell 17) is solid. The
headroom loop of the diagonal ascent finds it and sets `bSkip`, but its `break` leaves only
that loop, and the link is made all the same. -/
theorem diagonal_headroom_slip :
    (cellAt (BuildNavigation natOps zeroOob [] 1 1 5 5 gridLowCeiling).navMap 6).link_jump.map
        (fun j => (j.index, j.jump_path))
      = [(12, [6, 12])] ∧
    (cellAt (BuildNavigation natOps zeroOob [] 1 1 5 5 gridLowCeiling).navMap
      (12 + 1 * 5)).collision = 0 := by
  decide!

/-- C11, amended: for every jump link created by `BuildNavigation` with body height `v`, the
stored traversed path is the path of an arc (`JumpPathOK`, `JumpPathAt`) of some height, some
straight ascent `offset` below that height and a direction: the base cell; the `offset`
cells straight above it, each with clear headroom (no solid tile among the cell and the
in-grid cells up to `v` rows above it); then the cells of the diagonal ascent, each an open
tile; and, when the landing cell is not met in the diagonal ascent, all cells of the diagonal
ascent have clear headroom and the cells of the descent and the drop follow, the landing
cell included, each an open tile (no headroom is tested for them). Nothing is said about the
headroom of the diagonal cells of a link whose landing cell is met in the diagonal ascent. -/
theorem C11_jump_path_cells_open {F : Type} (ops : FloatOps F) (oob : Oob F) (pr : List Nat)
    (J v w h : Nat) (MapIn : List Nat) (a : Nat) (j : JumpInfo F)
    (hj : j ∈ (cellAt (BuildNavigation ops oob pr J v w h MapIn).navMap a).link_jump) :
    JumpPathOK oob (BuildNavigation ops oob pr J v w h MapIn).navMap w v a j.jump_path :=
  build_jump_paths ops oob pr J v w h MapIn a j hj

/-- C11 amended, at the jump link from cell 14 to cell 20 of `gridDetour` (jump height 2),
whose path 14, 22, 29, 20 has one cell of straight ascent (22), one of diagonal ascent (29)
and the landing cell in the descent (20). -/
theorem C11_jump_path_cells_open_witness :
    ({ index := 20, bez0 := 30, bez1 := 28, jump_cost := 2828, jump_path := [14, 22, 29, 20] } :
        JumpInfo Nat)
      ∈ (cellAt (BuildNavigation milliOps zeroOob [] 2 1 8 8 gridDetour).navMap 14).link_jump ∧
    JumpPathOK zeroOob (BuildNavigation milliOps zeroOob [] 2 1 8 8 gridDetour).navMap 8 1 14
      [14, 22, 29, 20] ∧
    [(14 : Nat)] ++ (upCells 8 6 1 1 ++ diagCells 8 6 1 (-1) (1 + 1) 1 (2 - 1)
        ++ [firstDown 8 6 1 (-1) 2 1]).map toU32 = [14, 22, 29, 20] :=
  ⟨by decide!,
    C11_jump_path_cells_open milliOps zeroOob [] 2 1 8 8 gridDetour 14
      { index := 20, bez0 := 30, bez1 := 28, jump_cost := 2828, jump_path := [14, 22, 29, 20] }
      (by decide!),
    by decide⟩

/-- C12 (code defect, the one of C9): on `gridWrap` with jump height 1 the jump link from
cell 11 (column 5) to cell 18 (column 0) is recorded with cost `sqrt(1² + 1²)` (1.414 in
thousandths), the arc's step counter squared, although the columns of base and landing cell
differ by 5, for which the claim's formula gives `sqrt(5² + 1²)` (5.099). -/
theorem C12_cost_uses_step_counter :
    (cellAt (navWrap milliOps zeroOob) 11).link_jump.map (fun j => (j.index, j.jump_cost))
      = [(18, milliOps.sqrt (milliOps.add (milliOps.pow2 (milliOps.ofInt 1))
                                          (milliOps.pow2 (milliOps.ofInt 1))))] ∧
    milliOps.sqrt (milliOps.add (milliOps.pow2 (milliOps.ofInt 1))
                                (milliOps.pow2 (milliOps.ofInt 1))) = 1414 ∧
    (cellAt (navWrap milliOps zeroOob) 11).x_coord = 5 ∧
    (cellAt (navWrap milliOps zeroOob) 18).x_coord = 0 ∧
    milliOps.sqrt (milliOps.add (milliOps.pow2 (milliOps.ofInt (5 - 0)))
                                (milliOps.pow2 (milliOps.ofInt 1))) = 5099 := by
  decide!

/-- C13 (code defect): in the search from (1, 1) to (5, 1) on the flat platform of
`gridFlat` (no jumps), every node created by `AddNodeToOpenList` carries the distance of its
parent to the goal as `H`: the path nodes at cells 12, 11, 10, 9 have `H` 1, 2, 3, 4 (in
thousandths) while their own distances to the goal cell 12 are 0, 1, 2, 3. -/
theorem C13_H_is_parent_distance :
    (search milliOps zeroOob zeroUnset (navFlat milliOps zeroOob 0) 7 7 1 1 5 1 20).map
        (fun s => (GetPath s).map (fun n =>
          (n.index, n.H, GetH milliOps n.x_coord n.z_coord { x_coord := 5, z_coord := 1, index := 12 })))
      = some [(12, 1000, 0), (11, 2000, 1000), (10, 3000, 2000), (9, 4000, 3000),
              (8, 4000, 4000)] := by
  decide!

/-- C14 (code defect): in the search from (1, 1) to (5, 1) on `gridFlat` with jump height 1,
after the second call of `CheckPath` the open list holds two nodes at cell 10: the node put
there by the jump from cell 8 was replaced in place by the cheaper run from cell 9, and the
new node was appended as well. -/
theorem C14_duplicate_after_replace :
    ((checkPathNext milliOps zeroOob (navFlat milliOps zeroOob 1) 7
        (SetStartAndGoal milliOps zeroUnset 7 7 DeletePath 1 1 5 1)).map
        (fun s => s.openList.map (fun n => (n.index, n.type, n.G))))
      = some [(9, 1, 1000), (10, 3, 2236)] ∧
    (((checkPathNext milliOps zeroOob (navFlat milliOps zeroOob 1) 7
        (SetStartAndGoal milliOps zeroUnset 7 7 DeletePath 1 1 5 1)).bind
        (checkPathNext milliOps zeroOob (navFlat milliOps zeroOob 1) 7)).map
        (fun s => s.openList.map (fun n => (n.index, n.type, n.G))))
      = some [(10, 1, 2000), (10, 1, 2000), (11, 3, 3236)] := by
  decide!

/-- C15, as stated, fails: on `gridFlat` with jump height 1, expanding the start node at
cell 8 proposes the jump successor at cell 10 with the waypoint list `[10]`, while the
stored path of that jump link is `[8, 16, 10]`. -/
theorem C15_counterexample :
    ((checkPathNext natOps zeroOob (navFlat natOps zeroOob 1) 7
        (SetStartAndGoal natOps zeroUnset 7 7 DeletePath 1 1 5 1)).map
        (fun s => s.openList.map (fun n => (n.index, n.type, n.directions))))
      = some [(9, 1, [8, 9]), (10, 3, [10])] ∧
    (cellAt (navFlat natOps zeroOob 1) 8).link_jump.map (fun j => (j.index, j.jump_path))
      = [(10, [8, 16, 10])] := by
  decide!

/-- C15, amended: for a jump link `jump` whose target is a cell of the grid, the jump-link
loop body of `CheckPath` leaves in the open list only nodes that were there or that are the
successor `JumpChild` describes: located at the link's target, `G` the current `G` plus the
stored jump cost, edge type 3, the link's curve-control pair, parent the expanded node, and
as waypoint sequence the one-element list holding the target index (not the stored
`jump_path`); when the target is neither visited nor in the open list, exactly that
successor is appended. -/
theorem C15_jump_successor_fields {F : Type} (ops : FloatOps F) (oob : Oob F)
    (nav : List (NavPoint F)) (w h : Nat) (goal : GoalNode) (cur : PathNode F)
    (s : SearchState F) (jump : JumpInfo F)
    (hg : GridShaped nav w h) (hb : jump.index < w * h) :
    (∀ n, n ∈ (expandJump ops oob nav w goal cur s jump).openList →
      n ∈ s.openList ∨ JumpChild ops nav cur jump n) ∧
    ((jump.index : Int) ∉ visitedIdx s → (jump.index : Int) ∉ openIdx s →
      ∃ n, (expandJump ops oob nav w goal cur s jump).openList = s.openList ++ [n] ∧
        JumpChild ops nav cur jump n) :=
  expandJump_fields ops oob nav w h goal cur s jump hg hb

/-- C15 amended, on `navLine` for a jump link to cell 2 with the stored path 1, 4, 2, proposed
from a node at cell 1 to the empty search state. -/
theorem C15_jump_successor_fields_witness :
    GridShaped navLine 3 1 ∧ 2 < 3 * 1 ∧
    (∀ n, n ∈ (expandJump natOps zeroOob navLine 3 { x_coord := 2, z_coord := 0, index := 2 }
          { x_coord := 1, z_coord := 0, index := 1, type := 1, bez0 := -1, bez1 := -1,
            parent := none, G := 1, H := 2, directions := [0, 1] }
          DeletePath
          { index := 2, bez0 := 7, bez1 := 8, jump_cost := 2, jump_path := [1, 4, 2] }).openList →
      n ∈ (DeletePath : SearchState Nat).openList ∨
      JumpChild natOps navLine
        { x_coord := 1, z_coord := 0, index := 1, type := 1, bez0 := -1, bez1 := -1,
          parent := none, G := 1, H := 2, directions := [0, 1] }
        { index := 2, bez0 := 7, bez1 := 8, jump_cost := 2, jump_path := [1, 4, 2] } n) ∧
    (expandJump natOps zeroOob navLine 3 { x_coord := 2, z_coord := 0, index := 2 }
        { x_coord := 1, z_coord := 0, index := 1, type := 1, bez0 := -1, bez1 := -1,
          parent := none, G := 1, H := 2, directions := [0, 1] }
        DeletePath
        { index := 2, bez0 := 7, bez1 := 8, jump_cost := 2, jump_path := [1, 4, 2] }).openList.map
      (fun n => ((n.index, n.G, n.type), (n.bez0, n.bez1, n.directions)))
      = [((2, 3, 3), (7, 8, [2]))] :=
  ⟨gridShaped_navLine, by decide,
    (C15_jump_successor_fields natOps zeroOob navLine 3 1 { x_coord := 2, z_coord := 0, index := 2 }
      { x_coord := 1, z_coord := 0, index := 1, type := 1, bez0 := -1, bez1 := -1,
        parent := none, G := 1, H := 2, directions := [0, 1] }
      DeletePath
      { index := 2, bez0 := 7, bez1 := 8, jump_cost := 2, jump_path := [1, 4, 2] }
      gridShaped_navLine (by decide)).1,
    by decide!⟩

/-- C16 (code defect): on the 6 × 6 graph of `gridWrap`, a start that resolves to
`(x, z) = (11, 0)`, outside the grid in `x`, is taken for cell 11 = (5, 1): `FindPath` to the
goal (0, 3) returns the vector (16, 32, 128), not the zero vector, and leaves the path
18, 11 in the waypoint list. -/
theorem C16_start_outside_grid_accepted :
    (FindPath natOps zeroOob zeroUnset (navWrap natOps zeroOob) 6 6 32 11 0 0 3 20).map
        (fun r => (r.1, (GetPath r.2).map (fun n => n.index)))
      = some ({ X := 16, Y := 32, Z := 128 }, [18, 11]) ∧
    ({ X := 16, Y := 32, Z := 128 } : FVector) ≠ ZeroVector := by
  decide!

/-- C17, as stated, fails: on the graph of `gridFlat` the start (2, 3) resolves to cell 23,
which is free but not classified (and neither is the cell above it); `FindPath` to (5, 1)
returns (176, 32, 64), not the zero vector, and the search has run: the visited list holds
the start node. -/
theorem C17_counterexample :
    startAbove zeroOob (navFlat natOps zeroOob 0) 7 3 (3 * 7 + 2) = (3, 23) ∧
    (cellAt (navFlat natOps zeroOob 0) 23).nav_type = 0 ∧
    (FindPath natOps zeroOob zeroUnset (navFlat natOps zeroOob 0) 7 7 32 2 3 5 1 20).map
        (fun r => (r.1, r.2.visitedList.map (fun n => n.index)))
      = some ({ X := 176, Y := 32, Z := 64 }, [23]) ∧
    ({ X := 176, Y := 32, Z := 64 } : FVector) ≠ ZeroVector := by
  decide!

/-- C17, amended: for every graph of `w * h` cells and in-grid start and goal, if after the
corrections of `FindPath` (`startAbove`, `goalResolve`) the resolved start cell or the
resolved goal cell is a solid tile (collision 0), `FindPath` returns the zero vector and does
not run the search: the search members are those `DeletePath` leaves (no goal, empty open
list, visited list and waypoint list). The test is on the tile being solid, not on the cell
being navigable. -/
theorem C17_solid_cell_reports_failure {F : Type} (ops : FloatOps F) (oob : Oob F) (u : Unset)
    (nav : List (NavPoint F)) (w h cellSize sx sz gx gz fuel : Nat)
    (hlen : nav.length = w * h) (hsx : sx < w) (hsz : sz < h) (hgx : gx < w) (hgz : gz < h)
    (hsolid :
      (rdNav oob nav ((startAbove oob nav w (sz : Int) ((sz : Int) * w + sx)).1 * w + sx)).collision
          = 0 ∨
      (rdNav oob nav ((goalResolve oob nav w (gx : Int) (gz : Int)
          ((gz : Int) * w + gx)).1 * w + gx)).collision = 0) :
    FindPath ops oob u nav w h cellSize (sx : Int) (sz : Int) (gx : Int) (gz : Int) fuel
      = some (ZeroVector, DeletePath) := by
  have h1 := cell_index_lt hsx hsz
  have h2 := cell_index_lt hgx hgz
  have hguard : ¬ ((sz : Int) < 0 ∨ (gz : Int) < 0 ∨ (sz : Int) * w + sx ≥ nav.length ∨
      (gz : Int) * w + gx ≥ nav.length) := by
    rw [hlen]
    have e1 : ((sz * w + sx : Nat) : Int) = (sz : Int) * w + sx := by push_cast; rfl
    have e2 : ((gz * w + gx : Nat) : Int) = (gz : Int) * w + gx := by push_cast; rfl
    rw [← e1, ← e2]
    have h1i : ((sz * w + sx : Nat) : Int) < ((w * h : Nat) : Int) := by exact_mod_cast h1
    have h2i : ((gz * w + gx : Nat) : Int) < ((w * h : Nat) : Int) := by exact_mod_cast h2
    omega
  unfold FindPath
  simp only
  rw [if_neg hguard, if_pos hsolid]

/-- C17 amended, on the graph of `gridFlat`: the start (0, 1) resolves to the solid cell 7. -/
theorem C17_solid_cell_reports_failure_witness :
    (navFlat natOps zeroOob 0).length = 7 * 7 ∧
    (rdNav zeroOob (navFlat natOps zeroOob 0)
      ((startAbove zeroOob (navFlat natOps zeroOob 0) 7 ((1 : Nat) : Int)
        (((1 : Nat) : Int) * (7 : Nat) + (0 : Nat))).1 * (7 : Nat) + (0 : Nat))).collision = 0 ∧
    FindPath natOps zeroOob zeroUnset (navFlat natOps zeroOob 0) 7 7 32
      ((0 : Nat) : Int) ((1 : Nat) : Int) ((5 : Nat) : Int) ((1 : Nat) : Int) 20
      = some (ZeroVector, DeletePath) :=
  ⟨by decide!, by decide!,
    C17_solid_cell_reports_failure natOps zeroOob zeroUnset (navFlat natOps zeroOob 0) 7 7 32
      0 1 5 1 20 (by decide!) (by decide) (by decide) (by decide) (by decide)
      (Or.inl (by decide!))⟩

/-- For a fixed content of the memory outside the buffers, the navigation graph
`BuildNavigation` leaves does not depend on the earlier state (the earlier graph is discarded
and the earlier `platformsReached` never influences a link); so a second call with the same
grid and parameters, made on the state the first call left, yields the same graph as the
first. -/
theorem build_independent_of_prior_state {F : Type} (ops : FloatOps F) (oob : Oob F)
    (pr pr2 : List Nat) (J v w h : Nat) (MapIn : List Nat) :
    (BuildNavigation ops oob pr J v w h MapIn).navMap
      = (BuildNavigation ops oob pr2 J v w h MapIn).navMap ∧
    (BuildNavigation ops oob (BuildNavigation ops oob pr J v w h MapIn).platformsReached
        J v w h MapIn).navMap
      = (BuildNavigation ops oob pr J v w h MapIn).navMap :=
  ⟨build_navMap_indep ops oob pr pr2 J v w h MapIn,
    build_navMap_indep ops oob _ pr J v w h MapIn⟩

/-- C18 (code defect, the one of C19 and C20): the graph `BuildNavigation` makes of the
3 × 3 grid `gridTopRight` is not determined by the arguments. For the last cell 8
`DetectPlatforms` reads `MapIn[index + 1]`, one past the buffer; with a 0 there cell 8 is a
RightEdge and cells 7 and 8 are linked by run links, with a byte that is neither 0 nor 1
cell 8 is unclassified and cell 7 has no run link. -/
theorem C18_graph_depends_on_byte_past_buffer :
    (BuildNavigation natOps (constOob 0) [] 0 1 3 3 gridTopRight).navMap.map
        (fun c => (c.nav_type, c.link_run))
      = [(0, []), (0, []), (0, []), (0, []), (0, []), (0, []), (0, []), (1, [8]), (3, [7])] ∧
    (BuildNavigation natOps (constOob 2) [] 0 1 3 3 gridTopRight).navMap.map
        (fun c => (c.nav_type, c.link_run))
      = [(0, []), (0, []), (0, []), (0, []), (0, []), (0, []), (0, []), (1, []), (0, [])] := by
  decide!

/-- C19 (code defect): on the 2 × 2 grid `gridBottomFree` the classification of cell 0
depends on what lies outside the collision buffer: for the free cell 0 of row 0
`DetectPlatforms` reads `MapIn[index - mapWidth]`, an index that is no cell of the grid. With
a 0 there the cell becomes Lone, with a 1 it stays unclassified. -/
theorem C19_reads_outside_buffer :
    (cellAt (DetectPlatforms (constOob 0) 2 2 gridBottomFree) 0).nav_type = 4 ∧
    (cellAt (DetectPlatforms (constOob 1) 2 2 gridBottomFree) 0).nav_type = 0 := by
  decide!

/-- C20 (code defect, of the kind of C19): on the square 3 × 3 grid `gridTopRight` the last
cell 8 is standable (free, colliding tile below) and continues the platform opened at cell
7, but its class depends on `MapIn[index + 1]`, one past the buffer: when that byte is
neither 0 nor 1 the cell stays unclassified. At every other cell of the rows `z ≥ 1` the
claim holds (`detectPlatforms_square_class`). -/
theorem C20_last_cell_unclassified :
    gridTopRight.getD 8 0 = 1 ∧ gridTopRight.getD (8 - 3) 0 = 0 ∧
    (cellAt (DetectPlatforms (constOob 2) 3 3 gridTopRight) 7).nav_type = 1 ∧
    (cellAt (DetectPlatforms (constOob 2) 3 3 gridTopRight) 8).nav_type = 0 ∧
    (cellAt (DetectPlatforms (constOob 0) 3 3 gridTopRight) 8).nav_type = 3 := by
  decide!

/-! ## Claims about node selection and path cost -/

/-- C21: on a non-empty open list whose `F` values are comparable (`<` is a strict weak order
on them, as on floats that are not NaN), `GetNextNode` returns the node at a position `i`
such that no node of the list has a lower `F = G + H` and every node before position `i` has
a strictly higher `F` (lowest `F`, first position on ties); it appends that node to the
visited list and removes the element at position `i` from the open list, the other nodes
keeping their order. -/
theorem C21_next_node_lowest_F_first {F : Type} (ops : FloatOps F) (s : SearchState F)
    (hne : s.openList ≠ [])
    (hord : WeakOrderOn ops (s.openList.map (fun n => n.GetF ops))) :
    ∃ (i : Nat) (cur : PathNode F), s.openList.get? i = some cur ∧
      cur.GetF ops = ops.add cur.G cur.H ∧
      (∀ j n, s.openList.get? j = some n → ops.lt (n.GetF ops) (cur.GetF ops) = false) ∧
      (∀ j n, j < i → s.openList.get? j = some n →
        ops.lt (cur.GetF ops) (n.GetF ops) = true) ∧
      GetNextNode ops s = (some cur,
        { s with visitedList := s.visitedList ++ [cur],
                 openList := s.openList.eraseIdx i }) := by
  obtain ⟨i, cur, h1, h2, h3, h4⟩ := getNextNode_lowest ops s hne hord
  exact ⟨i, cur, h1, rfl, h2, h3, h4⟩

/-- C21 on the open list of `openFour`, whose nodes at the cells 7, 8, 9, 10 have `F` = 5, 3,
3, 4: the node at cell 8 is returned, the first of the two with the lowest `F`. -/
theorem C21_next_node_lowest_F_first_witness :
    openFour.openList ≠ [] ∧
    WeakOrderOn natOps (openFour.openList.map (fun n => n.GetF natOps)) ∧
    (∃ (i : Nat) (cur : PathNode Nat), openFour.openList.get? i = some cur ∧
      cur.GetF natOps = natOps.add cur.G cur.H ∧
      (∀ j n, openFour.openList.get? j = some n →
        natOps.lt (n.GetF natOps) (cur.GetF natOps) = false) ∧
      (∀ j n, j < i → openFour.openList.get? j = some n →
        natOps.lt (cur.GetF natOps) (n.GetF natOps) = true) ∧
      GetNextNode natOps openFour = (some cur,
        { openFour with visitedList := openFour.visitedList ++ [cur],
                        openList := openFour.openList.eraseIdx i })) ∧
    (GetNextNode natOps openFour).1.map (fun n => (n.index, n.GetF natOps)) = some (8, 3) ∧
    (GetNextNode natOps openFour).2.openList.map (fun n => n.index) = [7, 9, 10] ∧
    (GetNextNode natOps openFour).2.visitedList.map (fun n => n.index) = [6, 8] :=
  ⟨List.cons_ne_nil _ _, weakOrderOn_natOps _,
    C21_next_node_lowest_F_first natOps openFour (List.cons_ne_nil _ _) (weakOrderOn_natOps _),
    by decide!, by decide!, by decide!⟩

/-- C22 (code defect, the one of C13): on the graph of `gridDetour` with jump height 2 the
search from cell 14 = (6, 1) to cell 9 = (1, 1) returns the path 14, 13, 11, 9 (run, jump,
jump) whose goal node has `G` = 6.064 (in thousandths), although the jump link from cell 14
to cell 10 (cost 4.472) followed by the run link from cell 10 to cell 9 (cost 1) leads from
the start to the goal at cost 5.472. The node at cell 10 is still in the open list when the
goal is taken: it carries `H` = 5, the distance of its parent (the start) to the goal, where
its own distance is 1. -/
theorem C22_found_path_not_shortest :
    ((search milliOps zeroOob zeroUnset (navDetour milliOps zeroOob) 8 8 6 1 1 1 20).map
        (fun s => (GetPath s).map (fun n => (n.index, n.type, n.G))))
      = some [(9, 3, 6064), (11, 3, 3828), (13, 1, 1000), (14, 0, 0)] ∧
    (cellAt (navDetour milliOps zeroOob) 14).link_jump.map (fun j => (j.index, j.jump_cost))
      = [(20, 2828), (10, 4472)] ∧
    (cellAt (navDetour milliOps zeroOob) 10).link_run = [9, 11] ∧
    milliOps.add (milliOps.add (milliOps.ofInt 0) 4472) (milliOps.ofInt 1) = 5472 ∧
    milliOps.lt 5472 6064 = true ∧
    ((search milliOps zeroOob zeroUnset (navDetour milliOps zeroOob) 8 8 6 1 1 1 20).map
        (fun s => s.openList.map (fun n => ((n.index, n.G),
          (n.H, GetH milliOps n.x_coord n.z_coord { x_coord := 1, z_coord := 1, index := 9 })))))
      = some [((10, 4472), (5000, 1000))] := by
  decide!

end NavSystem
